import Mathlib

/-!
# Tile pyramid of vtkMap: cache, Mercator math and viewport-to-tile selection

Shallow embedding of `vtkOsmLayer.cxx`, `vtkMap.cxx`, `vtkMapTile.cxx` and of the function
`fixCameraZ` of `vtkInteractorStyleMap3D.cxx`.

Modelling conventions
* `int` values are mathematical integers (`Int`); a zoom level is a `Nat`, and
  `1 << zoomLevel` is `2 ^ zoomLevel` (exact for the zoom levels 0..30 for which the
  shift is defined on a 32-bit `int`).
* `double` values are exact numbers: rationals where the source only uses field
  arithmetic and comparisons (tile corners, view coordinates), reals where the source
  calls `floor`, `log`, `tan`, `cos`, `atan`, `exp` (the Mercator functions and the
  world points handed to them).
* Where a statement is about the rounding itself, an operation on `double` values is the
  exact operation followed by `roundDouble`, the rounding to the nearest `double`
  (`long2tilex_double`, `SelectTiles_Corners0_double`).
* A `vtkMapTile*` is `Option Nat`: `none` is the null pointer, `some a` the object at
  address `a`; tile objects live in a store indexed by address.
* `std::map` is an association list with increasing keys; `operator[]` inserts a
  value-initialised entry when the key is missing.
* External collaborators (the renderer's projection, `Map->GetZoom()`) are parameters.
* The renderer's prop collection is a list: `AddViewProp` and `AddActor` append a prop
  that is not null and not yet held, `RemoveActor` takes out the first occurrence of a
  prop, `RemoveAllViewProps` empties the collection (the behaviour of the VTK classes
  `vtkViewport` and `vtkCollection`).
* `std::sort` is modelled by a stable sort; no statement depends on the order among
  tiles of equal `Bin`.
* The Mercator functions are real-valued and therefore not executable; so are the two
  selectors as a whole, which start by calling them. Everything a selector does once the
  tile indices are known is in the executable definitions `SelectTiles_tiles` and
  `SelectTilesPerspective_loops`.
* A selection pass keeps a record of the statements it executes (`Selection.trace`):
  on-screen tests, cache lookups, and pushes to the two output vectors. The record is
  never read by the code; it is what the statements about "every key looked up" or
  "no tile is visited" quantify over, and `Selection.Extends` ties it to the vectors.
* Time stamps are kept per tile: `Modified()` and `BuildTime.Modified()` set a stamp
  larger than both stamps of the tile. VTK draws stamps from one increasing counter;
  the code only ever compares a tile's `MTime` with its own `BuildTime`.
* Everything outside the layer is in `Host`: the files, what the tile server answers,
  whether directories exist or can be made, the props of the renderer, the next free
  object address, and a record of the calls and reports made (downloads, image reads,
  errors, warnings). A function that would dereference a null pointer or stream a null
  `char*` returns `none`.
* The camera functions `computeCameraDistance`, `computeZoomLevel` and `fixCameraZ` are
  over exact reals; a run of `computeZoomLevel` that reaches the end of the function
  without a `return` has the result `none`.
* The value of the enumerator `Hidden`, declared in `vtkMapTile.h`, is a parameter of
  every definition that compares `Bin` values; the `Bin` of a visible tile is the integer
  conversion of `true`.
* Sequences of calls on one layer are lists of `LayerCall`, run by `vtkOsmLayer.runAll`;
  sequences of update passes are lists of viewports, run by `vtkOsmLayer.AddTiles_passes`.
-/

/-- A `vtkMapTile*`. -/
abbrev TilePtr := Option Nat

/-- The contents of a `std::map<int, V>`. -/
abbrev StdMap (V : Type) := List (Int × V)

/-- The call `m.find(k)`, with `none` for `m.end()`. -/
def StdMap.find {V : Type} : StdMap V → Int → Option V
  | [], _ => none
  | (k', v) :: rest, k => if k = k' then some v else StdMap.find rest k

/-- Store `v` under key `k`: replaces the entry of `k`, or inserts one in key order. -/
def StdMap.assign {V : Type} : StdMap V → Int → V → StdMap V
  | [], k, v => [(k, v)]
  | (k', v') :: rest, k, v =>
      if k < k' then (k, v) :: (k', v') :: rest
      else if k = k' then (k, v) :: rest
      else (k', v') :: StdMap.assign rest k v

/-- The expression `m[k]`: when `k` is missing, an entry holding the value-initialised
`dflt` is inserted first. Yields the value found and the map afterwards. -/
def StdMap.index {V : Type} (dflt : V) (m : StdMap V) (k : Int) : V × StdMap V :=
  match StdMap.find m k with
  | some v => (v, m)
  | none => (dflt, StdMap.assign m k dflt)

/-- The type `std::map<int, std::map<int, std::map<int, vtkMapTile*> > >`. -/
abbrev TileMap := StdMap (StdMap (StdMap TilePtr))

/-- The expression `m[zoom]` on the nested map. -/
def TileMap.index1 (m : TileMap) (zoom : Int) : StdMap (StdMap TilePtr) × TileMap :=
  StdMap.index [] m zoom

/-- The expression `m[zoom][x]` on the nested map: both levels are created when missing. -/
def TileMap.index2 (m : TileMap) (zoom x : Int) : StdMap TilePtr × TileMap :=
  let r1 := StdMap.index [] m zoom
  let r2 := StdMap.index [] r1.1 x
  (r2.1, StdMap.assign r1.2 zoom r2.2)

/-- The expression `m[zoom][x][y]` read as a value: all three levels are created when
missing, the innermost holding a null pointer. -/
def TileMap.index3 (m : TileMap) (zoom x y : Int) : TilePtr × TileMap :=
  let r1 := StdMap.index [] m zoom
  let r2 := StdMap.index [] r1.1 x
  let r3 := StdMap.index none r2.1 y
  (r3.1, StdMap.assign r1.2 zoom (StdMap.assign r2.2 x r3.2))

/-- The statement `m[zoom][x][y] = tile`. -/
def TileMap.store (m : TileMap) (zoom x y : Int) (tile : TilePtr) : TileMap :=
  let r1 := StdMap.index [] m zoom
  let r2 := StdMap.index [] r1.1 x
  let r3 := StdMap.index none r2.1 y
  StdMap.assign r1.2 zoom (StdMap.assign r2.2 x (StdMap.assign r3.2 y tile))

/-- Body shared by `vtkOsmLayer::GetCachedTile` and `vtkMap::GetCachedTile`:
```
if (M.find(zoom) == M.end() &&
    M[zoom].find(x) == M[zoom].end() &&
    M[zoom][x].find(y) == M[zoom][x].end())
  return NULL;
return M[zoom][x][y];
```
The operands of `&&` are evaluated left to right and only while the previous ones hold;
each `operator[]` may insert. Yields the returned pointer and the map afterwards. -/
def TileMap.getCached (m : TileMap) (zoom x y : Int) : TilePtr × TileMap :=
  if (StdMap.find m zoom).isNone then
    let r1 := TileMap.index1 m zoom
    if (StdMap.find r1.1 x).isNone then
      let r2 := TileMap.index2 r1.2 zoom x
      if (StdMap.find r2.1 y).isNone then (none, r2.2)
      else TileMap.index3 r2.2 zoom x y
    else TileMap.index3 r1.2 zoom x y
  else TileMap.index3 m zoom x y

/-- Values stored in `vtkMapTile::Bin`: the enumerator `Hidden`, or the integer conversion
of a `bool` (the assignment `this->Bin = VisibleFlag`). -/
inductive BinValue where
  | Hidden : BinValue
  | ofBool : Bool → BinValue
  deriving DecidableEq, Repr

/-- The fields of a `vtkMapTile` object that the tile pyramid reads or writes. -/
structure vtkMapTile where
  Corners0 : ℚ
  Corners1 : ℚ
  Corners2 : ℚ
  Corners3 : ℚ
  VisibleFlag : Bool
  Bin : BinValue
  Actor : Option Nat
  Plane : Option Nat := none
  TexturePlane : Option Nat := none
  Mapper : Option Nat := none
  ImageFile : String := ""
  ImageSource : String := ""
  ImageKey : String := ""
  MTime : Nat := 1
  BuildTime : Nat := 0

/-- The constructor `vtkMapTile::vtkMapTile()`. -/
def vtkMapTile.New : vtkMapTile :=
  { Corners0 := 0, Corners1 := 0, Corners2 := 0, Corners3 := 0,
    VisibleFlag := false, Bin := BinValue.Hidden, Actor := none }

/-- The call `this->Modified()`: the modification time of the tile becomes a new stamp. -/
def vtkMapTile.Modified (t : vtkMapTile) : vtkMapTile :=
  { t with MTime := max t.MTime t.BuildTime + 1 }

/-- The method `vtkMapTile::SetVisible`. -/
def vtkMapTile.SetVisible (t : vtkMapTile) (val : Bool) : vtkMapTile :=
  if val != t.VisibleFlag then
    let t1 := { t with VisibleFlag := val }
    let t2 := if t1.VisibleFlag then { t1 with Bin := BinValue.ofBool t1.VisibleFlag }
      else { t1 with Bin := BinValue.Hidden }
    t2.Modified
  else t

/-- The state of a `vtkOsmLayer` that the tile pyramid uses, with the store of the tile
objects its pointers refer to. -/
structure vtkOsmLayer where
  CachedTilesMap : TileMap
  CachedTiles : List TilePtr
  objects : Nat → vtkMapTile
  /-- The member `TileBorders[4]`; the constructor leaves it unset, the model starts at 0. -/
  TileBorders0 : ℚ := 0
  TileBorders1 : ℚ := 0
  TileBorders2 : ℚ := 0
  TileBorders3 : ℚ := 0
  MapTileServer : String := "tile.openstreetmap.org"
  MapTileExtension : String := "png"
  MapTileAttribution : String := "(c) OpenStreetMap contributors"
  AttributionActor : Option Nat := none
  CacheDirectory : Option String := none
  /-- The member `Map`: `none` is the null pointer, `some dir` a map whose
  `GetStorageDirectory()` is `dir`. -/
  Map : Option String := none
  /-- Whether the member `Renderer` is set; the props of that renderer are
  `Host.ViewProps`. -/
  Renderer : Bool := true

/-- A freshly constructed layer: both containers are empty. -/
def vtkOsmLayer.New (objects : Nat → vtkMapTile) : vtkOsmLayer :=
  { CachedTilesMap := [], CachedTiles := [], objects := objects }

/-- The method `vtkOsmLayer::AddTileToCache`. -/
def vtkOsmLayer.AddTileToCache (self : vtkOsmLayer) (zoom x y : Int) (tile : TilePtr) :
    vtkOsmLayer :=
  { self with
    CachedTilesMap := TileMap.store self.CachedTilesMap zoom x y tile
    CachedTiles := self.CachedTiles ++ [tile] }

/-- The method `vtkOsmLayer::GetCachedTile`: the returned pointer and the layer afterwards. -/
def vtkOsmLayer.GetCachedTile (self : vtkOsmLayer) (zoom x y : Int) :
    TilePtr × vtkOsmLayer :=
  let r := TileMap.getCached self.CachedTilesMap zoom x y
  (r.1, { self with CachedTilesMap := r.2 })

/-- The cache state of the `vtkMap` class of `vtkMap.cxx`. -/
structure vtkMap where
  CachedTiles : TileMap
  CachedActors : List (Option Nat)
  objects : Nat → vtkMapTile
  NewPendingTiles : List Nat := []

/-- A freshly constructed `vtkMap`: both containers are empty. -/
def vtkMap.New (objects : Nat → vtkMapTile) : vtkMap :=
  { CachedTiles := [], CachedActors := [], objects := objects }

/-- The method `vtkMap::AddTileToCache`; `tile` is dereferenced, so it is an address. -/
def vtkMap.AddTileToCache (self : vtkMap) (zoom x y : Int) (tile : Nat) : vtkMap :=
  { self with
    CachedTiles := TileMap.store self.CachedTiles zoom x y (some tile)
    CachedActors := self.CachedActors ++ [(self.objects tile).Actor] }

/-- The method `vtkMap::GetCachedTile`: the returned pointer and the map object afterwards. -/
def vtkMap.GetCachedTile (self : vtkMap) (zoom x y : Int) : TilePtr × vtkMap :=
  let r := TileMap.getCached self.CachedTiles zoom x y
  (r.1, { self with CachedTiles := r.2 })

/-- A call made on a layer's cache. -/
inductive CacheCall where
  | AddTileToCache (zoom x y : Int) (tile : TilePtr) : CacheCall
  | GetCachedTile (zoom x y : Int) : CacheCall

/-- Run one cache call on a layer. -/
def vtkOsmLayer.call (self : vtkOsmLayer) : CacheCall → vtkOsmLayer
  | CacheCall.AddTileToCache zoom x y tile => self.AddTileToCache zoom x y tile
  | CacheCall.GetCachedTile zoom x y => (self.GetCachedTile zoom x y).2

/-- Run a sequence of cache calls, first call first. -/
def vtkOsmLayer.calls (self : vtkOsmLayer) (cs : List CacheCall) : vtkOsmLayer :=
  cs.foldl vtkOsmLayer.call self

/-- A call made on the cache of a `vtkMap`. -/
inductive MapCacheCall where
  | AddTileToCache (zoom x y : Int) (tile : Nat) : MapCacheCall
  | GetCachedTile (zoom x y : Int) : MapCacheCall

/-- Run one cache call on a `vtkMap`. -/
def vtkMap.call (self : vtkMap) : MapCacheCall → vtkMap
  | MapCacheCall.AddTileToCache zoom x y tile => self.AddTileToCache zoom x y tile
  | MapCacheCall.GetCachedTile zoom x y => (self.GetCachedTile zoom x y).2

/-- Run a sequence of cache calls, first call first. -/
def vtkMap.calls (self : vtkMap) (cs : List MapCacheCall) : vtkMap :=
  cs.foldl vtkMap.call self

/-- Specification side of the cache: a flat map keyed by `(zoom, x, y)`, absent keys
reading as the null pointer. -/
abbrev FlatCache := Int × Int × Int → TilePtr

/-- The empty flat cache. -/
def FlatCache.empty : FlatCache := fun _ => none

/-- Flat insert: unconditional overwrite of one key. -/
def FlatCache.insert (c : FlatCache) (key : Int × Int × Int) (tile : TilePtr) : FlatCache :=
  fun k => if k = key then tile else c k

/-- The flat cache after a sequence of calls: inserts overwrite their key, gets do nothing.
Its value at a key is the tile of the most recent `AddTileToCache` for exactly that key,
and null when there was none. -/
def FlatCache.calls (c : FlatCache) : List CacheCall → FlatCache
  | [] => c
  | CacheCall.AddTileToCache zoom x y tile :: cs =>
      FlatCache.calls (FlatCache.insert c (zoom, x, y) tile) cs
  | CacheCall.GetCachedTile _ _ _ :: cs => FlatCache.calls c cs

/-- The flat cache after a sequence of calls on a `vtkMap`. -/
def FlatCache.mapCalls (c : FlatCache) : List MapCacheCall → FlatCache
  | [] => c
  | MapCacheCall.AddTileToCache zoom x y tile :: cs =>
      FlatCache.mapCalls (FlatCache.insert c (zoom, x, y) (some tile)) cs
  | MapCacheCall.GetCachedTile _ _ _ :: cs => FlatCache.mapCalls c cs

/-- What the nested map holds for a key, read without modifying it: the stored pointer when
all three levels have the key, null otherwise. -/
def TileMap.lookup (m : TileMap) (zoom x y : Int) : TilePtr :=
  match StdMap.find m zoom with
  | none => none
  | some xm =>
    match StdMap.find xm x with
    | none => none
    | some ym =>
      match StdMap.find ym y with
      | none => none
      | some t => t

/-! ## Mercator math (`vtkMap.cxx`), over exact reals -/

/-- The function `long2tilex`. -/
noncomputable def long2tilex (lon : ℝ) (z : ℕ) : ℤ :=
  ⌊(lon + 180) / 360 * 2 ^ z⌋

/-- The function `lat2tiley`. -/
noncomputable def lat2tiley (lat : ℝ) (z : ℕ) : ℤ :=
  ⌊(1 - Real.log (Real.tan (lat * Real.pi / 180) + 1 / Real.cos (lat * Real.pi / 180))
        / Real.pi) / 2 * 2 ^ z⌋

/-- The function `tilex2long`. -/
noncomputable def tilex2long (x : ℤ) (z : ℕ) : ℝ :=
  x / 2 ^ z * 360 - 180

/-- The function `tiley2lat`. -/
noncomputable def tiley2lat (y : ℤ) (z : ℕ) : ℝ :=
  let n := Real.pi - 2 * Real.pi * y / 2 ^ z
  180 / Real.pi * Real.arctan (0.5 * (Real.exp n - Real.exp (-n)))

/-- The function `y2lat`. -/
noncomputable def y2lat (a : ℝ) : ℝ :=
  180 / Real.pi * (2 * Real.arctan (Real.exp (a * Real.pi / 180)) - Real.pi / 2)

/-- The function `lat2y`. -/
noncomputable def lat2y (a : ℝ) : ℝ :=
  180 / Real.pi * Real.log (Real.tan (Real.pi / 4 + a * (Real.pi / 180) / 2))

/-! ## Tile selection (`vtkOsmLayer.cxx`) -/

/-- The struct `vtkMapTileSpecInternal`: `Corners[4]`, `ZoomRowCol[3]`, `ZoomXY[3]`. -/
structure vtkMapTileSpecInternal where
  Corners0 : ℚ
  Corners1 : ℚ
  Corners2 : ℚ
  Corners3 : ℚ
  ZoomRowCol0 : Int
  ZoomRowCol1 : Int
  ZoomRowCol2 : Int
  ZoomXY0 : Int
  ZoomXY1 : Int
  ZoomXY2 : Int
  deriving DecidableEq

/-- The cache key `(ZoomXY[0], ZoomXY[1], ZoomXY[2])` of a tile spec. -/
def vtkMapTileSpecInternal.ZoomXY (s : vtkMapTileSpecInternal) : Int × Int × Int :=
  (s.ZoomXY0, s.ZoomXY1, s.ZoomXY2)

/-- What the selectors use of the renderer: `WorldToView(x, y, z)`, which replaces a world
point by its view coordinates. -/
structure vtkRenderer where
  WorldToView : ℚ → ℚ → ℚ → ℚ × ℚ × ℚ

/-- A statement executed by a selector, recorded in execution order. The record is
bookkeeping only: no branch of the selectors reads it. -/
inductive SelectEvent where
  /-- The call `IsTileOnScreen(&tileSpec, renderer)` for the tile spec with this `ZoomXY`. -/
  | test (zoom x y : Int) : SelectEvent
  /-- The call `GetCachedTile(zoom, x, y)`. -/
  | lookup (zoom x y : Int) : SelectEvent
  /-- The statement `tiles.push_back(tile)` for the tile found under this key. -/
  | tile (zoom x y : Int) (tile : Nat) : SelectEvent
  /-- The statement `tileSpecs.push_back(tileSpec)`. -/
  | spec (tileSpec : vtkMapTileSpecInternal) : SelectEvent
  deriving DecidableEq

/-- The tile key an event is about. -/
def SelectEvent.key : SelectEvent → Int × Int × Int
  | SelectEvent.test zoom x y => (zoom, x, y)
  | SelectEvent.lookup zoom x y => (zoom, x, y)
  | SelectEvent.tile zoom x y _ => (zoom, x, y)
  | SelectEvent.spec s => s.ZoomXY

/-- The key of an event that appends to `tiles` or to `tileSpecs`. -/
def SelectEvent.produced : SelectEvent → Option (Int × Int × Int)
  | SelectEvent.tile zoom x y _ => some (zoom, x, y)
  | SelectEvent.spec s => some s.ZoomXY
  | _ => none

/-- The key of an event that calls `GetCachedTile`. -/
def SelectEvent.lookedUp : SelectEvent → Option (Int × Int × Int)
  | SelectEvent.lookup zoom x y => some (zoom, x, y)
  | _ => none

/-- The pointer an event appends to `tiles`. -/
def SelectEvent.pushedTile : SelectEvent → Option TilePtr
  | SelectEvent.tile _ _ _ t => some (some t)
  | _ => none

/-- The spec an event appends to `tileSpecs`. -/
def SelectEvent.pushedSpec : SelectEvent → Option vtkMapTileSpecInternal
  | SelectEvent.spec s => some s
  | _ => none

/-- The state a selection pass works on: the layer (its cache map is touched by
`GetCachedTile`, its tile objects by `SetVisible`), the two output vectors `tiles` and
`tileSpecs`, and the record of executed statements. -/
structure Selection where
  layer : vtkOsmLayer
  tiles : List TilePtr
  tileSpecs : List vtkMapTileSpecInternal
  trace : List SelectEvent

/-- The state at the start of a pass, as set up by `vtkOsmLayer::AddTiles`: both vectors
are fresh and empty. -/
def Selection.start (layer : vtkOsmLayer) : Selection :=
  { layer := layer, tiles := [], tileSpecs := [], trace := [] }

/-- The call `tile->SetVisible(val)` on the object at address `tile`. -/
def vtkOsmLayer.tileSetVisible (self : vtkOsmLayer) (tile : Nat) (val : Bool) : vtkOsmLayer :=
  { self with objects := Function.update self.objects tile ((self.objects tile).SetVisible val) }

/-- The cache lookup and the two branches that follow it in both selectors:
```
vtkMapTile* tile = this->GetCachedTile(zoomLevel, xIndex, yIndex);
if (tile) { tiles.push_back(tile); tile->SetVisible(true); }   // result 1
else      { tileSpecs.push_back(tileSpec); }                   // result 2
```
-/
def vtkOsmLayer.lookupOrSpec (st : Selection) (zoomLevel xIndex yIndex : Int)
    (tileSpec : vtkMapTileSpecInternal) : Int × Selection :=
  let r := st.layer.GetCachedTile zoomLevel xIndex yIndex
  match r.1 with
  | some tile =>
      (1, { layer := r.2.tileSetVisible tile true
            tiles := st.tiles ++ [some tile]
            tileSpecs := st.tileSpecs
            trace := st.trace ++ [SelectEvent.lookup zoomLevel xIndex yIndex,
                                  SelectEvent.tile zoomLevel xIndex yIndex tile] })
  | none =>
      (2, { layer := r.2
            tiles := st.tiles
            tileSpecs := st.tileSpecs ++ [tileSpec]
            trace := st.trace ++ [SelectEvent.lookup zoomLevel xIndex yIndex,
                                  SelectEvent.spec tileSpec] })

/-- The integers `lo, lo+1, ..., hi` visited by `for (int i = lo; i <= hi; ++i)`. -/
def intRange (lo hi : Int) : List Int :=
  (List.range (hi + 1 - lo).toNat).map (fun (k : Nat) => lo + (k : Int))

/-- The tile spec filled in by the loop body of `vtkOsmLayer::SelectTiles` for the loop
indices `i`, `j`. -/
def vtkOsmLayer.SelectTiles_tileSpec (zoomLevel : Nat) (i j : Int) : vtkMapTileSpecInternal :=
  let zoomLevelFactor : Int := 2 ^ zoomLevel
  let noOfTilesX : Int := max 1 zoomLevelFactor
  let noOfTilesY : Int := max 1 zoomLevelFactor
  let lonPerTile : ℚ := 360 / (noOfTilesX : ℚ)
  let latPerTile : ℚ := 360 / (noOfTilesY : ℚ)
  let xIndex := i
  let yIndex := zoomLevelFactor - 1 - j
  { Corners0 := -180 + (xIndex : ℚ) * lonPerTile
    Corners1 := -180 + (yIndex : ℚ) * latPerTile
    Corners2 := -180 + ((xIndex + 1 : Int) : ℚ) * lonPerTile
    Corners3 := -180 + ((yIndex + 1 : Int) : ℚ) * latPerTile
    ZoomRowCol0 := zoomLevel
    ZoomRowCol1 := i
    ZoomRowCol2 := zoomLevelFactor - 1 - yIndex
    ZoomXY0 := zoomLevel
    ZoomXY1 := xIndex
    ZoomXY2 := yIndex }

/-- The body of the inner loop of `vtkOsmLayer::SelectTiles` for the loop indices `i`, `j`. -/
def vtkOsmLayer.SelectTiles_cell (zoomLevel : Nat) (i j : Int) (st : Selection) : Selection :=
  let zoomLevelFactor : Int := 2 ^ zoomLevel
  let xIndex := i
  let yIndex := zoomLevelFactor - 1 - j
  (vtkOsmLayer.lookupOrSpec st zoomLevel xIndex yIndex
    (vtkOsmLayer.SelectTiles_tileSpec zoomLevel i j)).2

/-- The part of `vtkOsmLayer::SelectTiles` after the four tile indices are computed: the
swap of the rows, the clamps, and the two nested loops. -/
def vtkOsmLayer.SelectTiles_tiles (zoomLevel : Nat) (tile1x tile2x tile1y tile2y : Int)
    (st : Selection) : Selection :=
  let zoomLevelFactor : Int := 2 ^ zoomLevel
  let tile1y' := if tile2y > tile1y then tile2y else tile1y
  let tile2y' := if tile2y > tile1y then tile1y else tile2y
  let tile1x := min (zoomLevelFactor - 1) (max tile1x 0)
  let tile2x := min (zoomLevelFactor - 1) (max tile2x 0)
  let tile1y := min (zoomLevelFactor - 1) (max tile1y' 0)
  let tile2y := min (zoomLevelFactor - 1) (max tile2y' 0)
  (intRange tile1x tile2x).foldl
    (fun st i => (intRange tile2y tile1y).foldl
      (fun st j => vtkOsmLayer.SelectTiles_cell zoomLevel i j st) st) st

/-- A `double[4]` world point as returned by `GetWorldPoint`. -/
structure WorldPoint where
  x : ℝ
  y : ℝ
  z : ℝ
  w : ℝ

/-- The division of a world point by its homogeneous coordinate when that is not zero. -/
noncomputable def WorldPoint.divideByW (p : WorldPoint) : WorldPoint :=
  if p.w ≠ 0 then { x := p.x / p.w, y := p.y / p.w, z := p.z / p.w, w := p.w } else p

/-- The clamp of the first two coordinates to `[-180, 180]` by `std::max` then `std::min`. -/
noncomputable def WorldPoint.clamp180 (p : WorldPoint) : WorldPoint :=
  { p with x := min (max p.x (-180)) 180, y := min (max p.y (-180)) 180 }

/-- What `SelectTiles` does to each of the two world points it gets from the renderer:
the division by the homogeneous coordinate and, under perspective projection, the clamp. -/
noncomputable def vtkOsmLayer.SelectTiles_corner (PerspectiveProjection : Bool)
    (p : WorldPoint) : WorldPoint :=
  let p := p.divideByW
  if PerspectiveProjection then p.clamp180 else p

/-- The zoom level used by `SelectTiles`:
`zoomLevel = GetZoom(); zoomLevel += GetPerspectiveProjection() ? 1 : 0;`. -/
def vtkOsmLayer.SelectTiles_zoomLevel (PerspectiveProjection : Bool) (Zoom : Nat) : Nat :=
  Zoom + (if PerspectiveProjection then 1 else 0)

/-- The method `vtkOsmLayer::SelectTiles`. The renderer's answers to `DisplayToWorld` for
the two viewport corners are the inputs `bottomLeft` and `topRight`; `Zoom` is
`Map->GetZoom()` and `PerspectiveProjection` is `Map->GetPerspectiveProjection()`. -/
noncomputable def vtkOsmLayer.SelectTiles (PerspectiveProjection : Bool) (Zoom : Nat)
    (bottomLeft topRight : WorldPoint) (st : Selection) : Selection :=
  let bottomLeft := vtkOsmLayer.SelectTiles_corner PerspectiveProjection bottomLeft
  let topRight := vtkOsmLayer.SelectTiles_corner PerspectiveProjection topRight
  let zoomLevel := vtkOsmLayer.SelectTiles_zoomLevel PerspectiveProjection Zoom
  let tile1x := long2tilex bottomLeft.x zoomLevel
  let tile2x := long2tilex topRight.x zoomLevel
  let tile1y := lat2tiley (y2lat bottomLeft.y) zoomLevel
  let tile2y := lat2tiley (y2lat topRight.y) zoomLevel
  vtkOsmLayer.SelectTiles_tiles zoomLevel tile1x tile2x tile1y tile2y st

/-- The function `GetViewCoords`. -/
def GetViewCoords (worldCoord : ℚ × ℚ × ℚ) (renderer : vtkRenderer) : ℚ × ℚ × ℚ :=
  renderer.WorldToView worldCoord.1 worldCoord.2.1 worldCoord.2.2

/-- The function `IsPointOnScreen`. -/
def IsPointOnScreen (worldCoord : ℚ × ℚ × ℚ) (renderer : vtkRenderer) : Bool :=
  let devCoord := GetViewCoords worldCoord renderer
  (decide (devCoord.1 ≥ -1) && decide (devCoord.1 ≤ 1)) &&
  (decide (devCoord.2.1 ≥ -1) && decide (devCoord.2.1 ≤ 1))

/-- The function `IsRectOnScreen`: 0 completely off-screen, 1 completely on screen,
-1 partly on screen. -/
def IsRectOnScreen (worldCoord1 worldCoord2 : ℚ × ℚ × ℚ) (renderer : vtkRenderer) : Int :=
  let ptsOnScreen : Int := 0
  let ptsOnScreen := if IsPointOnScreen worldCoord1 renderer then ptsOnScreen + 1
    else ptsOnScreen
  let tempWCoord : ℚ × ℚ × ℚ := (worldCoord1.1, worldCoord2.2.1, worldCoord1.2.2)
  let ptsOnScreen := if IsPointOnScreen tempWCoord renderer then ptsOnScreen + 1
    else ptsOnScreen
  let ptsOnScreen := if IsPointOnScreen worldCoord2 renderer then ptsOnScreen + 1
    else ptsOnScreen
  let tempWCoord : ℚ × ℚ × ℚ := (worldCoord2.1, worldCoord1.2.1, worldCoord1.2.2)
  let ptsOnScreen := if IsPointOnScreen tempWCoord renderer then ptsOnScreen + 1
    else ptsOnScreen
  if ptsOnScreen = 0 then 0
  else if ptsOnScreen = 4 then 1
  else -1

/-- The function `IsTileOnScreen`. -/
def IsTileOnScreen (tileSpec : vtkMapTileSpecInternal) (renderer : vtkRenderer) : Int :=
  let coordSt : ℚ × ℚ × ℚ := (tileSpec.Corners0, tileSpec.Corners1, 0)
  let coordEnd : ℚ × ℚ × ℚ := (tileSpec.Corners2, tileSpec.Corners3, 0)
  IsRectOnScreen coordSt coordEnd renderer

/-- The tile spec filled in by `SelectTilesPerspective_DoTile` for `tilex`, `tiley`. -/
def vtkOsmLayer.SelectTilesPerspective_tileSpec (tilex tiley : Int) (zoomLevel : Nat) :
    vtkMapTileSpecInternal :=
  let zoomLevelFactor : Int := 2 ^ zoomLevel
  let degPerTile : ℚ := 360 / (zoomLevelFactor : ℚ)
  let xIndex := tilex
  let yIndex := zoomLevelFactor - 1 - tiley
  { Corners0 := -180 + ((xIndex + 0 : Int) : ℚ) * degPerTile
    Corners1 := -180 + ((yIndex + 0 : Int) : ℚ) * degPerTile
    Corners2 := -180 + ((xIndex + 1 : Int) : ℚ) * degPerTile
    Corners3 := -180 + ((yIndex + 1 : Int) : ℚ) * degPerTile
    ZoomRowCol0 := zoomLevel
    ZoomRowCol1 := tilex
    ZoomRowCol2 := tiley
    ZoomXY0 := zoomLevel
    ZoomXY1 := xIndex
    ZoomXY2 := yIndex }

/-- The method `vtkOsmLayer::SelectTilesPerspective_DoTile`: the returned `int` and the
state afterwards. -/
def vtkOsmLayer.SelectTilesPerspective_DoTile (st : Selection) (tilex tiley : Int)
    (zoomLevel : Nat) (renderer : vtkRenderer) : Int × Selection :=
  let zoomLevelFactor : Int := 2 ^ zoomLevel
  if tilex < 0 ∨ tilex ≥ zoomLevelFactor ∨ tiley < 0 ∨ tiley ≥ zoomLevelFactor then (0, st)
  else
    let tileSpec := vtkOsmLayer.SelectTilesPerspective_tileSpec tilex tiley zoomLevel
    let retVal := IsTileOnScreen tileSpec renderer
    let st := { st with trace := st.trace ++
      [SelectEvent.test tileSpec.ZoomXY0 tileSpec.ZoomXY1 tileSpec.ZoomXY2] }
    if retVal = 0 then (0, st)
    else vtkOsmLayer.lookupOrSpec st zoomLevel tileSpec.ZoomXY1 tileSpec.ZoomXY2 tileSpec

/-- The constant `TILE_LIMIT`: limit in every direction (+x, -x, +y, -y). -/
def TILE_LIMIT : Nat := 8

/-- The values taken by the counter of `for (int i = 0; i < TILE_LIMIT; i ++)`. -/
def offsetsUp : List Int := (List.range TILE_LIMIT).map (fun (k : Nat) => (k : Int))

/-- The values taken by the counter of `for (int i = -1; i >= -TILE_LIMIT; i --)`. -/
def offsetsDown : List Int := (List.range TILE_LIMIT).map (fun (k : Nat) => -1 - (k : Int))

/-- One x loop of `SelectTilesPerspective` over the counter values `is`:
`tilex = tbasex + i; if (SelectTilesPerspective_DoTile(...) == 0) break;`. -/
def vtkOsmLayer.SelectTilesPerspective_scan (renderer : vtkRenderer) (zoomLevel : Nat)
    (tbasex tiley : Int) : List Int → Selection → Selection
  | [], st => st
  | i :: rest, st =>
      let r := vtkOsmLayer.SelectTilesPerspective_DoTile st (tbasex + i) tiley zoomLevel renderer
      if r.1 = 0 then r.2
      else vtkOsmLayer.SelectTilesPerspective_scan renderer zoomLevel tbasex tiley rest r.2

/-- One y loop of `SelectTilesPerspective` over the counter values `js`: a row outside
`[0, zoomLevelFactor)` is skipped (`continue`), otherwise the row is scanned in +x from
offset 0 and then in -x from offset -1. -/
def vtkOsmLayer.SelectTilesPerspective_rows (renderer : vtkRenderer) (zoomLevel : Nat)
    (tbasex tbasey : Int) : List Int → Selection → Selection
  | [], st => st
  | j :: rest, st =>
      let zoomLevelFactor : Int := 2 ^ zoomLevel
      let tiley := tbasey + j
      if tiley < 0 ∨ tiley ≥ zoomLevelFactor then
        vtkOsmLayer.SelectTilesPerspective_rows renderer zoomLevel tbasex tbasey rest st
      else
        let st := vtkOsmLayer.SelectTilesPerspective_scan renderer zoomLevel tbasex tiley
          offsetsUp st
        let st := vtkOsmLayer.SelectTilesPerspective_scan renderer zoomLevel tbasex tiley
          offsetsDown st
        vtkOsmLayer.SelectTilesPerspective_rows renderer zoomLevel tbasex tbasey rest st

/-- The two y loops of `SelectTilesPerspective` from the base tile `(tbasex, tbasey)`. -/
def vtkOsmLayer.SelectTilesPerspective_loops (renderer : vtkRenderer) (zoomLevel : Nat)
    (tbasex tbasey : Int) (st : Selection) : Selection :=
  let st := vtkOsmLayer.SelectTilesPerspective_rows renderer zoomLevel tbasex tbasey
    offsetsUp st
  vtkOsmLayer.SelectTilesPerspective_rows renderer zoomLevel tbasex tbasey offsetsDown st

/-- The method `vtkOsmLayer::SelectTilesPerspective`; `focalPt` is the focal point of the
active camera and `Zoom` is `Map->GetZoom()`. -/
noncomputable def vtkOsmLayer.SelectTilesPerspective (renderer : vtkRenderer) (Zoom : Nat)
    (focalPt : ℝ × ℝ × ℝ) (st : Selection) : Selection :=
  let zoomLevel := Zoom + 1
  let tbasex := long2tilex focalPt.1 zoomLevel
  let tbasey := lat2tiley (y2lat focalPt.2.1) zoomLevel
  vtkOsmLayer.SelectTilesPerspective_loops renderer zoomLevel tbasex tbasey st

/-! ## Tile materialisation (`vtkMapTile.cxx`) -/

/-- The two image readers `vtkMapTile::Build` can create. -/
inductive ImageReader where
  | vtkPNGReader : ImageReader
  | vtkJPEGReader : ImageReader
  deriving DecidableEq

/-- A call or report made to the outside, recorded in the order of execution. -/
inductive HostEvent where
  /-- The call `DownloadImage(url, outfilename)`. -/
  | download (url outfilename : String) : HostEvent
  /-- The calls `imageReader->SetFileName(file); imageReader->Update()`. -/
  | readImage (reader : ImageReader) (file : String) : HostEvent
  /-- A report through `vtkErrorMacro`. -/
  | error (message : String) : HostEvent
  /-- A report through `vtkWarningMacro`. -/
  | warning (message : String) : HostEvent
  deriving DecidableEq

/-- Everything outside the layer that the tile pyramid reads or changes. -/
structure Host where
  /-- The contents (bytes) of the file at a path; `none` when the file cannot be opened. -/
  files : String → Option (List Nat)
  /-- What a GET of a URL delivers; `none` when the transfer fails (network error or an
  HTTP status of 400 or more, which `CURLOPT_FAILONERROR` turns into a failure). -/
  remote : String → Option (List Nat)
  /-- Whether `curl_easy_init()` returns a handle. -/
  curl : Bool
  /-- Whether `fopen(path, "wb")` succeeds. -/
  canWrite : String → Bool
  /-- The answer of `SystemTools::FileIsDirectory`. -/
  directories : String → Bool
  /-- Whether `SystemTools::MakeDirectory` succeeds. -/
  canMakeDirectory : String → Bool
  /-- The props of the renderer, in the order of its collection. -/
  ViewProps : List Nat
  /-- The next free object address. -/
  next : Nat
  /-- The record of calls and reports. -/
  events : List HostEvent

/-- The constant `PNGHDR` of `IsImageDownloaded`. -/
def PNGHDR : List Nat := [0x89, 0x50, 0x4E, 0x47]

/-- The constant `JPEGHDR` of `IsImageDownloaded`. -/
def JPEGHDR : List Nat := [0xFF, 0xD8]

/-- The method `vtkMapTile::IsImageDownloaded`. The stream is `good()` after
`file.read(hdr, 4)` exactly when four bytes could be read; `hdr` starts as four zero
bytes and receives the bytes that were read. -/
def vtkMapTile.IsImageDownloaded (h : Host) (outfile : String) : Bool :=
  match h.files outfile with
  | none => false
  | some contents =>
      let hdr := contents.take 4 ++ List.replicate (4 - (contents.take 4).length) 0
      let readOK := decide (4 ≤ contents.length)
      readOK && (decide (hdr.take 4 = PNGHDR) || decide (hdr.take 2 = JPEGHDR))

/-- The method `vtkMapTile::DownloadImage`: the file is opened for writing, the transfer
writes into it, and when the transfer fails the file is removed and a warning is given
(its text, the content of curl's error buffer, is not modelled). -/
def vtkMapTile.DownloadImage (h : Host) (url outfilename : String) : Host :=
  let h := { h with events := h.events ++ [HostEvent.download url outfilename] }
  if h.curl then
    if h.canWrite outfilename then
      match h.remote url with
      | some data => { h with files := Function.update h.files outfilename (some data) }
      | none =>
          { h with files := Function.update h.files outfilename none
                   events := h.events ++ [HostEvent.warning "curl"] }
    else { h with events := h.events ++ [HostEvent.error "Not Open"] }
  else h

/-- The method `vtkMapTile::InitializeDownload`. -/
def vtkMapTile.InitializeDownload (t : vtkMapTile) (h : Host) : Host :=
  if !vtkMapTile.IsImageDownloaded h t.ImageFile then
    vtkMapTile.DownloadImage h t.ImageSource t.ImageFile
  else h

/-- The part of a character sequence after the last occurrence of `sep` (all of it when
`sep` does not occur). -/
def afterLast (sep : Char) (cs : List Char) : List Char :=
  (cs.reverse.takeWhile (fun c => c != sep)).reverse

/-- The function `vtksys::SystemTools::GetFilenameLastExtension`: the file name without
its directories, from its last dot on (dot included); empty when the name has no dot. -/
def GetFilenameLastExtension (filename : String) : String :=
  let name := afterLast '/' filename.toList
  if '.' ∈ name then String.mk ('.' :: afterLast '.' name) else ""

/-- The tail of `vtkMapTile::Build` once a reader is chosen: the image is read, the
mapper and the actor are created and `BuildTime` is stamped. -/
def vtkMapTile.Build_finish (reader : ImageReader) (t : vtkMapTile) (h : Host) :
    vtkMapTile × Host :=
  let h := { h with events := h.events ++ [HostEvent.readImage reader t.ImageFile] }
  let t := { t with Mapper := some h.next }
  let h := { h with next := h.next + 1 }
  let t := { t with Actor := some h.next }
  let h := { h with next := h.next + 1 }
  ({ t with BuildTime := max t.MTime t.BuildTime + 1 }, h)

/-- The method `vtkMapTile::Build`. -/
def vtkMapTile.Build (t : vtkMapTile) (h : Host) : vtkMapTile × Host :=
  let t := { t with Plane := some h.next }
  let h := { h with next := h.next + 1 }
  let t := { t with TexturePlane := some h.next }
  let h := { h with next := h.next + 1 }
  let h := t.InitializeDownload h
  let fileExtension := GetFilenameLastExtension t.ImageFile
  if fileExtension = ".png" then
    vtkMapTile.Build_finish ImageReader.vtkPNGReader t h
  else if fileExtension = ".jpg" then
    vtkMapTile.Build_finish ImageReader.vtkJPEGReader t h
  else
    (t, { h with events := h.events ++
      [HostEvent.error ("Unsupported map-tile extension " ++ fileExtension)] })

/-- The method `vtkMapTile::Init`. -/
def vtkMapTile.Init (t : vtkMapTile) (h : Host) : vtkMapTile × Host :=
  if t.MTime > t.BuildTime then t.Build h else (t, h)

/-- Whether an event is a call of `DownloadImage`. -/
def HostEvent.isDownload : HostEvent → Bool
  | HostEvent.download _ _ => true
  | _ => false

/-- The calls and reports a step added to the record that stood at `before`. -/
def Host.since (after before : Host) : List HostEvent :=
  after.events.drop before.events.length

/-- A host without network whose only file is `path`, with the given contents. -/
def Host.ofFile (path : String) (contents : List Nat) : Host where
  files := fun p => if p = path then some contents else none
  remote := fun _ => none
  curl := false
  canWrite := fun _ => false
  directories := fun _ => false
  canMakeDirectory := fun _ => false
  ViewProps := []
  next := 0
  events := []

/-- A freshly constructed tile whose image file and image source have been set. -/
def vtkMapTile.ofImage (file source : String) : vtkMapTile :=
  { vtkMapTile.New with ImageFile := file, ImageSource := source }

/-- The setter `vtkMapTile::SetCorners` (declared in `vtkMapTile.h`): stores the four
corners and stamps the tile as modified. -/
def vtkMapTile.SetCorners (t : vtkMapTile) (c0 c1 c2 c3 : ℚ) : vtkMapTile :=
  vtkMapTile.Modified { t with Corners0 := c0, Corners1 := c1, Corners2 := c2, Corners3 := c3 }

/-- The setter `vtkMapTile::SetFileSystemPath` (declared in `vtkMapTile.h`): stores the
path of the image file that `Build` reads, and stamps the tile as modified. -/
def vtkMapTile.SetFileSystemPath (t : vtkMapTile) (path : String) : vtkMapTile :=
  vtkMapTile.Modified { t with ImageFile := path }

/-- The setter `vtkMapTile::SetImageSource` (declared in `vtkMapTile.h`): stores the URL
that `DownloadImage` fetches, and stamps the tile as modified. -/
def vtkMapTile.SetImageSource (t : vtkMapTile) (url : String) : vtkMapTile :=
  vtkMapTile.Modified { t with ImageSource := url }

/-- The setter `vtkMapTile::SetImageKey` (declared in `vtkMapTile.h`, called by
`vtkMap::AddTiles`): stores the key and stamps the tile as modified. No function of
`vtkMapTile.cxx` reads the key. -/
def vtkMapTile.SetImageKey (t : vtkMapTile) (key : String) : vtkMapTile :=
  vtkMapTile.Modified { t with ImageKey := key }

/-! ## The renderer's props -/

/-- The call `Renderer->AddViewProp(p)`: a null pointer and a prop the renderer already
has are ignored, any other prop is appended to the collection. -/
def Host.AddViewProp (h : Host) (p : Option Nat) : Host :=
  match p with
  | none => h
  | some a => if a ∈ h.ViewProps then h else { h with ViewProps := h.ViewProps ++ [a] }

/-- The call `Renderer->AddActor(p)`, which is `AddViewProp(p)`. -/
def Host.AddActor (h : Host) (p : Option Nat) : Host :=
  h.AddViewProp p

/-- The call `Renderer->RemoveActor(p)`: the item is taken out of the collection where it
first occurs; a null pointer and a prop the renderer does not have are ignored. -/
def Host.RemoveActor (h : Host) (p : Option Nat) : Host :=
  match p with
  | none => h
  | some a => { h with ViewProps := h.ViewProps.erase a }

/-- The call `Renderer->RemoveAllViewProps()`. (The collection gives up its reference to
every prop; reference counts are not modelled, a prop is taken to be kept alive by its
owner.) -/
def Host.RemoveAllViewProps (h : Host) : Host :=
  { h with ViewProps := [] }

/-! ## Materialisation and rendering of the selected tiles (`vtkOsmLayer.cxx`) -/

/-- The addresses a vector of tile pointers refers to; `none` when one of the pointers is
null, in which case dereferencing every element has no defined behaviour. -/
def derefAll : List TilePtr → Option (List Nat)
  | [] => some []
  | none :: _ => none
  | some t :: rest => (derefAll rest).map (fun ts => t :: ts)

/-- The method `vtkOsmLayer::MakeFileSystemPath`: the string left in the stream. It has
no defined value when `CacheDirectory` is null. -/
def vtkOsmLayer.MakeFileSystemPath (self : vtkOsmLayer) (tileSpec : vtkMapTileSpecInternal) :
    Option String :=
  match self.CacheDirectory with
  | none => none
  | some dir =>
      some (dir ++ "/" ++ toString tileSpec.ZoomRowCol0
        ++ "-" ++ toString tileSpec.ZoomRowCol1
        ++ "-" ++ toString tileSpec.ZoomRowCol2
        ++ "." ++ self.MapTileExtension)

/-- The method `vtkOsmLayer::MakeUrl`: the string left in the stream. -/
def vtkOsmLayer.MakeUrl (self : vtkOsmLayer) (tileSpec : vtkMapTileSpecInternal) : String :=
  "http://" ++ self.MapTileServer
    ++ "/" ++ toString tileSpec.ZoomRowCol0
    ++ "/" ++ toString tileSpec.ZoomRowCol1
    ++ "/" ++ toString tileSpec.ZoomRowCol2
    ++ "." ++ self.MapTileExtension

/-- The state `InitializeTiles` and `RenderTiles` work on: the layer, the outside world
and the vector `tiles`. -/
structure Materialised where
  layer : vtkOsmLayer
  host : Host
  tiles : List TilePtr

/-- The loop body of `vtkOsmLayer::InitializeTiles` for one spec: the tile object is
created at the next free address, set up, built by `Init`, added to the cache under the
`ZoomXY` of the spec, appended to `tiles` and made visible. (The back pointer set by
`SetLayer(this)` is not modelled.) -/
def vtkOsmLayer.InitializeTiles_spec (st : Materialised) (spec : vtkMapTileSpecInternal) :
    Option Materialised :=
  match st.layer.MakeFileSystemPath spec with
  | none => none
  | some path =>
      let tile := st.host.next
      let h := { st.host with next := st.host.next + 1 }
      let t := vtkMapTile.New
      let t := t.SetCorners spec.Corners0 spec.Corners1 spec.Corners2 spec.Corners3
      let t := t.SetFileSystemPath path
      let t := t.SetImageSource (st.layer.MakeUrl spec)
      let r := t.Init h
      let layer := { st.layer with objects := Function.update st.layer.objects tile r.1 }
      let zoom := spec.ZoomXY0
      let x := spec.ZoomXY1
      let y := spec.ZoomXY2
      let layer := layer.AddTileToCache zoom x y (some tile)
      let tiles := st.tiles ++ [some tile]
      let layer := layer.tileSetVisible tile true
      some { layer := layer, host := r.2, tiles := tiles }

/-- The method `vtkOsmLayer::InitializeTiles`: the loop over `tileSpecs`. (The final
`tileSpecs.clear()` empties a vector that is not used again.) -/
def vtkOsmLayer.InitializeTiles (st : Materialised) :
    List vtkMapTileSpecInternal → Option Materialised
  | [] => some st
  | spec :: rest =>
      match vtkOsmLayer.InitializeTiles_spec st spec with
      | none => none
      | some st2 => vtkOsmLayer.InitializeTiles st2 rest

/-- The body of the loop `for (i = 0; i < tiles.size(); ++i)` of `RenderTiles` for the
tile at address `tile`: its actor is added and the borders are widened to its corners. -/
def vtkOsmLayer.RenderTiles_tile (st : vtkOsmLayer × Host) (tile : Nat) : vtkOsmLayer × Host :=
  let self := st.1
  let h := st.2.AddActor (self.objects tile).Actor
  let TileBorders0 := if (self.objects tile).Corners0 < self.TileBorders0 then
    (self.objects tile).Corners0 else self.TileBorders0
  let TileBorders1 := if (self.objects tile).Corners1 < self.TileBorders1 then
    (self.objects tile).Corners1 else self.TileBorders1
  let TileBorders2 := if (self.objects tile).Corners2 > self.TileBorders2 then
    (self.objects tile).Corners2 else self.TileBorders2
  let TileBorders3 := if (self.objects tile).Corners3 > self.TileBorders3 then
    (self.objects tile).Corners3 else self.TileBorders3
  ({ self with TileBorders0 := TileBorders0, TileBorders1 := TileBorders1,
               TileBorders2 := TileBorders2, TileBorders3 := TileBorders3 }, h)

/-- The method `vtkOsmLayer::RenderTiles`. The result is `none` when a null pointer is
dereferenced: `Renderer`, an element of `CachedTiles` or an element of `tiles`. (The
final `tiles.clear()` empties a vector that is not used again.) -/
def vtkOsmLayer.RenderTiles (self : vtkOsmLayer) (h : Host) (tiles : List TilePtr) :
    Option (vtkOsmLayer × Host) :=
  let self := { self with TileBorders0 := 0, TileBorders1 := 0, TileBorders2 := 0,
                          TileBorders3 := 0 }
  if tiles.length > 0 then
    match self.Renderer, derefAll self.CachedTiles, derefAll tiles with
    | true, some cached, some (tile0 :: rest) =>
        let h := cached.foldl (fun h t => h.RemoveActor (self.objects t).Actor) h
        let self := { self with
          TileBorders0 := (self.objects tile0).Corners0
          TileBorders1 := (self.objects tile0).Corners1
          TileBorders2 := (self.objects tile0).Corners2
          TileBorders3 := (self.objects tile0).Corners3 }
        some ((tile0 :: rest).foldl vtkOsmLayer.RenderTiles_tile (self, h))
    | _, _, _ => none
  else some (self, h)

/-- The method `vtkOsmLayer::RemoveTiles`: both containers are emptied. The result is
`none` when a null pointer in `CachedTiles` is dereferenced by `tile->Delete()`. The
deleted objects are not accessible afterwards; the store keeps their last state. -/
def vtkOsmLayer.RemoveTiles (self : vtkOsmLayer) : Option vtkOsmLayer :=
  let self := { self with CachedTilesMap := [] }
  match derefAll self.CachedTiles with
  | none => none
  | some _ => some { self with CachedTiles := [] }

/-- The part of `vtkOsmLayer::SetMapTileServer` after the cache directory exists. The
result is `none` when a null pointer is dereferenced: an element of `CachedTiles`, or
`Renderer` while `CachedTiles` is not empty. -/
def vtkOsmLayer.SetMapTileServer_clear (self : vtkOsmLayer) (h : Host)
    (server attribution extension fullPath : String) : Option (vtkOsmLayer × Host) :=
  match derefAll self.CachedTiles with
  | none => none
  | some cached =>
      if cached ≠ [] ∧ self.Renderer = false then none
      else
        let h := cached.foldl (fun h t => h.RemoveActor (self.objects t).Actor) h
        match self.RemoveTiles with
        | none => none
        | some self =>
            some ({ self with
                    MapTileExtension := extension
                    MapTileServer := server
                    MapTileAttribution := attribution
                    CacheDirectory := some fullPath }, h)

/-- The method `vtkOsmLayer::SetMapTileServer`. (The update of the attribution actor's
text at the end does not touch the tile pyramid and is left out.) -/
def vtkOsmLayer.SetMapTileServer (self : vtkOsmLayer) (h : Host)
    (server attribution extension : String) : Option (vtkOsmLayer × Host) :=
  match self.Map with
  | none =>
      some (self, { h with events := h.events ++
        [HostEvent.warning "Cannot set map-tile server before adding layer to vtkMap"] })
  | some StorageDirectory =>
      let fullPath := StorageDirectory ++ "/" ++ server
      if !h.directories fullPath then
        if h.canMakeDirectory fullPath then
          let h := { h with directories := Function.update h.directories fullPath true }
          self.SetMapTileServer_clear h server attribution extension fullPath
        else
          some (self, { h with events := h.events ++
            [HostEvent.error ("Unable to create directory for map-tile cache: " ++ fullPath)] })
      else self.SetMapTileServer_clear h server attribution extension fullPath

/-- The inputs of one update pass that come from the map and its camera: the answers of
`Map->GetPerspectiveProjection()` and `Map->GetZoom()`, the world points of the two
viewport corners, the world-to-view transform and the focal point. -/
structure Viewport where
  PerspectiveProjection : Bool
  Zoom : Nat
  bottomLeft : WorldPoint
  topRight : WorldPoint
  renderer : vtkRenderer
  focalPt : ℝ × ℝ × ℝ

/-- The selection step of `vtkOsmLayer::AddTiles`, from fresh vectors:
`if (Map->GetPerspectiveProjection()) SelectTilesPerspective(...); else SelectTiles(...);`. -/
noncomputable def vtkOsmLayer.AddTiles_select (view : Viewport) (self : vtkOsmLayer) :
    Selection :=
  if view.PerspectiveProjection then
    vtkOsmLayer.SelectTilesPerspective view.renderer view.Zoom view.focalPt
      (Selection.start self)
  else
    vtkOsmLayer.SelectTiles view.PerspectiveProjection view.Zoom view.bottomLeft view.topRight
      (Selection.start self)

/-- What one pass of `vtkOsmLayer::AddTiles` leaves behind, with two observations of the
pass: the state `selected` in which the selector returned, and the vector `rendered`
that was handed to `RenderTiles`. -/
structure AddTilesResult where
  layer : vtkOsmLayer
  host : Host
  selected : Selection
  rendered : List TilePtr

/-- The part of `vtkOsmLayer::AddTiles` after the selector returned in state `sel`:
```
if (tileSpecs.size() > 0) this->InitializeTiles(tiles, tileSpecs);
this->RenderTiles(tiles);
```
-/
def vtkOsmLayer.AddTiles_finish (sel : Selection) (h : Host) : Option AddTilesResult :=
  let st : Materialised := { layer := sel.layer, host := h, tiles := sel.tiles }
  let st := if sel.tileSpecs.length > 0 then vtkOsmLayer.InitializeTiles st sel.tileSpecs
    else some st
  match st with
  | none => none
  | some st =>
      match st.layer.RenderTiles st.host st.tiles with
      | none => none
      | some r => some { layer := r.1, host := r.2, selected := sel, rendered := st.tiles }

/-- The method `vtkOsmLayer::AddTiles`. Without renderer nothing happens; the result is
`none` when the null pointer `Map` is dereferenced or a later step has no defined
behaviour. -/
noncomputable def vtkOsmLayer.AddTiles (self : vtkOsmLayer) (view : Viewport) (h : Host) :
    Option AddTilesResult :=
  if !self.Renderer then
    some { layer := self, host := h, selected := Selection.start self, rendered := [] }
  else
    match self.Map with
    | none => none
    | some _ => vtkOsmLayer.AddTiles_finish (vtkOsmLayer.AddTiles_select view self) h

/-! ## The method `vtkMap::AddTiles` (`vtkMap.cxx`) -/

/-- The body of the inner loop of `vtkMap::AddTiles` for the loop indices `i`, `j`: the
tile cached under `(Zoom, xIndex, yIndex)` is looked up; when there is none, a tile is
created at the next free address, set up, built by `Init` and added to the cache; the
tile is then appended to `NewPendingTiles` and made visible. -/
def vtkMap.AddTiles_cell (Zoom : Nat) (i j : Int) (st : vtkMap × Host) : vtkMap × Host :=
  let zoomFactor : Int := 2 ^ Zoom
  let noOfTilesX : Int := max 1 zoomFactor
  let noOfTilesY : Int := max 1 zoomFactor
  let lonPerTile : ℚ := 360 / (noOfTilesX : ℚ)
  let latPerTile : ℚ := 360 / (noOfTilesY : ℚ)
  let xIndex := i
  let yIndex := zoomFactor - 1 - j
  let r := st.1.GetCachedTile Zoom xIndex yIndex
  let found : Nat × vtkMap × Host :=
    match r.1 with
    | some tile => (tile, r.2, st.2)
    | none =>
        let tile := st.2.next
        let h := { st.2 with next := st.2.next + 1 }
        let llx : ℚ := -180 + (xIndex : ℚ) * lonPerTile
        let lly : ℚ := -180 + (yIndex : ℚ) * latPerTile
        let urx : ℚ := -180 + ((xIndex + 1 : Int) : ℚ) * lonPerTile
        let ury : ℚ := -180 + ((yIndex + 1 : Int) : ℚ) * latPerTile
        let t := vtkMapTile.New.SetCorners llx lly urx ury
        let zoom := toString Zoom
        let row := toString i
        let col := toString (zoomFactor - 1 - yIndex)
        let t := t.SetImageKey (zoom ++ row ++ col)
        let t := t.SetImageSource
          ("http://tile.openstreetmap.org/" ++ zoom ++ "/" ++ row ++ "/" ++ col ++ ".png")
        let b := t.Init h
        let self := { r.2 with objects := Function.update r.2.objects tile b.1 }
        (tile, self.AddTileToCache Zoom xIndex yIndex tile, b.2)
  let tile := found.1
  let self := found.2.1
  let self := { self with NewPendingTiles := self.NewPendingTiles ++ [tile] }
  let self := { self with
    objects := Function.update self.objects tile ((self.objects tile).SetVisible true) }
  (self, found.2.2)

/-- The part of `vtkMap::AddTiles` between the computation of the four tile indices and
the render part: the swap of the rows, the clamps, and the two nested loops. -/
def vtkMap.AddTiles_loops (Zoom : Nat) (tile1x tile2x tile1y tile2y : Int)
    (st : vtkMap × Host) : vtkMap × Host :=
  let zoomFactor : Int := 2 ^ Zoom
  let tile1y2 := if tile2y > tile1y then tile2y else tile1y
  let tile2y2 := if tile2y > tile1y then tile1y else tile2y
  let tile1x := min (zoomFactor - 1) (max tile1x 0)
  let tile2x := min (zoomFactor - 1) (max tile2x 0)
  let tile1y := min (zoomFactor - 1) (max tile1y2 0)
  let tile2y := min (zoomFactor - 1) (max tile2y2 0)
  (intRange tile1x tile2x).foldl
    (fun st i => (intRange tile2y tile1y).foldl
      (fun st j => vtkMap.AddTiles_cell Zoom i j st) st) st

/-- The part of `vtkMap::AddTiles` before the render part. The renderer's answers to
`DisplayToWorld` for the two viewport corners are the inputs `bottomLeft` and `topRight`;
`Zoom` is the member `Zoom`. -/
noncomputable def vtkMap.AddTiles_select (Zoom : Nat) (bottomLeft topRight : WorldPoint)
    (st : vtkMap × Host) : vtkMap × Host :=
  let bottomLeft := bottomLeft.divideByW.clamp180
  let topRight := topRight.divideByW.clamp180
  let tile1x := long2tilex bottomLeft.x Zoom
  let tile2x := long2tilex topRight.x Zoom
  let tile1y := lat2tiley (y2lat bottomLeft.y) Zoom
  let tile2y := lat2tiley (y2lat topRight.y) Zoom
  vtkMap.AddTiles_loops Zoom tile1x tile2x tile1y tile2y st

/-- The `int` held by `vtkMapTile::Bin`; `Hidden` is the value of the enumerator of that
name, which is declared in `vtkMapTile.h`. -/
def BinValue.toInt (Hidden : Int) : BinValue → Int
  | BinValue.Hidden => Hidden
  | BinValue.ofBool b => if b then 1 else 0

/-- The call `std::sort(NewPendingTiles.begin(), NewPendingTiles.end(), sortTiles())`, with
the comparator `tile1->GetBin() < tile2->GetBin()`: the vector is put in non-decreasing
order of `Bin`. Tiles of equal `Bin` keep their order here; `std::sort` may also
exchange them. -/
def vtkMap.sortPending (Hidden : Int) (objects : Nat → vtkMapTile) (tiles : List Nat) :
    List Nat :=
  tiles.insertionSort
    (fun tile1 tile2 => ¬ ((objects tile2).Bin.toInt Hidden < (objects tile1).Bin.toInt Hidden))

/-- The part of `vtkMap::AddTiles` after the two loops: when tiles are pending, the cached
actors are removed, the remaining props are captured, the renderer is emptied, the pending
tiles' actors are added in `Bin` order, the captured props are added back and the pending
vector is cleared. (The member `Renderer` is taken to be set: the method dereferences it
in its first statement.) -/
def vtkMap.AddTiles_render (Hidden : Int) (self : vtkMap) (h : Host) : vtkMap × Host :=
  if self.NewPendingTiles.length > 0 then
    let h := self.CachedActors.foldl (fun h a => h.RemoveActor a) h
    let otherProps := h.ViewProps
    let h := h.RemoveAllViewProps
    let self := { self with
      NewPendingTiles := vtkMap.sortPending Hidden self.objects self.NewPendingTiles }
    let h := self.NewPendingTiles.foldl (fun h t => h.AddActor (self.objects t).Actor) h
    let h := otherProps.foldl (fun h p => h.AddViewProp (some p)) h
    ({ self with NewPendingTiles := [] }, h)
  else (self, h)

/-- The method `vtkMap::AddTiles`. -/
noncomputable def vtkMap.AddTiles (Hidden : Int) (Zoom : Nat) (bottomLeft topRight : WorldPoint)
    (st : vtkMap × Host) : vtkMap × Host :=
  let st := vtkMap.AddTiles_select Zoom bottomLeft topRight st
  vtkMap.AddTiles_render Hidden st.1 st.2

/-! ## Sequences of calls and of passes on a layer -/

/-- A call of one of the methods of `vtkOsmLayer` that read or change its two cache
containers. -/
inductive LayerCall where
  | AddTileToCache (zoom x y : Int) (tile : TilePtr) : LayerCall
  | GetCachedTile (zoom x y : Int) : LayerCall
  | InitializeTiles (tiles : List TilePtr) (tileSpecs : List vtkMapTileSpecInternal) : LayerCall
  | RenderTiles (tiles : List TilePtr) : LayerCall
  | RemoveTiles : LayerCall

/-- Run one call on a layer; `none` when the call has no defined behaviour. -/
def vtkOsmLayer.run (st : vtkOsmLayer × Host) : LayerCall → Option (vtkOsmLayer × Host)
  | LayerCall.AddTileToCache zoom x y tile => some (st.1.AddTileToCache zoom x y tile, st.2)
  | LayerCall.GetCachedTile zoom x y => some ((st.1.GetCachedTile zoom x y).2, st.2)
  | LayerCall.InitializeTiles tiles tileSpecs =>
      (vtkOsmLayer.InitializeTiles { layer := st.1, host := st.2, tiles := tiles }
        tileSpecs).map (fun m => (m.layer, m.host))
  | LayerCall.RenderTiles tiles => st.1.RenderTiles st.2 tiles
  | LayerCall.RemoveTiles => st.1.RemoveTiles.map (fun layer => (layer, st.2))

/-- Run a sequence of calls, first call first. -/
def vtkOsmLayer.runAll (st : vtkOsmLayer × Host) : List LayerCall → Option (vtkOsmLayer × Host)
  | [] => some st
  | c :: cs =>
      match vtkOsmLayer.run st c with
      | none => none
      | some st2 => vtkOsmLayer.runAll st2 cs

/-- A sequence of passes of `vtkOsmLayer::AddTiles`, one for each of the viewports. -/
noncomputable def vtkOsmLayer.AddTiles_passes (st : vtkOsmLayer × Host) :
    List Viewport → Option (vtkOsmLayer × Host)
  | [] => some st
  | view :: rest =>
      match st.1.AddTiles view st.2 with
      | none => none
      | some r => vtkOsmLayer.AddTiles_passes (r.layer, r.host) rest

/-! ## Camera distance and zoom level (`vtkMap.cxx`) -/

/-- The values of a `vtkCamera` that the functions below read or set: the view angle in
degrees, the position and the focal point. -/
structure vtkCamera where
  ViewAngle : ℝ
  Position : ℝ × ℝ × ℝ
  FocalPoint : ℝ × ℝ × ℝ

/-- The VTK function `vtkMath::RadiansFromDegrees`: multiplication by pi/180. -/
noncomputable def RadiansFromDegrees (x : ℝ) : ℝ :=
  x * (Real.pi / 180)

/-- The function `computeCameraDistance`. -/
noncomputable def computeCameraDistance (cam : vtkCamera) (zoomLevel : Int) : ℝ :=
  let deg : ℝ := 360 / (2 : ℝ) ^ zoomLevel
  deg / Real.sin (RadiansFromDegrees cam.ViewAngle)

/-- The loop `for (i = ...; i < 20; i += 1)` of `computeZoomLevel` from counter value `i`
with `n` passes left: `if (width >= (360.0 / pow(2, i))) return i;`. The result is `none`
when the loop ends, after which the function has no `return`. -/
noncomputable def computeZoomLevel_loop (width : ℝ) : Nat → Nat → Option Nat
  | _, 0 => none
  | i, n + 1 =>
      if width ≥ 360 / (2 : ℝ) ^ i then some i
      else computeZoomLevel_loop width (i + 1) n

/-- The width `computeZoomLevel` compares: `pos[2] * sin(RadiansFromDegrees(viewAngle))`. -/
noncomputable def computeZoomLevel_width (cam : vtkCamera) : ℝ :=
  cam.Position.2.2 * Real.sin (RadiansFromDegrees cam.ViewAngle)

/-- The function `computeZoomLevel`; `none` when control reaches the end of the function
without a `return`, where the result is not defined. -/
noncomputable def computeZoomLevel (cam : vtkCamera) : Option Nat :=
  let width := computeZoomLevel_width cam
  computeZoomLevel_loop width 0 20

/-! ## The method `vtkInteractorStyleMap3D::fixCameraZ` (`vtkInteractorStyleMap3D.cxx`) -/

/-- A viewport that shows the whole world in orthographic projection at zoom `Zoom`. -/
noncomputable def Viewport.fullWorld (Zoom : Nat) : Viewport :=
  { PerspectiveProjection := false
    Zoom := Zoom
    bottomLeft := { x := -180, y := -180, z := 0, w := 1 }
    topRight := { x := 180, y := 180, z := 0, w := 1 }
    renderer := { WorldToView := fun x y _ => (x / 180, y / 180, 0) }
    focalPt := (0, 0, 0) }

/-- A layer attached to a map with storage directory `/tmp`, after `SetMapTileServer` for
the default server; the tile at address `t` has the corners `(t, t, t+1, t+1)` and the
actor `10 + t`. -/
def vtkOsmLayer.sample : vtkOsmLayer :=
  { vtkOsmLayer.New (fun t =>
      { vtkMapTile.New with
        Corners0 := t, Corners1 := t, Corners2 := t + 1, Corners3 := t + 1,
        Actor := some (10 + t) }) with
    Map := some "/tmp"
    CacheDirectory := some "/tmp/tile.openstreetmap.org" }

/-- A host without network, with no file but an empty one at the empty path, where
directories can be created, and whose renderer holds the props `props`. -/
def Host.ofProps (props : List Nat) : Host :=
  { Host.ofFile "" [] with canMakeDirectory := fun _ => true, ViewProps := props }

/-- A `vtkMap` whose tiles at the addresses 0 and 1 are cached, with the actors 10 and 11,
and pending. -/
def vtkMap.sample : vtkMap :=
  { CachedTiles := [(0, [(0, [(0, some 0)])]), (1, [(0, [(0, some 1)])])]
    CachedActors := [some 10, some 11]
    objects := fun t => { vtkMapTile.New with Actor := some (10 + t) }
    NewPendingTiles := [0, 1] }

/-- A layer whose tile at address 0 is hidden, as constructed, with the actor 10, and
whose tiles at the other addresses are visible, after `SetVisible(true)`, the tile at
address `t` with the actor `10 + t`. -/
def vtkOsmLayer.mixed : vtkOsmLayer :=
  vtkOsmLayer.New (fun t =>
    if t = 0 then { vtkMapTile.New with Actor := some 10 }
    else vtkMapTile.SetVisible { vtkMapTile.New with Actor := some (10 + t) } true)

/-- A host with network on which every transfer fails, with no file but an empty one at
the empty path, where files can be written. -/
def Host.failing : Host :=
  { Host.ofFile "" [] with curl := true, canWrite := fun _ => true }

/-! ## Vocabulary for the statements about a selection pass -/

/-- The state `st2` is `st` after the statements recorded in `evs` were executed: the
record grew by `evs`, `tiles` grew by the pointers pushed in `evs` and `tileSpecs` by the
specs pushed in `evs`. -/
def Selection.Extends (st st2 : Selection) (evs : List SelectEvent) : Prop :=
  st2.trace = st.trace ++ evs ∧
  st2.tiles = st.tiles ++ evs.filterMap SelectEvent.pushedTile ∧
  st2.tileSpecs = st.tileSpecs ++ evs.filterMap SelectEvent.pushedSpec

/-- The cache key under which both selectors file the tile in column `tilex` and row
`tiley` at `zoomLevel`: `(zoomLevel, tilex, zoomLevelFactor - 1 - tiley)`. -/
def tileKey (zoomLevel : Nat) (tilex tiley : Int) : Int × Int × Int :=
  ((zoomLevel : Int), tilex, 2 ^ zoomLevel - 1 - tiley)

/-- A key `(zoom, x, y)` is valid at `zoomLevel`: `zoom = zoomLevel`, `0 ≤ x < 2^zoom` and
`0 ≤ y < 2^zoom`. -/
def validKey (zoomLevel : Nat) (key : Int × Int × Int) : Prop :=
  key.1 = (zoomLevel : Int) ∧ 0 ≤ key.2.1 ∧ key.2.1 < 2 ^ zoomLevel ∧
  0 ≤ key.2.2 ∧ key.2.2 < 2 ^ zoomLevel

/-- The candidate tile `(tilex, tiley)` ends an x loop of `SelectTilesPerspective`: it is
outside `[0, zoomLevelFactor)` on an axis, or it is completely off-screen. -/
def stopsScan (renderer : vtkRenderer) (zoomLevel : Nat) (tilex tiley : Int) : Prop :=
  (tilex < 0 ∨ tilex ≥ 2 ^ zoomLevel ∨ tiley < 0 ∨ tiley ≥ 2 ^ zoomLevel) ∨
  IsTileOnScreen (vtkOsmLayer.SelectTilesPerspective_tileSpec tilex tiley zoomLevel) renderer = 0

/-- The counter value `i` is reached by a loop over the counter values `is` that breaks
at the first value satisfying `stop`: every value before `i` did not stop the loop. -/
def Reached (stop : Int → Prop) : List Int → Int → Prop
  | [], _ => False
  | i0 :: rest, i => i = i0 ∨ (¬ stop i0 ∧ Reached stop rest i)

/-- The view coordinates of the world point `(px, py, 0)` lie in `[-1,1] x [-1,1]`. -/
def cornerOnScreen (renderer : vtkRenderer) (px py : ℚ) : Prop :=
  -1 ≤ (renderer.WorldToView px py 0).1 ∧ (renderer.WorldToView px py 0).1 ≤ 1 ∧
  -1 ≤ (renderer.WorldToView px py 0).2.1 ∧ (renderer.WorldToView px py 0).2.1 ≤ 1

/-- The tile described by `s` is completely off-screen: none of its four corner points
`(Corners[0],Corners[1])`, `(Corners[0],Corners[3])`, `(Corners[2],Corners[3])`,
`(Corners[2],Corners[1])` has view coordinates in `[-1,1] x [-1,1]`. -/
def completelyOffScreen (renderer : vtkRenderer) (s : vtkMapTileSpecInternal) : Prop :=
  ¬ (cornerOnScreen renderer s.Corners0 s.Corners1 ∨
     cornerOnScreen renderer s.Corners0 s.Corners3 ∨
     cornerOnScreen renderer s.Corners2 s.Corners3 ∨
     cornerOnScreen renderer s.Corners2 s.Corners1)

/-- The event `e` is one that a selector records while handling the tile spec `s`: the
on-screen test, the cache lookup or the push of a cached tile under the key of `s`, or the
push of `s` itself. -/
def SelectEvent.isFor (s : vtkMapTileSpecInternal) (e : SelectEvent) : Prop :=
  e = SelectEvent.test s.ZoomXY0 s.ZoomXY1 s.ZoomXY2 ∨
  e = SelectEvent.lookup s.ZoomXY0 s.ZoomXY1 s.ZoomXY2 ∨
  (∃ t, e = SelectEvent.tile s.ZoomXY0 s.ZoomXY1 s.ZoomXY2 t) ∨
  e = SelectEvent.spec s

/-- The keys of the cells visited by the two nested loops of `SelectTiles` when the outer
counter takes the values `is` and the inner one the values `js`, in visiting order. -/
def cellKeys (zoomLevel : Nat) (is js : List Int) : List (Int × Int × Int) :=
  is.flatMap (fun i => js.map (fun j => tileKey zoomLevel i j))

/-- The keys of the candidate tiles of `SelectTilesPerspective` around the base tile
`(tbasex, tbasey)`: for every row offset and every column offset the loops can take. -/
def gridKeys (zoomLevel : Nat) (tbasex tbasey : Int) : List (Int × Int × Int) :=
  (offsetsUp ++ offsetsDown).flatMap (fun j =>
    (offsetsUp ++ offsetsDown).map (fun i => tileKey zoomLevel (tbasex + i) (tbasey + j)))

/-- The values of the outer loop counter `i` of `SelectTiles`: from the clamped `tile1x`
to the clamped `tile2x`. -/
def SelectTiles_columns (zoomLevel : Nat) (tile1x tile2x : Int) : List Int :=
  intRange (min (2 ^ zoomLevel - 1) (max tile1x 0)) (min (2 ^ zoomLevel - 1) (max tile2x 0))

/-- The values of the inner loop counter `j` of `SelectTiles`: from the clamped smaller row
to the clamped larger row, after the swap that makes `tile1y` the larger one. -/
def SelectTiles_rows (zoomLevel : Nat) (tile1y tile2y : Int) : List Int :=
  intRange
    (min (2 ^ zoomLevel - 1) (max (if tile2y > tile1y then tile1y else tile2y) 0))
    (min (2 ^ zoomLevel - 1) (max (if tile2y > tile1y then tile2y else tile1y) 0))

/-- The keys for which a selector appended to `tiles` or to `tileSpecs`, in the order of
the pushes. -/
def Selection.keys (st : Selection) : List (Int × Int × Int) :=
  st.trace.filterMap SelectEvent.produced

/-- What the cache map of the layer holds for a key, read without modifying it. -/
def vtkOsmLayer.lookup (self : vtkOsmLayer) (key : Int × Int × Int) : TilePtr :=
  TileMap.lookup self.CachedTilesMap key.1 key.2.1 key.2.2

/-- The state `st2` is `st` after a piece of a selector handled the keys `K`, in this
order: every key of `K` was produced once, the tiles the cache holds for keys of `K` were
appended to `tiles`, a spec was appended to `tileSpecs` for each key of `K` the cache
holds no tile for, and of the layer only the tile objects and the entries of the cache
map changed, the pointer held for every key staying the same. -/
def Selection.Step (K : List (Int × Int × Int)) (st st2 : Selection) : Prop :=
  st2.keys = st.keys ++ K ∧
  (∀ key, st2.layer.lookup key = st.layer.lookup key) ∧
  { st2.layer with CachedTilesMap := st.layer.CachedTilesMap, objects := st.layer.objects }
    = st.layer ∧
  st2.tiles = st.tiles ++ (K.filterMap st.layer.lookup).map some ∧
  st2.tileSpecs.map vtkMapTileSpecInternal.ZoomXY
    = st.tileSpecs.map vtkMapTileSpecInternal.ZoomXY
      ++ K.filter (fun key => (st.layer.lookup key).isNone)

/-- What the cache map of a `vtkMap` holds for a key, read without modifying it. -/
def vtkMap.lookup (self : vtkMap) (key : Int × Int × Int) : TilePtr :=
  TileMap.lookup self.CachedTiles key.1 key.2.1 key.2.2

/-- The state `st2` is `st` after the loops of `vtkMap::AddTiles` handled the keys `K`:
a pointer held before is still held; after it a tile is held for every key of `K`, and
these tiles were appended to `NewPendingTiles` in the order of `K`; when a tile was held
for every key of `K` before, no object was created, nothing was downloaded or reported
and `CachedActors` is unchanged; the renderer's props are untouched. -/
def vtkMap.Pass (K : List (Int × Int × Int)) (st st2 : vtkMap × Host) : Prop :=
  (∀ key, st.1.lookup key ≠ none → st2.1.lookup key = st.1.lookup key) ∧
  (∀ key ∈ K, st2.1.lookup key ≠ none) ∧
  st2.1.NewPendingTiles = st.1.NewPendingTiles ++ K.filterMap st2.1.lookup ∧
  ((∀ key ∈ K, st.1.lookup key ≠ none) →
    st2.2.next = st.2.next ∧ st2.2.events = st.2.events ∧
    st2.1.CachedActors = st.1.CachedActors ∧
    ∀ key, st2.1.lookup key = st.1.lookup key) ∧
  st2.2.ViewProps = st.2.ViewProps

/-- Every tile the cache map holds is in the vector `CachedTiles`: for every key under
which the map holds a pointer that is not null, that pointer is an element of the vector. -/
def vtkOsmLayer.Consistent (self : vtkOsmLayer) : Prop :=
  ∀ key t, self.lookup key = some t → some t ∈ self.CachedTiles

/-- The integer nearest to `q`, the even one of the two when `q` lies half-way. -/
def roundHalfEven (q : ℚ) : Int :=
  if q - ⌊q⌋ < 1 / 2 then ⌊q⌋
  else if 1 / 2 < q - ⌊q⌋ then ⌊q⌋ + 1
  else if ⌊q⌋ % 2 = 0 then ⌊q⌋ else ⌊q⌋ + 1

/-- The value of type `double` nearest to `x` (IEEE 754 binary64, rounding to nearest,
ties to even), for `|x|` below `2 ^ 1024`, where the rounding does not overflow: with
`2 ^ e ≤ |x| < 2 ^ (e + 1)`, and `e` not below the exponent -1022 of the smallest normal
number, it is the multiple of `2 ^ (e - 52)` nearest to `x`. -/
def roundDouble (x : ℚ) : ℚ :=
  if x = 0 then 0
  else
    (roundHalfEven (x / 2 ^ (max (Int.log 2 |x|) (-1022) - 52)) : ℚ)
      * 2 ^ (max (Int.log 2 |x|) (-1022) - 52)

/-- The function `long2tilex` in `double` arithmetic,
`(int)(floor((lon + 180.0) / 360.0 * pow(2.0, z)))`: the sum, the quotient and the product
are each rounded to the nearest `double`; `pow(2.0, z)` is the exact power of two. -/
def long2tilex_double (lon : ℚ) (z : Nat) : Int :=
  ⌊roundDouble (roundDouble (roundDouble (lon + 180) / 360) * 2 ^ z)⌋

/-- The assignment `tileSpec.Corners[0] = -180.0 + xIndex * lonPerTile` of
`vtkOsmLayer::SelectTiles` in `double` arithmetic, with
`lonPerTile = 360.0 / noOfTilesX`. -/
def vtkOsmLayer.SelectTiles_Corners0_double (zoomLevel : Nat) (xIndex : Int) : ℚ :=
  let zoomLevelFactor : Int := 2 ^ zoomLevel
  let noOfTilesX : Int := max 1 zoomLevelFactor
  let lonPerTile : ℚ := roundDouble (360 / (noOfTilesX : ℚ))
  roundDouble (-180 + roundDouble ((xIndex : ℚ) * lonPerTile))

/-! ## Lemmas on `std::map` and the nested map -/

theorem StdMap.find_assign {V : Type} (m : StdMap V) (k k2 : Int) (v : V) :
    StdMap.find (StdMap.assign m k v) k2 = if k2 = k then some v else StdMap.find m k2 := by
  induction m with
  | nil => simp [StdMap.assign, StdMap.find]
  | cons p rest ih =>
    obtain ⟨k1, v1⟩ := p
    simp only [StdMap.assign]
    by_cases h1 : k < k1
    · simp [h1, StdMap.find]
    · by_cases h2 : k = k1
      · subst h2
        simp only [lt_irrefl, if_false, if_true, StdMap.find]
        by_cases h : k2 = k <;> simp [h]
      · simp only [h1, h2, if_false, StdMap.find, ih]
        by_cases h3 : k2 = k1
        · have : k2 ≠ k := fun h => h2 (h ▸ h3)
          simp [h3, this, Ne.symm h2]
        · simp [h3]

theorem StdMap.index_fst {V : Type} (d : V) (m : StdMap V) (k : Int) :
    (StdMap.index d m k).1 = (StdMap.find m k).getD d := by
  unfold StdMap.index
  cases h : StdMap.find m k <;> simp

theorem StdMap.find_index_snd {V : Type} (d : V) (m : StdMap V) (k k2 : Int) :
    StdMap.find (StdMap.index d m k).2 k2
      = if k2 = k then some ((StdMap.find m k).getD d) else StdMap.find m k2 := by
  unfold StdMap.index
  cases h : StdMap.find m k with
  | none => simp [StdMap.find_assign]
  | some v =>
    by_cases h2 : k2 = k
    · subst h2; simp [h]
    · simp [h2]

theorem TileMap.lookup_store (m : TileMap) (zoom x y : Int) (tile : TilePtr)
    (zoom2 x2 y2 : Int) :
    TileMap.lookup (TileMap.store m zoom x y tile) zoom2 x2 y2
      = if zoom2 = zoom ∧ x2 = x ∧ y2 = y then tile else TileMap.lookup m zoom2 x2 y2 := by
  by_cases hz : zoom2 = zoom <;> by_cases hx : x2 = x <;> by_cases hy : y2 = y <;>
    cases h1 : StdMap.find m zoom <;>
    simp [TileMap.lookup, TileMap.store, StdMap.find_assign, StdMap.index_fst,
      StdMap.find_index_snd, StdMap.find, hz, hx, hy, h1] <;>
    (rename_i xm; cases h2 : StdMap.find xm x <;> simp [StdMap.find, h2])

theorem TileMap.index3_fst (m : TileMap) (zoom x y : Int) :
    (TileMap.index3 m zoom x y).1 = TileMap.lookup m zoom x y := by
  unfold TileMap.index3 TileMap.lookup
  simp only [StdMap.index_fst]
  cases h1 : StdMap.find m zoom with
  | none => simp [StdMap.find]
  | some xm =>
    cases h2 : StdMap.find xm x with
    | none => simp [StdMap.find, h2]
    | some ym =>
      cases h3 : StdMap.find ym y <;> simp [h2, h3]

theorem TileMap.lookup_index1 (m : TileMap) (zoom : Int) (zoom2 x2 y2 : Int) :
    TileMap.lookup (TileMap.index1 m zoom).2 zoom2 x2 y2 = TileMap.lookup m zoom2 x2 y2 := by
  by_cases hz : zoom2 = zoom <;>
    cases h1 : StdMap.find m zoom <;>
    simp [TileMap.lookup, TileMap.index1, StdMap.find_assign, StdMap.index_fst,
      StdMap.find_index_snd, StdMap.find, hz, h1]

theorem TileMap.lookup_index2 (m : TileMap) (zoom x : Int) (zoom2 x2 y2 : Int) :
    TileMap.lookup (TileMap.index2 m zoom x).2 zoom2 x2 y2 = TileMap.lookup m zoom2 x2 y2 := by
  by_cases hz : zoom2 = zoom <;> by_cases hx : x2 = x <;>
    cases h1 : StdMap.find m zoom <;>
    simp [TileMap.lookup, TileMap.index2, StdMap.find_assign, StdMap.index_fst,
      StdMap.find_index_snd, StdMap.find, hz, hx, h1] <;>
    (rename_i xm; cases h2 : StdMap.find xm x <;> simp [StdMap.find, h2])

theorem TileMap.lookup_index3 (m : TileMap) (zoom x y : Int) (zoom2 x2 y2 : Int) :
    TileMap.lookup (TileMap.index3 m zoom x y).2 zoom2 x2 y2 = TileMap.lookup m zoom2 x2 y2 := by
  by_cases hz : zoom2 = zoom <;> by_cases hx : x2 = x <;> by_cases hy : y2 = y <;>
    cases h1 : StdMap.find m zoom <;>
    simp [TileMap.lookup, TileMap.index3, StdMap.find_assign, StdMap.index_fst,
      StdMap.find_index_snd, StdMap.find, hz, hx, hy, h1] <;>
    (rename_i xm; cases h2 : StdMap.find xm x <;> simp [StdMap.find, h2]) <;>
    (rename_i ym; cases h3 : StdMap.find ym y <;> simp [h3])

theorem TileMap.getCached_fst (m : TileMap) (zoom x y : Int) :
    (TileMap.getCached m zoom x y).1 = TileMap.lookup m zoom x y := by
  unfold TileMap.getCached
  dsimp only
  split
  · rename_i h1
    split
    · split
      · simp only [Option.isNone_iff_eq_none] at h1
        simp [TileMap.lookup, h1]
      · rw [TileMap.index3_fst, TileMap.lookup_index2, TileMap.lookup_index1]
    · rw [TileMap.index3_fst, TileMap.lookup_index1]
  · rw [TileMap.index3_fst]

theorem TileMap.lookup_getCached (m : TileMap) (zoom x y : Int) (zoom2 x2 y2 : Int) :
    TileMap.lookup (TileMap.getCached m zoom x y).2 zoom2 x2 y2
      = TileMap.lookup m zoom2 x2 y2 := by
  unfold TileMap.getCached
  dsimp only
  split
  · split
    · split
      · simp only [TileMap.lookup_index2, TileMap.lookup_index1]
      · rw [TileMap.lookup_index3, TileMap.lookup_index2, TileMap.lookup_index1]
    · rw [TileMap.lookup_index3, TileMap.lookup_index1]
  · rw [TileMap.lookup_index3]

theorem vtkOsmLayer.lookup_calls (cs : List CacheCall) :
    ∀ (L : vtkOsmLayer) (c : FlatCache),
      (∀ zoom x y, TileMap.lookup L.CachedTilesMap zoom x y = c (zoom, x, y)) →
      ∀ zoom x y, TileMap.lookup (L.calls cs).CachedTilesMap zoom x y
        = FlatCache.calls c cs (zoom, x, y) := by
  induction cs with
  | nil => intro L c h; simpa [vtkOsmLayer.calls, FlatCache.calls] using h
  | cons op cs ih =>
    intro L c h
    cases op with
    | AddTileToCache z1 x1 y1 tile =>
      have := ih (L.AddTileToCache z1 x1 y1 tile) (FlatCache.insert c (z1, x1, y1) tile)
        (by
          intro zoom x y
          simp [vtkOsmLayer.AddTileToCache, TileMap.lookup_store, FlatCache.insert, h])
      simpa [vtkOsmLayer.calls, FlatCache.calls, vtkOsmLayer.call] using this
    | GetCachedTile z1 x1 y1 =>
      have := ih (L.GetCachedTile z1 x1 y1).2 c
        (by
          intro zoom x y
          simp [vtkOsmLayer.GetCachedTile, TileMap.lookup_getCached, h])
      simpa [vtkOsmLayer.calls, FlatCache.calls, vtkOsmLayer.call] using this

theorem vtkMap.lookup_mapCalls (cs : List MapCacheCall) :
    ∀ (M : vtkMap) (c : FlatCache),
      (∀ zoom x y, TileMap.lookup M.CachedTiles zoom x y = c (zoom, x, y)) →
      ∀ zoom x y, TileMap.lookup (M.calls cs).CachedTiles zoom x y
        = FlatCache.mapCalls c cs (zoom, x, y) := by
  induction cs with
  | nil => intro M c h; simpa [vtkMap.calls, FlatCache.mapCalls] using h
  | cons op cs ih =>
    intro M c h
    cases op with
    | AddTileToCache z1 x1 y1 tile =>
      have := ih (M.AddTileToCache z1 x1 y1 tile) (FlatCache.insert c (z1, x1, y1) (some tile))
        (by
          intro zoom x y
          simp [vtkMap.AddTileToCache, TileMap.lookup_store, FlatCache.insert, h])
      simpa [vtkMap.calls, FlatCache.mapCalls, vtkMap.call] using this
    | GetCachedTile z1 x1 y1 =>
      have := ih (M.GetCachedTile z1 x1 y1).2 c
        (by
          intro zoom x y
          simp [vtkMap.GetCachedTile, TileMap.lookup_getCached, h])
      simpa [vtkMap.calls, FlatCache.mapCalls, vtkMap.call] using this

/-- The flat cache holds the null pointer for a key that no `AddTileToCache` of the call
sequence names. -/
theorem FlatCache.calls_of_no_add (cs : List CacheCall) :
    ∀ (c : FlatCache) (zoom x y : Int),
      (∀ t, CacheCall.AddTileToCache zoom x y t ∉ cs) →
      FlatCache.calls c cs (zoom, x, y) = c (zoom, x, y) := by
  induction cs with
  | nil => intro c zoom x y _; rfl
  | cons op cs ih =>
    intro c zoom x y h
    cases op with
    | AddTileToCache z1 x1 y1 t1 =>
      simp only [FlatCache.calls]
      rw [ih _ zoom x y (fun t ht => h t (List.mem_cons_of_mem _ ht))]
      have hne : (zoom, x, y) ≠ (z1, x1, y1) := by
        intro heq
        simp only [Prod.mk.injEq] at heq
        obtain ⟨rfl, rfl, rfl⟩ := heq
        exact h t1 (List.mem_cons_self _ _)
      simp [FlatCache.insert, hne]
    | GetCachedTile z1 x1 y1 =>
      simp only [FlatCache.calls]
      exact ih _ zoom x y (fun t ht => h t (List.mem_cons_of_mem _ ht))

theorem FlatCache.calls_append (cs1 cs2 : List CacheCall) :
    ∀ c : FlatCache, FlatCache.calls c (cs1 ++ cs2) = FlatCache.calls (FlatCache.calls c cs1) cs2 := by
  induction cs1 with
  | nil => intro c; rfl
  | cons op cs ih =>
    intro c
    cases op <;> exact ih _

/-- The flat cache holds, for a key, the tile of the last `AddTileToCache` naming it. -/
theorem FlatCache.calls_last_add (c : FlatCache) (before after : List CacheCall)
    (zoom x y : Int) (tile : TilePtr)
    (h : ∀ t, CacheCall.AddTileToCache zoom x y t ∉ after) :
    FlatCache.calls c (before ++ CacheCall.AddTileToCache zoom x y tile :: after) (zoom, x, y)
      = tile := by
  rw [FlatCache.calls_append]
  simp only [FlatCache.calls]
  rw [FlatCache.calls_of_no_add after _ zoom x y h]
  simp [FlatCache.insert]

/-- C1: starting from an empty cache, after any sequence of `AddTileToCache` and
`GetCachedTile` calls, `GetCachedTile(zoom,x,y)` returns what a flat map keyed by
`(zoom,x,y)` holds: the tile of the most recent `AddTileToCache` for exactly that key, and
the null pointer when there was none. This holds for the cache of `vtkOsmLayer` and for
the cache of `vtkMap`. -/
theorem C1_cache_behaves_as_flat_map :
    (∀ (objects : Nat → vtkMapTile) (cs : List CacheCall) (zoom x y : Int),
      (((vtkOsmLayer.New objects).calls cs).GetCachedTile zoom x y).1
        = FlatCache.calls FlatCache.empty cs (zoom, x, y)) ∧
    (∀ (objects : Nat → vtkMapTile) (cs : List MapCacheCall) (zoom x y : Int),
      (((vtkMap.New objects).calls cs).GetCachedTile zoom x y).1
        = FlatCache.mapCalls FlatCache.empty cs (zoom, x, y)) := by
  constructor
  · intro objects cs zoom x y
    simp only [vtkOsmLayer.GetCachedTile, TileMap.getCached_fst]
    exact vtkOsmLayer.lookup_calls cs (vtkOsmLayer.New objects) FlatCache.empty
      (by intro z a b; rfl) zoom x y
  · intro objects cs zoom x y
    simp only [vtkMap.GetCachedTile, TileMap.getCached_fst]
    exact vtkMap.lookup_mapCalls cs (vtkMap.New objects) FlatCache.empty
      (by intro z a b; rfl) zoom x y

/-! ## Mercator lemmas -/

theorem y2lat_tan_add_sec (a : ℝ) :
    Real.tan (y2lat a * Real.pi / 180) + 1 / Real.cos (y2lat a * Real.pi / 180)
      = Real.exp (a * Real.pi / 180) := by
  have hpi : Real.pi ≠ 0 := Real.pi_ne_zero
  have hφ : y2lat a * Real.pi / 180
      = 2 * Real.arctan (Real.exp (a * Real.pi / 180)) - Real.pi / 2 := by
    unfold y2lat; field_simp; ring
  rw [hφ]
  generalize ht : Real.exp (a * Real.pi / 180) = e
  have he : 0 < e := ht ▸ Real.exp_pos _
  have hc : 0 < Real.cos (Real.arctan e) := Real.cos_arctan_pos e
  have hs : Real.sin (Real.arctan e) = e * Real.cos (Real.arctan e) := by
    have h := Real.tan_arctan e
    rw [Real.tan_eq_sin_div_cos] at h
    field_simp at h
    linarith
  have hsin : Real.sin (2 * Real.arctan e - Real.pi / 2) = -Real.cos (2 * Real.arctan e) := by
    rw [Real.sin_sub]; simp
  have hcos : Real.cos (2 * Real.arctan e - Real.pi / 2) = Real.sin (2 * Real.arctan e) := by
    rw [Real.cos_sub]; simp
  rw [Real.tan_eq_sin_div_cos, hsin, hcos, Real.sin_two_mul, Real.cos_two_mul, hs]
  have h1 : Real.cos (Real.arctan e) ^ 2 * (1 + e ^ 2) = 1 := by
    rw [Real.cos_sq_arctan]; field_simp
  have hne : (2 * (e * Real.cos (Real.arctan e)) * Real.cos (Real.arctan e)) ≠ 0 := by positivity
  field_simp
  nlinarith [h1]

/-- The row of a projected Mercator `Y`: the transcendental functions cancel. -/
theorem lat2tiley_y2lat (a : ℝ) (z : ℕ) :
    lat2tiley (y2lat a) z = ⌊(180 - a) / 360 * 2 ^ z⌋ := by
  unfold lat2tiley
  rw [y2lat_tan_add_sec, Real.log_exp]
  congr 1
  have hpi : Real.pi ≠ 0 := Real.pi_ne_zero
  field_simp
  ring

theorem long2tilex_bounds (X : ℝ) (z : ℕ) (h1 : -180 ≤ X) (h2 : X < 180) :
    0 ≤ long2tilex X z ∧ long2tilex X z < 2 ^ z := by
  have hp : (0 : ℝ) < 2 ^ z := by positivity
  unfold long2tilex
  constructor
  · apply Int.floor_nonneg.mpr
    have : 0 ≤ (X + 180) / 360 := by linarith
    positivity
  · rw [Int.floor_lt]
    push_cast
    have : (X + 180) / 360 < 1 := by linarith
    nlinarith

theorem row_bounds (Y : ℝ) (z : ℕ) (h1 : -180 < Y) (h2 : Y ≤ 180) :
    0 ≤ lat2tiley (y2lat Y) z ∧ lat2tiley (y2lat Y) z < 2 ^ z := by
  have hp : (0 : ℝ) < 2 ^ z := by positivity
  rw [lat2tiley_y2lat]
  constructor
  · apply Int.floor_nonneg.mpr
    have : 0 ≤ (180 - Y) / 360 := by linarith
    positivity
  · rw [Int.floor_lt]
    push_cast
    have : (180 - Y) / 360 < 1 := by linarith
    nlinarith

theorem column_brackets (X : ℝ) (z : ℕ) :
    -180 + ((long2tilex X z : ℤ) : ℝ) * (360 / 2 ^ z) ≤ X ∧
    X < -180 + (((long2tilex X z + 1 : ℤ)) : ℝ) * (360 / 2 ^ z) := by
  have hp : (0 : ℝ) < 2 ^ z := by positivity
  have hle := Int.floor_le ((X + 180) / 360 * 2 ^ z)
  have hlt := Int.lt_floor_add_one ((X + 180) / 360 * 2 ^ z)
  unfold long2tilex
  push_cast
  constructor
  · have : (⌊(X + 180) / 360 * 2 ^ z⌋ : ℝ) * (360 / 2 ^ z) ≤ X + 180 := by
      calc (⌊(X + 180) / 360 * 2 ^ z⌋ : ℝ) * (360 / 2 ^ z)
          ≤ ((X + 180) / 360 * 2 ^ z) * (360 / 2 ^ z) :=
            mul_le_mul_of_nonneg_right hle (by positivity)
        _ = X + 180 := by field_simp
    linarith
  · have : X + 180 < ((⌊(X + 180) / 360 * 2 ^ z⌋ : ℝ) + 1) * (360 / 2 ^ z) := by
      calc X + 180 = ((X + 180) / 360 * 2 ^ z) * (360 / 2 ^ z) := by field_simp
        _ < ((⌊(X + 180) / 360 * 2 ^ z⌋ : ℝ) + 1) * (360 / 2 ^ z) :=
            mul_lt_mul_of_pos_right hlt (by positivity)
    linarith

theorem row_brackets (Y : ℝ) (z : ℕ) :
    -180 + (((2 ^ z - 1 - lat2tiley (y2lat Y) z : ℤ)) : ℝ) * (360 / 2 ^ z) < Y ∧
    Y ≤ -180 + (((2 ^ z - 1 - lat2tiley (y2lat Y) z + 1 : ℤ)) : ℝ) * (360 / 2 ^ z) := by
  have hp : (0 : ℝ) < 2 ^ z := by positivity
  have hle := Int.floor_le ((180 - Y) / 360 * 2 ^ z)
  have hlt := Int.lt_floor_add_one ((180 - Y) / 360 * 2 ^ z)
  rw [lat2tiley_y2lat]
  push_cast
  have e1 : ((180 - Y) / 360 * 2 ^ z) * (360 / 2 ^ z) = 180 - Y := by field_simp
  have e2 : (2 : ℝ) ^ z * (360 / 2 ^ z) = 360 := by field_simp
  have h3 : (⌊(180 - Y) / 360 * 2 ^ z⌋ : ℝ) * (360 / 2 ^ z) ≤ 180 - Y :=
    le_of_le_of_eq (mul_le_mul_of_nonneg_right hle (by positivity)) e1
  have h4 : 180 - Y < ((⌊(180 - Y) / 360 * 2 ^ z⌋ : ℝ) + 1) * (360 / 2 ^ z) :=
    lt_of_eq_of_lt e1.symm (mul_lt_mul_of_pos_right hlt (by positivity))
  constructor <;> nlinarith

theorem lat2y_40_bounds : 0 < lat2y 40 ∧ lat2y 40 ≤ 180 := by
  have hpi := Real.pi_pos
  have h3 := Real.pi_gt_three
  have h315 := Real.pi_lt_d2
  have hx : Real.pi / 4 + 40 * (Real.pi / 180) / 2 = 13 * Real.pi / 36 := by ring
  have hlo : Real.pi / 4 < 13 * Real.pi / 36 := by linarith
  have hhi : 13 * Real.pi / 36 < Real.pi / 2 := by linarith
  have htan1 : 1 < Real.tan (13 * Real.pi / 36) := by
    have := Real.tan_lt_tan_of_lt_of_lt_pi_div_two (by linarith) hhi hlo
    rwa [Real.tan_pi_div_four] at this
  have hcos : (7 : ℝ) / 20 ≤ Real.cos (13 * Real.pi / 36) := by
    have := Real.one_sub_sq_div_two_le_cos (x := 13 * Real.pi / 36)
    have hb : 13 * Real.pi / 36 ≤ 1.14 := by norm_num; linarith
    have hb0 : 0 ≤ 13 * Real.pi / 36 := by positivity
    nlinarith
  have htan3 : Real.tan (13 * Real.pi / 36) ≤ 3 := by
    rw [Real.tan_eq_sin_div_cos, div_le_iff₀ (by linarith)]
    have := Real.sin_le_one (13 * Real.pi / 36)
    linarith
  have hexp : 3 ≤ Real.exp Real.pi := by
    have := Real.add_one_le_exp Real.pi
    linarith
  have hlog0 : 0 < Real.log (Real.tan (13 * Real.pi / 36)) := Real.log_pos htan1
  have hlogpi : Real.log (Real.tan (13 * Real.pi / 36)) ≤ Real.pi := by
    rw [Real.log_le_iff_le_exp (by linarith)]
    linarith
  unfold lat2y
  rw [hx]
  constructor
  · positivity
  · rw [div_mul_eq_mul_div, div_le_iff₀ hpi]
    nlinarith

/-! ## Claims -/

/-- Claim C3, amended: over exact reals, for every zoom `z` and world point `(X, Y)` with
`-180 ≤ X < 180` and
`-180 < Y ≤ 180` (`Y` the projected Mercator y), the tile with column
`i = long2tilex(X, z)` and row `j = lat2tiley(y2lat(Y), z)` is a valid tile
(`0 ≤ i, j < 2^z`), and the tile spec that either selector fills in for it has the key
`(z, i, 2^z - 1 - j)` and corners that contain the point:
`Corners[0] ≤ X < Corners[2]` and `Corners[1] < Y ≤ Corners[3]`. -/
theorem C3_selected_tile_contains_point (z : ℕ) (X Y : ℝ)
    (hX1 : -180 ≤ X) (hX2 : X < 180) (hY1 : -180 < Y) (hY2 : Y ≤ 180) :
    (0 ≤ long2tilex X z ∧ long2tilex X z < 2 ^ z ∧
      0 ≤ lat2tiley (y2lat Y) z ∧ lat2tiley (y2lat Y) z < 2 ^ z) ∧
    (∀ s : vtkMapTileSpecInternal,
      (s = vtkOsmLayer.SelectTilesPerspective_tileSpec
            (long2tilex X z) (lat2tiley (y2lat Y) z) z ∨
       s = vtkOsmLayer.SelectTiles_tileSpec z (long2tilex X z) (lat2tiley (y2lat Y) z)) →
      s.ZoomXY = ((z : ℤ), long2tilex X z, 2 ^ z - 1 - lat2tiley (y2lat Y) z) ∧
      (s.Corners0 : ℝ) ≤ X ∧ X < (s.Corners2 : ℝ) ∧
      (s.Corners1 : ℝ) < Y ∧ Y ≤ (s.Corners3 : ℝ)) := by
  have hx := long2tilex_bounds X z hX1 hX2
  have hy := row_bounds Y z hY1 hY2
  have cx := column_brackets X z
  have cy := row_brackets Y z
  have hmax : max (1 : ℤ) (2 ^ z) = 2 ^ z := max_eq_right (one_le_pow₀ (by norm_num))
  refine ⟨⟨hx.1, hx.2, hy.1, hy.2⟩, ?_⟩
  intro s hs
  rcases hs with hs | hs
  · subst hs
    simp only [vtkOsmLayer.SelectTilesPerspective_tileSpec, vtkMapTileSpecInternal.ZoomXY,
      add_zero]
    push_cast at cx cy ⊢
    exact ⟨trivial, cx.1, cx.2, cy.1, cy.2⟩
  · subst hs
    simp only [vtkOsmLayer.SelectTiles_tileSpec, vtkMapTileSpecInternal.ZoomXY, hmax]
    push_cast at cx cy ⊢
    exact ⟨trivial, cx.1, cx.2, cy.1, cy.2⟩

/-- Witness of C3: longitude -70, latitude 40 (projected y `lat2y 40`) at zoom 0 lies in
tile `(0, 0, 0)`, whose corners are `(-180, -180, 180, 180)`. -/
theorem C3_witness_lon_minus70_lat_40 :
    (-180 ≤ (-70 : ℝ) ∧ (-70 : ℝ) < 180 ∧ -180 < lat2y 40 ∧ lat2y 40 ≤ 180) ∧
    long2tilex (-70) 0 = 0 ∧ lat2tiley (y2lat (lat2y 40)) 0 = 0 ∧
    (vtkOsmLayer.SelectTilesPerspective_tileSpec 0 0 0).ZoomXY = (0, 0, 0) ∧
    (vtkOsmLayer.SelectTilesPerspective_tileSpec 0 0 0).Corners0 = -180 ∧
    (vtkOsmLayer.SelectTilesPerspective_tileSpec 0 0 0).Corners1 = -180 ∧
    (vtkOsmLayer.SelectTilesPerspective_tileSpec 0 0 0).Corners2 = 180 ∧
    (vtkOsmLayer.SelectTilesPerspective_tileSpec 0 0 0).Corners3 = 180 ∧
    vtkOsmLayer.SelectTiles_tileSpec 0 0 0 = vtkOsmLayer.SelectTilesPerspective_tileSpec 0 0 0 := by
  have hb := lat2y_40_bounds
  have hyp : -180 ≤ (-70 : ℝ) ∧ (-70 : ℝ) < 180 ∧ -180 < lat2y 40 ∧ lat2y 40 ≤ 180 :=
    ⟨by norm_num, by norm_num, by linarith [hb.1], hb.2⟩
  have h := C3_selected_tile_contains_point 0 (-70) (lat2y 40) hyp.1 hyp.2.1 hyp.2.2.1 hyp.2.2.2
  have hi : long2tilex (-70) 0 = 0 := by have := h.1.1; have := h.1.2.1; omega
  have hj : lat2tiley (y2lat (lat2y 40)) 0 = 0 := by
    have := h.1.2.2.1; have := h.1.2.2.2; omega
  refine ⟨hyp, hi, hj, ?_, ?_, ?_, ?_, ?_, ?_⟩ <;>
    simp [vtkOsmLayer.SelectTilesPerspective_tileSpec, vtkOsmLayer.SelectTiles_tileSpec,
      vtkMapTileSpecInternal.ZoomXY] <;> norm_num

/-! ## Lemmas on the selection pass -/

theorem Selection.Extends.refl (st : Selection) : st.Extends st [] := by
  simp [Selection.Extends]

theorem Selection.Extends.trans {a b c : Selection} {e1 e2 : List SelectEvent}
    (h1 : a.Extends b e1) (h2 : b.Extends c e2) : a.Extends c (e1 ++ e2) := by
  obtain ⟨h1a, h1b, h1c⟩ := h1
  obtain ⟨h2a, h2b, h2c⟩ := h2
  refine ⟨?_, ?_, ?_⟩
  · rw [h2a, h1a, List.append_assoc]
  · rw [h2b, h1b, List.filterMap_append, List.append_assoc]
  · rw [h2c, h1c, List.filterMap_append, List.append_assoc]

theorem vtkMapTile.SetVisible_true (t : vtkMapTile) : (t.SetVisible true).VisibleFlag = true := by
  unfold vtkMapTile.SetVisible
  cases h : t.VisibleFlag <;> simp [h, vtkMapTile.Modified]

theorem vtkOsmLayer.lookupOrSpec_some (st : Selection) (zoomLevel x y : Int)
    (tileSpec : vtkMapTileSpecInternal) (t : Nat)
    (h : (st.layer.GetCachedTile zoomLevel x y).1 = some t) :
    (vtkOsmLayer.lookupOrSpec st zoomLevel x y tileSpec).1 = 1 ∧
    st.Extends (vtkOsmLayer.lookupOrSpec st zoomLevel x y tileSpec).2
      [SelectEvent.lookup zoomLevel x y, SelectEvent.tile zoomLevel x y t] ∧
    (vtkOsmLayer.lookupOrSpec st zoomLevel x y tileSpec).2.layer
      = (st.layer.GetCachedTile zoomLevel x y).2.tileSetVisible t true := by
  unfold vtkOsmLayer.lookupOrSpec
  simp [h, Selection.Extends, SelectEvent.pushedTile, SelectEvent.pushedSpec]

theorem vtkOsmLayer.lookupOrSpec_none (st : Selection) (zoomLevel x y : Int)
    (tileSpec : vtkMapTileSpecInternal)
    (h : (st.layer.GetCachedTile zoomLevel x y).1 = none) :
    (vtkOsmLayer.lookupOrSpec st zoomLevel x y tileSpec).1 = 2 ∧
    st.Extends (vtkOsmLayer.lookupOrSpec st zoomLevel x y tileSpec).2
      [SelectEvent.lookup zoomLevel x y, SelectEvent.spec tileSpec] ∧
    (vtkOsmLayer.lookupOrSpec st zoomLevel x y tileSpec).2.layer
      = (st.layer.GetCachedTile zoomLevel x y).2 := by
  unfold vtkOsmLayer.lookupOrSpec
  simp [h, Selection.Extends, SelectEvent.pushedTile, SelectEvent.pushedSpec]

/-- The events a selector records for one included tile: the lookup of its key, followed
by the push of the cached tile or of the tile spec. -/
theorem vtkOsmLayer.lookupOrSpec_events (st : Selection) (zoomLevel x y : Int)
    (tileSpec : vtkMapTileSpecInternal) :
    ∃ e : SelectEvent,
      st.Extends (vtkOsmLayer.lookupOrSpec st zoomLevel x y tileSpec).2
        [SelectEvent.lookup zoomLevel x y, e] ∧
      ((∃ t, e = SelectEvent.tile zoomLevel x y t) ∨ e = SelectEvent.spec tileSpec) ∧
      (vtkOsmLayer.lookupOrSpec st zoomLevel x y tileSpec).1 ≠ 0 := by
  cases h : (st.layer.GetCachedTile zoomLevel x y).1 with
  | none =>
    obtain ⟨h1, h2, _⟩ := vtkOsmLayer.lookupOrSpec_none st zoomLevel x y tileSpec h
    exact ⟨_, h2, Or.inr rfl, by rw [h1]; decide⟩
  | some t =>
    obtain ⟨h1, h2, _⟩ := vtkOsmLayer.lookupOrSpec_some st zoomLevel x y tileSpec t h
    exact ⟨_, h2, Or.inl ⟨t, rfl⟩, by rw [h1]; decide⟩

theorem SelectEvent.isFor_key {s : vtkMapTileSpecInternal} {e : SelectEvent}
    (h : e.isFor s) : e.key = s.ZoomXY := by
  rcases h with h | h | ⟨t, h⟩ | h <;> subst h <;> rfl

theorem SelectEvent.isFor_pushedSpec {s s2 : vtkMapTileSpecInternal} {e : SelectEvent}
    (h : e.isFor s) (h2 : e.pushedSpec = some s2) : s2 = s := by
  rcases h with h | h | ⟨t, h⟩ | h <;> subst h <;> simp [SelectEvent.pushedSpec] at h2
  exact h2.symm

theorem SelectEvent.produced_eq_key {e : SelectEvent} {k : Int × Int × Int}
    (h : e.produced = some k) : e.key = k := by
  cases e <;> simp [SelectEvent.produced, SelectEvent.key] at h ⊢ <;> exact h

theorem SelectEvent.lookedUp_eq_key {e : SelectEvent} {k : Int × Int × Int}
    (h : e.lookedUp = some k) : e.key = k := by
  cases e <;> simp [SelectEvent.lookedUp, SelectEvent.key] at h ⊢ <;> exact h

theorem mem_intRange (lo hi i : Int) : i ∈ intRange lo hi ↔ lo ≤ i ∧ i ≤ hi := by
  unfold intRange
  simp only [List.mem_map, List.mem_range]
  constructor
  · rintro ⟨k, hk, rfl⟩
    omega
  · rintro ⟨h1, h2⟩
    exact ⟨(i - lo).toNat, by omega, by omega⟩

theorem nodup_intRange (lo hi : Int) : (intRange lo hi).Nodup := by
  unfold intRange
  apply List.Nodup.map _ (List.nodup_range _)
  intro a b h
  simpa using h

theorem length_intRange (lo hi : Int) : (intRange lo hi).length = (hi + 1 - lo).toNat := by
  simp [intRange]

theorem SelectTiles_tileSpec_ZoomXY (zoomLevel : Nat) (i j : Int) :
    (vtkOsmLayer.SelectTiles_tileSpec zoomLevel i j).ZoomXY = tileKey zoomLevel i j := rfl

/-- The loop body of `SelectTiles` records the lookup of the cell's key and one push. -/
theorem vtkOsmLayer.SelectTiles_cell_events (zoomLevel : Nat) (i j : Int) (st : Selection) :
    ∃ evs, st.Extends (vtkOsmLayer.SelectTiles_cell zoomLevel i j st) evs ∧
      evs.filterMap SelectEvent.lookedUp = [tileKey zoomLevel i j] ∧
      evs.filterMap SelectEvent.produced = [tileKey zoomLevel i j] ∧
      ∀ e ∈ evs, e.isFor (vtkOsmLayer.SelectTiles_tileSpec zoomLevel i j) := by
  obtain ⟨e, hext, he, _⟩ := vtkOsmLayer.lookupOrSpec_events st zoomLevel i
    (2 ^ zoomLevel - 1 - j) (vtkOsmLayer.SelectTiles_tileSpec zoomLevel i j)
  refine ⟨_, hext, ?_, ?_, ?_⟩
  · rcases he with ⟨t, rfl⟩ | rfl <;>
      simp [SelectEvent.lookedUp, tileKey]
  · rcases he with ⟨t, rfl⟩ | rfl <;>
      simp [SelectEvent.produced, tileKey, SelectTiles_tileSpec_ZoomXY]
  · intro e2 he2
    simp only [List.mem_cons, List.mem_singleton, List.not_mem_nil, or_false] at he2
    rcases he2 with rfl | rfl
    · exact Or.inr (Or.inl rfl)
    · rcases he with ⟨t, rfl⟩ | rfl
      · exact Or.inr (Or.inr (Or.inl ⟨t, rfl⟩))
      · exact Or.inr (Or.inr (Or.inr rfl))

theorem vtkOsmLayer.SelectTiles_inner_events (zoomLevel : Nat) (i : Int) (js : List Int) :
    ∀ st : Selection, ∃ evs,
      st.Extends (js.foldl (fun st j => vtkOsmLayer.SelectTiles_cell zoomLevel i j st) st) evs ∧
      evs.filterMap SelectEvent.lookedUp = js.map (fun j => tileKey zoomLevel i j) ∧
      evs.filterMap SelectEvent.produced = js.map (fun j => tileKey zoomLevel i j) ∧
      ∀ e ∈ evs, ∃ j ∈ js, e.isFor (vtkOsmLayer.SelectTiles_tileSpec zoomLevel i j) := by
  induction js with
  | nil => intro st; exact ⟨[], Selection.Extends.refl st, rfl, rfl, by simp⟩
  | cons j js ih =>
    intro st
    obtain ⟨e1, hx1, hl1, hp1, hf1⟩ := vtkOsmLayer.SelectTiles_cell_events zoomLevel i j st
    obtain ⟨e2, hx2, hl2, hp2, hf2⟩ := ih (vtkOsmLayer.SelectTiles_cell zoomLevel i j st)
    refine ⟨e1 ++ e2, hx1.trans hx2, ?_, ?_, ?_⟩
    · rw [List.filterMap_append, hl1, hl2]; rfl
    · rw [List.filterMap_append, hp1, hp2]; rfl
    · intro e he
      rcases List.mem_append.mp he with h | h
      · exact ⟨j, List.mem_cons_self _ _, hf1 e h⟩
      · obtain ⟨j2, hj2, h2⟩ := hf2 e h
        exact ⟨j2, List.mem_cons_of_mem _ hj2, h2⟩

theorem vtkOsmLayer.SelectTiles_outer_events (zoomLevel : Nat) (js : List Int) (is : List Int) :
    ∀ st : Selection, ∃ evs,
      st.Extends (is.foldl (fun st i =>
        js.foldl (fun st j => vtkOsmLayer.SelectTiles_cell zoomLevel i j st) st) st) evs ∧
      evs.filterMap SelectEvent.lookedUp = cellKeys zoomLevel is js ∧
      evs.filterMap SelectEvent.produced = cellKeys zoomLevel is js ∧
      ∀ e ∈ evs, ∃ i ∈ is, ∃ j ∈ js,
        e.isFor (vtkOsmLayer.SelectTiles_tileSpec zoomLevel i j) := by
  induction is with
  | nil => intro st; exact ⟨[], Selection.Extends.refl st, rfl, rfl, by simp⟩
  | cons i is ih =>
    intro st
    obtain ⟨e1, hx1, hl1, hp1, hf1⟩ := vtkOsmLayer.SelectTiles_inner_events zoomLevel i js st
    obtain ⟨e2, hx2, hl2, hp2, hf2⟩ :=
      ih (js.foldl (fun st j => vtkOsmLayer.SelectTiles_cell zoomLevel i j st) st)
    refine ⟨e1 ++ e2, hx1.trans hx2, ?_, ?_, ?_⟩
    · rw [List.filterMap_append, hl1, hl2]; simp [cellKeys]
    · rw [List.filterMap_append, hp1, hp2]; simp [cellKeys]
    · intro e he
      rcases List.mem_append.mp he with h | h
      · obtain ⟨j, hj, h1⟩ := hf1 e h
        exact ⟨i, List.mem_cons_self _ _, j, hj, h1⟩
      · obtain ⟨i2, hi2, j2, hj2, h2⟩ := hf2 e h
        exact ⟨i2, List.mem_cons_of_mem _ hi2, j2, hj2, h2⟩

theorem offsetsUp_eq : offsetsUp = [0, 1, 2, 3, 4, 5, 6, 7] := by decide

theorem offsetsDown_eq : offsetsDown = [-1, -2, -3, -4, -5, -6, -7, -8] := by decide

theorem validKey_tileKey (zoomLevel : Nat) (tilex tiley : Int)
    (h : ¬ (tilex < 0 ∨ tilex ≥ 2 ^ zoomLevel ∨ tiley < 0 ∨ tiley ≥ 2 ^ zoomLevel)) :
    validKey zoomLevel (tileKey zoomLevel tilex tiley) := by
  simp only [not_or, not_lt, ge_iff_le, not_le] at h
  obtain ⟨h1, h2, h3, h4⟩ := h
  refine ⟨rfl, h1, h2, ?_, ?_⟩ <;> simp only [tileKey] <;> omega

theorem SelectTilesPerspective_tileSpec_ZoomXY (tilex tiley : Int) (zoomLevel : Nat) :
    (vtkOsmLayer.SelectTilesPerspective_tileSpec tilex tiley zoomLevel).ZoomXY
      = tileKey zoomLevel tilex tiley := rfl

/-- What one call of `SelectTilesPerspective_DoTile` records: nothing or only the
on-screen test when it returns 0 (which happens exactly when the candidate stops the
scan), and otherwise the test, the lookup and one push. -/
theorem vtkOsmLayer.SelectTilesPerspective_DoTile_events (st : Selection) (tilex tiley : Int)
    (zoomLevel : Nat) (renderer : vtkRenderer) :
    ∃ evs,
      st.Extends (vtkOsmLayer.SelectTilesPerspective_DoTile st tilex tiley zoomLevel renderer).2
        evs ∧
      ((vtkOsmLayer.SelectTilesPerspective_DoTile st tilex tiley zoomLevel renderer).1 = 0
        ↔ stopsScan renderer zoomLevel tilex tiley) ∧
      (∀ e ∈ evs,
        e.isFor (vtkOsmLayer.SelectTilesPerspective_tileSpec tilex tiley zoomLevel) ∧
        validKey zoomLevel (tileKey zoomLevel tilex tiley)) ∧
      (evs.filterMap SelectEvent.produced).Sublist [tileKey zoomLevel tilex tiley] := by
  unfold vtkOsmLayer.SelectTilesPerspective_DoTile
  by_cases hr : tilex < 0 ∨ tilex ≥ 2 ^ zoomLevel ∨ tiley < 0 ∨ tiley ≥ 2 ^ zoomLevel
  · refine ⟨[], ?_, ?_, by simp, by simp⟩
    · simp only [hr, if_true]; exact Selection.Extends.refl st
    · simp only [hr, if_true]
      exact ⟨fun _ => Or.inl hr, fun _ => trivial⟩
  · have hv := validKey_tileKey zoomLevel tilex tiley hr
    simp only [hr, if_false]
    by_cases hs : IsTileOnScreen
        (vtkOsmLayer.SelectTilesPerspective_tileSpec tilex tiley zoomLevel) renderer = 0
    · simp only [hs, if_true]
      refine ⟨[SelectEvent.test (zoomLevel : Int) tilex (2 ^ zoomLevel - 1 - tiley)],
        ?_, ?_, ?_, ?_⟩
      · simp [Selection.Extends, SelectEvent.pushedTile, SelectEvent.pushedSpec,
          vtkOsmLayer.SelectTilesPerspective_tileSpec]
      · exact ⟨fun _ => Or.inr hs, fun _ => trivial⟩
      · intro e he
        simp only [List.mem_singleton] at he
        subst he
        exact ⟨Or.inl rfl, hv⟩
      · simp [SelectEvent.produced]
    · simp only [hs, if_false]
      obtain ⟨e, hext, he, hne⟩ := vtkOsmLayer.lookupOrSpec_events
        { st with trace := st.trace ++
            [SelectEvent.test (zoomLevel : Int) tilex (2 ^ zoomLevel - 1 - tiley)] }
        zoomLevel tilex (2 ^ zoomLevel - 1 - tiley)
        (vtkOsmLayer.SelectTilesPerspective_tileSpec tilex tiley zoomLevel)
      refine ⟨[SelectEvent.test (zoomLevel : Int) tilex (2 ^ zoomLevel - 1 - tiley),
        SelectEvent.lookup (zoomLevel : Int) tilex (2 ^ zoomLevel - 1 - tiley), e], ?_, ?_, ?_, ?_⟩
      · obtain ⟨h1, h2, h3⟩ := hext
        refine ⟨?_, ?_, ?_⟩
        · simpa [vtkOsmLayer.SelectTilesPerspective_tileSpec] using h1
        · simpa [vtkOsmLayer.SelectTilesPerspective_tileSpec, SelectEvent.pushedTile,
            List.filterMap_cons] using h2
        · simpa [vtkOsmLayer.SelectTilesPerspective_tileSpec, SelectEvent.pushedSpec,
            List.filterMap_cons] using h3
      · constructor
        · intro h0
          exact absurd h0 (by
            simpa [vtkOsmLayer.SelectTilesPerspective_tileSpec] using hne)
        · intro h
          rcases h with h | h
          · exact absurd h hr
          · exact absurd h hs
      · intro e2 he2
        simp only [List.mem_cons, List.mem_singleton, List.not_mem_nil, or_false] at he2
        refine ⟨?_, hv⟩
        rcases he2 with rfl | rfl | rfl
        · exact Or.inl rfl
        · exact Or.inr (Or.inl rfl)
        · rcases he with ⟨t, rfl⟩ | rfl
          · exact Or.inr (Or.inr (Or.inl ⟨t, rfl⟩))
          · exact Or.inr (Or.inr (Or.inr rfl))
      · rcases he with ⟨t, rfl⟩ | rfl <;>
          simp [SelectEvent.produced, tileKey, SelectTilesPerspective_tileSpec_ZoomXY]

theorem vtkOsmLayer.SelectTilesPerspective_scan_events (renderer : vtkRenderer)
    (zoomLevel : Nat) (tbasex tiley : Int) (is : List Int) :
    ∀ st : Selection, ∃ evs,
      st.Extends
        (vtkOsmLayer.SelectTilesPerspective_scan renderer zoomLevel tbasex tiley is st) evs ∧
      (∀ e ∈ evs, ∃ i,
        Reached (fun i => stopsScan renderer zoomLevel (tbasex + i) tiley) is i ∧
        e.isFor (vtkOsmLayer.SelectTilesPerspective_tileSpec (tbasex + i) tiley zoomLevel) ∧
        validKey zoomLevel (tileKey zoomLevel (tbasex + i) tiley)) ∧
      (evs.filterMap SelectEvent.produced).Sublist
        (is.map (fun i => tileKey zoomLevel (tbasex + i) tiley)) := by
  induction is with
  | nil =>
    intro st
    exact ⟨[], Selection.Extends.refl st, by simp, by simp⟩
  | cons i0 rest ih =>
    intro st
    obtain ⟨e1, hx1, hstop, hf1, hs1⟩ :=
      vtkOsmLayer.SelectTilesPerspective_DoTile_events st (tbasex + i0) tiley zoomLevel renderer
    simp only [vtkOsmLayer.SelectTilesPerspective_scan]
    by_cases h0 :
        (vtkOsmLayer.SelectTilesPerspective_DoTile st (tbasex + i0) tiley zoomLevel renderer).1 = 0
    · simp only [h0, if_true]
      refine ⟨e1, hx1, ?_, ?_⟩
      · intro e he
        exact ⟨i0, Or.inl rfl, hf1 e he⟩
      · simpa using hs1.trans (List.sublist_append_left _ _)
    · simp only [h0, if_false]
      obtain ⟨e2, hx2, hf2, hs2⟩ := ih
        (vtkOsmLayer.SelectTilesPerspective_DoTile st (tbasex + i0) tiley zoomLevel renderer).2
      refine ⟨e1 ++ e2, hx1.trans hx2, ?_, ?_⟩
      · intro e he
        rcases List.mem_append.mp he with h | h
        · exact ⟨i0, Or.inl rfl, hf1 e h⟩
        · obtain ⟨i, hr, hi⟩ := hf2 e h
          exact ⟨i, Or.inr ⟨fun hst => h0 (hstop.mpr hst), hr⟩, hi⟩
      · rw [List.filterMap_append]
        simpa using hs1.append hs2

theorem vtkOsmLayer.SelectTilesPerspective_rows_events (renderer : vtkRenderer)
    (zoomLevel : Nat) (tbasex tbasey : Int) (js : List Int) :
    ∀ st : Selection, ∃ evs,
      st.Extends
        (vtkOsmLayer.SelectTilesPerspective_rows renderer zoomLevel tbasex tbasey js st) evs ∧
      (∀ e ∈ evs, ∃ j ∈ js, ∃ i,
        (Reached (fun i => stopsScan renderer zoomLevel (tbasex + i) (tbasey + j)) offsetsUp i ∨
         Reached (fun i => stopsScan renderer zoomLevel (tbasex + i) (tbasey + j))
           offsetsDown i) ∧
        e.isFor (vtkOsmLayer.SelectTilesPerspective_tileSpec (tbasex + i) (tbasey + j)
          zoomLevel) ∧
        validKey zoomLevel (tileKey zoomLevel (tbasex + i) (tbasey + j))) ∧
      (evs.filterMap SelectEvent.produced).Sublist
        (js.flatMap (fun j => (offsetsUp ++ offsetsDown).map
          (fun i => tileKey zoomLevel (tbasex + i) (tbasey + j)))) := by
  induction js with
  | nil =>
    intro st
    exact ⟨[], Selection.Extends.refl st, by simp, by simp⟩
  | cons j rest ih =>
    intro st
    simp only [vtkOsmLayer.SelectTilesPerspective_rows]
    by_cases hrow : tbasey + j < 0 ∨ tbasey + j ≥ 2 ^ zoomLevel
    · simp only [hrow, if_true]
      obtain ⟨e2, hx2, hf2, hs2⟩ := ih st
      refine ⟨e2, hx2, ?_, ?_⟩
      · intro e he
        obtain ⟨j2, hj2, h⟩ := hf2 e he
        exact ⟨j2, List.mem_cons_of_mem _ hj2, h⟩
      · rw [List.flatMap_cons]
        exact hs2.trans (List.sublist_append_right _ _)
    · simp only [hrow, if_false]
      obtain ⟨eu, hxu, hfu, hsu⟩ := vtkOsmLayer.SelectTilesPerspective_scan_events renderer
        zoomLevel tbasex (tbasey + j) offsetsUp st
      obtain ⟨ed, hxd, hfd, hsd⟩ := vtkOsmLayer.SelectTilesPerspective_scan_events renderer
        zoomLevel tbasex (tbasey + j) offsetsDown
        (vtkOsmLayer.SelectTilesPerspective_scan renderer zoomLevel tbasex (tbasey + j)
          offsetsUp st)
      obtain ⟨e2, hx2, hf2, hs2⟩ := ih
        (vtkOsmLayer.SelectTilesPerspective_scan renderer zoomLevel tbasex (tbasey + j)
          offsetsDown
          (vtkOsmLayer.SelectTilesPerspective_scan renderer zoomLevel tbasex (tbasey + j)
            offsetsUp st))
      refine ⟨(eu ++ ed) ++ e2, (hxu.trans hxd).trans hx2, ?_, ?_⟩
      · intro e he
        rcases List.mem_append.mp he with h | h
        · rcases List.mem_append.mp h with h | h
          · obtain ⟨i, hr, hi⟩ := hfu e h
            exact ⟨j, List.mem_cons_self _ _, i, Or.inl hr, hi⟩
          · obtain ⟨i, hr, hi⟩ := hfd e h
            exact ⟨j, List.mem_cons_self _ _, i, Or.inr hr, hi⟩
        · obtain ⟨j2, hj2, h2⟩ := hf2 e h
          exact ⟨j2, List.mem_cons_of_mem _ hj2, h2⟩
      · rw [List.filterMap_append, List.filterMap_append, List.flatMap_cons, List.map_append]
        exact (hsu.append hsd).append hs2

/-- The events of a whole perspective pass from the base tile `(tbasex, tbasey)`. -/
theorem vtkOsmLayer.SelectTilesPerspective_loops_events (renderer : vtkRenderer)
    (zoomLevel : Nat) (tbasex tbasey : Int) (st : Selection) :
    ∃ evs,
      st.Extends
        (vtkOsmLayer.SelectTilesPerspective_loops renderer zoomLevel tbasex tbasey st) evs ∧
      (∀ e ∈ evs, ∃ j ∈ offsetsUp ++ offsetsDown, ∃ i,
        (Reached (fun i => stopsScan renderer zoomLevel (tbasex + i) (tbasey + j)) offsetsUp i ∨
         Reached (fun i => stopsScan renderer zoomLevel (tbasex + i) (tbasey + j))
           offsetsDown i) ∧
        e.isFor (vtkOsmLayer.SelectTilesPerspective_tileSpec (tbasex + i) (tbasey + j)
          zoomLevel) ∧
        validKey zoomLevel (tileKey zoomLevel (tbasex + i) (tbasey + j))) ∧
      (evs.filterMap SelectEvent.produced).Sublist (gridKeys zoomLevel tbasex tbasey) := by
  obtain ⟨e1, hx1, hf1, hs1⟩ := vtkOsmLayer.SelectTilesPerspective_rows_events renderer
    zoomLevel tbasex tbasey offsetsUp st
  obtain ⟨e2, hx2, hf2, hs2⟩ := vtkOsmLayer.SelectTilesPerspective_rows_events renderer
    zoomLevel tbasex tbasey offsetsDown
    (vtkOsmLayer.SelectTilesPerspective_rows renderer zoomLevel tbasex tbasey offsetsUp st)
  refine ⟨e1 ++ e2, hx1.trans hx2, ?_, ?_⟩
  · intro e he
    rcases List.mem_append.mp he with h | h
    · obtain ⟨j, hj, h1⟩ := hf1 e h
      exact ⟨j, List.mem_append_left _ hj, h1⟩
    · obtain ⟨j, hj, h1⟩ := hf2 e h
      exact ⟨j, List.mem_append_right _ hj, h1⟩
  · rw [List.filterMap_append, gridKeys, List.flatMap_append]
    exact hs1.append hs2

/-- A counter value reached by the +x loop lies in `0..7`, and no candidate between
offset 0 and it stopped the loop. -/
theorem reached_offsetsUp (stop : Int → Prop) (i : Int) (h : Reached stop offsetsUp i) :
    0 ≤ i ∧ i ≤ 7 ∧ ∀ N : Int, 0 ≤ N → N < i → ¬ stop N := by
  rw [offsetsUp_eq] at h
  simp only [Reached] at h
  rcases h with rfl | ⟨h0, rfl | ⟨h1, rfl | ⟨h2, rfl | ⟨h3, rfl | ⟨h4, rfl | ⟨h5,
    rfl | ⟨h6, rfl | ⟨h7, h⟩⟩⟩⟩⟩⟩⟩⟩
  all_goals first
    | exact h.elim
    | (refine ⟨by norm_num, by norm_num, ?_⟩
       intro N hN1 hN2
       interval_cases N <;> assumption)

/-- A counter value reached by the -x loop lies in `-8..-1`, and no candidate between
offset -1 and it stopped the loop. -/
theorem reached_offsetsDown (stop : Int → Prop) (i : Int) (h : Reached stop offsetsDown i) :
    -8 ≤ i ∧ i ≤ -1 ∧ ∀ N : Int, i < N → N ≤ -1 → ¬ stop N := by
  rw [offsetsDown_eq] at h
  simp only [Reached] at h
  rcases h with rfl | ⟨h0, rfl | ⟨h1, rfl | ⟨h2, rfl | ⟨h3, rfl | ⟨h4, rfl | ⟨h5,
    rfl | ⟨h6, rfl | ⟨h7, h⟩⟩⟩⟩⟩⟩⟩⟩
  all_goals first
    | exact h.elim
    | (refine ⟨by norm_num, by norm_num, ?_⟩
       intro N hN1 hN2
       interval_cases N <;> assumption)

theorem mem_offsets (j : Int) : j ∈ offsetsUp ++ offsetsDown ↔ -8 ≤ j ∧ j ≤ 7 := by
  rw [offsetsUp_eq, offsetsDown_eq]
  simp only [List.mem_append, List.mem_cons, List.mem_singleton, List.not_mem_nil, or_false]
  omega

theorem nodup_offsets : (offsetsUp ++ offsetsDown).Nodup := by decide

theorem tileKey_injective (zoomLevel : Nat) (x1 y1 x2 y2 : Int)
    (h : tileKey zoomLevel x1 y1 = tileKey zoomLevel x2 y2) : x1 = x2 ∧ y1 = y2 := by
  simp only [tileKey, Prod.mk.injEq, true_and] at h
  exact ⟨h.1, by omega⟩

theorem length_gridKeys (zoomLevel : Nat) (tbasex tbasey : Int) :
    (gridKeys zoomLevel tbasex tbasey).length = 256 := by
  unfold gridKeys
  rw [List.length_flatMap]
  simp only [Function.comp_def, List.length_map]
  decide

theorem nodup_gridKeys (zoomLevel : Nat) (tbasex tbasey : Int) :
    (gridKeys zoomLevel tbasex tbasey).Nodup := by
  unfold gridKeys
  rw [List.nodup_flatMap]
  constructor
  · intro j _
    apply List.Nodup.map _ nodup_offsets
    intro a b hab
    have := (tileKey_injective zoomLevel _ _ _ _ hab).1
    omega
  · apply List.Pairwise.imp _ nodup_offsets
    intro j1 j2 hne
    simp only [Function.onFun, List.Disjoint, List.mem_map]
    rintro k ⟨a, _, rfl⟩ ⟨b, _, hb⟩
    have := (tileKey_injective zoomLevel _ _ _ _ hb).2
    omega

theorem mem_gridKeys (zoomLevel : Nat) (tbasex tbasey : Int) (k : Int × Int × Int) :
    k ∈ gridKeys zoomLevel tbasex tbasey ↔
      ∃ i j : Int, -8 ≤ i ∧ i ≤ 7 ∧ -8 ≤ j ∧ j ≤ 7 ∧
        k = tileKey zoomLevel (tbasex + i) (tbasey + j) := by
  unfold gridKeys
  simp only [List.mem_flatMap, List.mem_map, mem_offsets]
  constructor
  · rintro ⟨j, hj, i, hi, rfl⟩
    exact ⟨i, j, hi.1, hi.2, hj.1, hj.2, rfl⟩
  · rintro ⟨i, j, h1, h2, h3, h4, rfl⟩
    exact ⟨j, ⟨h3, h4⟩, i, ⟨h1, h2⟩, rfl⟩

theorem mem_SelectTiles_columns (zoomLevel : Nat) (tile1x tile2x i : Int)
    (h : i ∈ SelectTiles_columns zoomLevel tile1x tile2x) : 0 ≤ i ∧ i < 2 ^ zoomLevel := by
  have hp : (1 : Int) ≤ 2 ^ zoomLevel := one_le_pow₀ (by norm_num)
  unfold SelectTiles_columns at h
  rw [mem_intRange] at h
  omega

theorem mem_SelectTiles_rows (zoomLevel : Nat) (tile1y tile2y j : Int)
    (h : j ∈ SelectTiles_rows zoomLevel tile1y tile2y) : 0 ≤ j ∧ j < 2 ^ zoomLevel := by
  have hp : (1 : Int) ≤ 2 ^ zoomLevel := one_le_pow₀ (by norm_num)
  unfold SelectTiles_rows at h
  rw [mem_intRange] at h
  omega

/-- The events of the loops of `SelectTiles`: one lookup and one push per visited cell. -/
theorem vtkOsmLayer.SelectTiles_tiles_events (zoomLevel : Nat)
    (tile1x tile2x tile1y tile2y : Int) (st : Selection) :
    ∃ evs,
      st.Extends (vtkOsmLayer.SelectTiles_tiles zoomLevel tile1x tile2x tile1y tile2y st) evs ∧
      evs.filterMap SelectEvent.lookedUp
        = cellKeys zoomLevel (SelectTiles_columns zoomLevel tile1x tile2x)
            (SelectTiles_rows zoomLevel tile1y tile2y) ∧
      evs.filterMap SelectEvent.produced
        = cellKeys zoomLevel (SelectTiles_columns zoomLevel tile1x tile2x)
            (SelectTiles_rows zoomLevel tile1y tile2y) ∧
      ∀ e ∈ evs, ∃ i ∈ SelectTiles_columns zoomLevel tile1x tile2x,
        ∃ j ∈ SelectTiles_rows zoomLevel tile1y tile2y,
          e.isFor (vtkOsmLayer.SelectTiles_tileSpec zoomLevel i j) :=
  vtkOsmLayer.SelectTiles_outer_events zoomLevel (SelectTiles_rows zoomLevel tile1y tile2y)
    (SelectTiles_columns zoomLevel tile1x tile2x) st

theorem nodup_cellKeys (zoomLevel : Nat) (is js : List Int) (hi : is.Nodup) (hj : js.Nodup) :
    (cellKeys zoomLevel is js).Nodup := by
  unfold cellKeys
  rw [List.nodup_flatMap]
  constructor
  · intro i _
    apply List.Nodup.map _ hj
    intro a b hab
    exact (tileKey_injective zoomLevel _ _ _ _ hab).2
  · apply List.Pairwise.imp _ hi
    intro i1 i2 hne
    simp only [Function.onFun, List.Disjoint, List.mem_map]
    rintro k ⟨a, _, rfl⟩ ⟨b, _, hb⟩
    exact hne (tileKey_injective zoomLevel _ _ _ _ hb).1.symm

theorem mem_cellKeys (zoomLevel : Nat) (is js : List Int) (k : Int × Int × Int) :
    k ∈ cellKeys zoomLevel is js ↔ ∃ i ∈ is, ∃ j ∈ js, k = tileKey zoomLevel i j := by
  unfold cellKeys
  simp only [List.mem_flatMap, List.mem_map]
  constructor
  · rintro ⟨i, hi, j, hj, rfl⟩; exact ⟨i, hi, j, hj, rfl⟩
  · rintro ⟨i, hi, j, hj, rfl⟩; exact ⟨i, hi, j, hj, rfl⟩

theorem length_cellKeys (zoomLevel : Nat) (is js : List Int) :
    (cellKeys zoomLevel is js).length = is.length * js.length := by
  unfold cellKeys
  induction is with
  | nil => simp
  | cons i is ih => simp [List.flatMap_cons, ih, Nat.add_mul, Nat.add_comm]

theorem Selection.Extends.of_start {layer : vtkOsmLayer} {st : Selection}
    {evs : List SelectEvent} (h : (Selection.start layer).Extends st evs) :
    st.trace = evs ∧ st.tiles = st.trace.filterMap SelectEvent.pushedTile ∧
    st.tileSpecs = st.trace.filterMap SelectEvent.pushedSpec := by
  obtain ⟨h1, h2, h3⟩ := h
  simp only [Selection.start, List.nil_append] at h1 h2 h3
  exact ⟨h1, by rw [h2, h1], by rw [h3, h1]⟩

theorem SelectEvent.pushedSpec_eq_some {e : SelectEvent} {s : vtkMapTileSpecInternal}
    (h : e.pushedSpec = some s) : e = SelectEvent.spec s := by
  cases e <;> simp [SelectEvent.pushedSpec] at h
  rw [h]

theorem mem_pushedSpecs {evs : List SelectEvent} {s : vtkMapTileSpecInternal}
    (h : s ∈ evs.filterMap SelectEvent.pushedSpec) : SelectEvent.spec s ∈ evs := by
  rw [List.mem_filterMap] at h
  obtain ⟨e, he, hs⟩ := h
  rw [← SelectEvent.pushedSpec_eq_some hs]
  exact he

theorem pushedSpec_keys_sublist (evs : List SelectEvent) :
    ((evs.filterMap SelectEvent.pushedSpec).map vtkMapTileSpecInternal.ZoomXY).Sublist
      (evs.filterMap SelectEvent.produced) := by
  induction evs with
  | nil => simp
  | cons e evs ih =>
    cases e with
    | test z x y => simpa [List.filterMap_cons, SelectEvent.pushedSpec, SelectEvent.produced] using ih
    | lookup z x y =>
      simpa [List.filterMap_cons, SelectEvent.pushedSpec, SelectEvent.produced] using ih
    | tile z x y t =>
      simp only [List.filterMap_cons, SelectEvent.pushedSpec, SelectEvent.produced]
      exact ih.trans (List.sublist_cons_self _ _)
    | spec s =>
      simp only [List.filterMap_cons, SelectEvent.pushedSpec, SelectEvent.produced,
        List.map_cons]
      exact ih.cons₂ _

theorem length_produced (evs : List SelectEvent) :
    (evs.filterMap SelectEvent.produced).length
      = (evs.filterMap SelectEvent.pushedTile).length
        + (evs.filterMap SelectEvent.pushedSpec).length := by
  induction evs with
  | nil => simp
  | cons e evs ih =>
    cases e <;>
      simp [List.filterMap_cons, SelectEvent.pushedSpec, SelectEvent.produced,
        SelectEvent.pushedTile, ih] <;> omega

/-- The pass of `SelectTiles` from fresh vectors, in terms of its record. -/
theorem vtkOsmLayer.SelectTiles_pass (PerspectiveProjection : Bool) (Zoom : Nat)
    (bottomLeft topRight : WorldPoint) (layer : vtkOsmLayer) (zl : Nat) (cols rows : List Int)
    (st : Selection)
    (hzl : zl = vtkOsmLayer.SelectTiles_zoomLevel PerspectiveProjection Zoom)
    (hcols : cols = SelectTiles_columns zl
      (long2tilex (vtkOsmLayer.SelectTiles_corner PerspectiveProjection bottomLeft).x zl)
      (long2tilex (vtkOsmLayer.SelectTiles_corner PerspectiveProjection topRight).x zl))
    (hrows : rows = SelectTiles_rows zl
      (lat2tiley (y2lat (vtkOsmLayer.SelectTiles_corner PerspectiveProjection bottomLeft).y) zl)
      (lat2tiley (y2lat (vtkOsmLayer.SelectTiles_corner PerspectiveProjection topRight).y) zl))
    (hst : st = vtkOsmLayer.SelectTiles PerspectiveProjection Zoom bottomLeft topRight
      (Selection.start layer)) :
    st.tiles = st.trace.filterMap SelectEvent.pushedTile ∧
    st.tileSpecs = st.trace.filterMap SelectEvent.pushedSpec ∧
    st.trace.filterMap SelectEvent.lookedUp = cellKeys zl cols rows ∧
    st.trace.filterMap SelectEvent.produced = cellKeys zl cols rows ∧
    ∀ e ∈ st.trace, ∃ i ∈ cols, ∃ j ∈ rows,
      e.isFor (vtkOsmLayer.SelectTiles_tileSpec zl i j) := by
  subst hzl hcols hrows hst
  unfold vtkOsmLayer.SelectTiles
  obtain ⟨evs, hx, hl, hp, hf⟩ := vtkOsmLayer.SelectTiles_tiles_events
    (vtkOsmLayer.SelectTiles_zoomLevel PerspectiveProjection Zoom)
    (long2tilex (vtkOsmLayer.SelectTiles_corner PerspectiveProjection bottomLeft).x
      (vtkOsmLayer.SelectTiles_zoomLevel PerspectiveProjection Zoom))
    (long2tilex (vtkOsmLayer.SelectTiles_corner PerspectiveProjection topRight).x
      (vtkOsmLayer.SelectTiles_zoomLevel PerspectiveProjection Zoom))
    (lat2tiley (y2lat (vtkOsmLayer.SelectTiles_corner PerspectiveProjection bottomLeft).y)
      (vtkOsmLayer.SelectTiles_zoomLevel PerspectiveProjection Zoom))
    (lat2tiley (y2lat (vtkOsmLayer.SelectTiles_corner PerspectiveProjection topRight).y)
      (vtkOsmLayer.SelectTiles_zoomLevel PerspectiveProjection Zoom))
    (Selection.start layer)
  obtain ⟨h1, h2, h3⟩ := hx.of_start
  refine ⟨h2, h3, ?_, ?_, ?_⟩
  · rw [h1]; exact hl
  · rw [h1]; exact hp
  · rw [h1]; exact hf

/-- The pass of `SelectTilesPerspective` from fresh vectors, in terms of its record. -/
theorem vtkOsmLayer.SelectTilesPerspective_pass (renderer : vtkRenderer) (Zoom : Nat)
    (focalPt : ℝ × ℝ × ℝ) (layer : vtkOsmLayer) :
    ∃ st : Selection,
      st = vtkOsmLayer.SelectTilesPerspective renderer Zoom focalPt (Selection.start layer) ∧
      st.tiles = st.trace.filterMap SelectEvent.pushedTile ∧
      st.tileSpecs = st.trace.filterMap SelectEvent.pushedSpec ∧
      (∀ e ∈ st.trace, ∃ j ∈ offsetsUp ++ offsetsDown, ∃ i,
        (Reached (fun i => stopsScan renderer (Zoom + 1)
            (long2tilex focalPt.1 (Zoom + 1) + i)
            (lat2tiley (y2lat focalPt.2.1) (Zoom + 1) + j)) offsetsUp i ∨
         Reached (fun i => stopsScan renderer (Zoom + 1)
            (long2tilex focalPt.1 (Zoom + 1) + i)
            (lat2tiley (y2lat focalPt.2.1) (Zoom + 1) + j)) offsetsDown i) ∧
        e.isFor (vtkOsmLayer.SelectTilesPerspective_tileSpec
          (long2tilex focalPt.1 (Zoom + 1) + i)
          (lat2tiley (y2lat focalPt.2.1) (Zoom + 1) + j) (Zoom + 1)) ∧
        validKey (Zoom + 1) (tileKey (Zoom + 1) (long2tilex focalPt.1 (Zoom + 1) + i)
          (lat2tiley (y2lat focalPt.2.1) (Zoom + 1) + j))) ∧
      (st.trace.filterMap SelectEvent.produced).Sublist
        (gridKeys (Zoom + 1) (long2tilex focalPt.1 (Zoom + 1))
          (lat2tiley (y2lat focalPt.2.1) (Zoom + 1))) := by
  unfold vtkOsmLayer.SelectTilesPerspective
  obtain ⟨evs, hx, hf, hs⟩ := vtkOsmLayer.SelectTilesPerspective_loops_events renderer
    (Zoom + 1) (long2tilex focalPt.1 (Zoom + 1)) (lat2tiley (y2lat focalPt.2.1) (Zoom + 1))
    (Selection.start layer)
  obtain ⟨h1, h2, h3⟩ := hx.of_start
  refine ⟨_, rfl, h2, h3, ?_, ?_⟩
  · rw [h1]; exact hf
  · rw [h1]; exact hs

theorem validKey_of_isFor_SelectTiles {zl : Nat} {cols rows : List Int} {e : SelectEvent}
    (hc : ∀ i ∈ cols, 0 ≤ i ∧ i < 2 ^ zl) (hr : ∀ j ∈ rows, 0 ≤ j ∧ j < 2 ^ zl)
    (h : ∃ i ∈ cols, ∃ j ∈ rows, e.isFor (vtkOsmLayer.SelectTiles_tileSpec zl i j)) :
    validKey zl e.key := by
  obtain ⟨i, hi, j, hj, hf⟩ := h
  rw [SelectEvent.isFor_key hf, SelectTiles_tileSpec_ZoomXY]
  have h1 := hc i hi
  have h2 := hr j hj
  exact validKey_tileKey zl i j (by omega)

/-- C2: in a pass of `SelectTiles` (any world corners, either projection mode, any zoom) and
in a pass of `SelectTilesPerspective` (any focal point, any renderer, any zoom), every key
passed to `GetCachedTile`, and every key of a recorded statement, has the zoom level of
the pass and `0 ≤ x < 2^zoom`, `0 ≤ y < 2^zoom`; so does the `ZoomXY` of every tile spec
in `tileSpecs`. -/
theorem C2_selected_keys_in_range (PerspectiveProjection : Bool) (Zoom : Nat)
    (bottomLeft topRight : WorldPoint) (renderer : vtkRenderer) (focalPt : ℝ × ℝ × ℝ)
    (layer : vtkOsmLayer) :
    (∀ e ∈ (vtkOsmLayer.SelectTiles PerspectiveProjection Zoom bottomLeft topRight
          (Selection.start layer)).trace,
        validKey (vtkOsmLayer.SelectTiles_zoomLevel PerspectiveProjection Zoom) e.key) ∧
    (∀ s ∈ (vtkOsmLayer.SelectTiles PerspectiveProjection Zoom bottomLeft topRight
          (Selection.start layer)).tileSpecs,
        validKey (vtkOsmLayer.SelectTiles_zoomLevel PerspectiveProjection Zoom) s.ZoomXY) ∧
    (∀ e ∈ (vtkOsmLayer.SelectTilesPerspective renderer Zoom focalPt
          (Selection.start layer)).trace,
        validKey (Zoom + 1) e.key) ∧
    (∀ s ∈ (vtkOsmLayer.SelectTilesPerspective renderer Zoom focalPt
          (Selection.start layer)).tileSpecs,
        validKey (Zoom + 1) s.ZoomXY) := by
  obtain ⟨_, h3, _, _, hf⟩ := vtkOsmLayer.SelectTiles_pass PerspectiveProjection Zoom
    bottomLeft topRight layer _ _ _ _ rfl rfl rfl rfl
  obtain ⟨st, hst, _, p3, pf, _⟩ := vtkOsmLayer.SelectTilesPerspective_pass renderer Zoom
    focalPt layer
  subst hst
  have hA : ∀ e ∈ (vtkOsmLayer.SelectTiles PerspectiveProjection Zoom bottomLeft topRight
      (Selection.start layer)).trace,
      validKey (vtkOsmLayer.SelectTiles_zoomLevel PerspectiveProjection Zoom) e.key :=
    fun e he => validKey_of_isFor_SelectTiles
      (fun i hi => mem_SelectTiles_columns _ _ _ i hi)
      (fun j hj => mem_SelectTiles_rows _ _ _ j hj) (hf e he)
  have hB : ∀ e ∈ (vtkOsmLayer.SelectTilesPerspective renderer Zoom focalPt
      (Selection.start layer)).trace, validKey (Zoom + 1) e.key := by
    intro e he
    obtain ⟨j, _, i, _, hfor, hv⟩ := pf e he
    rw [SelectEvent.isFor_key hfor, SelectTilesPerspective_tileSpec_ZoomXY]
    exact hv
  refine ⟨hA, ?_, hB, ?_⟩
  · intro s hs
    rw [h3] at hs
    exact hA _ (mem_pushedSpecs hs)
  · intro s hs
    rw [p3] at hs
    exact hB _ (mem_pushedSpecs hs)

/-- C5: in one pass of `SelectTiles`, and in one pass of `SelectTilesPerspective` with any
on-screen test results, no key is produced twice: the keys under which cached tiles are
appended to `tiles`, together with the `ZoomXY` keys of the specs appended to
`tileSpecs`, are pairwise distinct. The two vectors hold exactly the recorded pushes, and
the `ZoomXY` keys in `tileSpecs` are pairwise distinct. -/
theorem C5_no_key_produced_twice (PerspectiveProjection : Bool) (Zoom : Nat)
    (bottomLeft topRight : WorldPoint) (renderer : vtkRenderer) (focalPt : ℝ × ℝ × ℝ)
    (layer : vtkOsmLayer) :
    (((vtkOsmLayer.SelectTiles PerspectiveProjection Zoom bottomLeft topRight
        (Selection.start layer)).trace.filterMap SelectEvent.produced).Nodup ∧
      (vtkOsmLayer.SelectTiles PerspectiveProjection Zoom bottomLeft topRight
        (Selection.start layer)).tiles
        = (vtkOsmLayer.SelectTiles PerspectiveProjection Zoom bottomLeft topRight
            (Selection.start layer)).trace.filterMap SelectEvent.pushedTile ∧
      (vtkOsmLayer.SelectTiles PerspectiveProjection Zoom bottomLeft topRight
        (Selection.start layer)).tileSpecs
        = (vtkOsmLayer.SelectTiles PerspectiveProjection Zoom bottomLeft topRight
            (Selection.start layer)).trace.filterMap SelectEvent.pushedSpec ∧
      ((vtkOsmLayer.SelectTiles PerspectiveProjection Zoom bottomLeft topRight
        (Selection.start layer)).tileSpecs.map vtkMapTileSpecInternal.ZoomXY).Nodup) ∧
    (((vtkOsmLayer.SelectTilesPerspective renderer Zoom focalPt
        (Selection.start layer)).trace.filterMap SelectEvent.produced).Nodup ∧
      (vtkOsmLayer.SelectTilesPerspective renderer Zoom focalPt (Selection.start layer)).tiles
        = (vtkOsmLayer.SelectTilesPerspective renderer Zoom focalPt
            (Selection.start layer)).trace.filterMap SelectEvent.pushedTile ∧
      (vtkOsmLayer.SelectTilesPerspective renderer Zoom focalPt
        (Selection.start layer)).tileSpecs
        = (vtkOsmLayer.SelectTilesPerspective renderer Zoom focalPt
            (Selection.start layer)).trace.filterMap SelectEvent.pushedSpec ∧
      ((vtkOsmLayer.SelectTilesPerspective renderer Zoom focalPt
        (Selection.start layer)).tileSpecs.map vtkMapTileSpecInternal.ZoomXY).Nodup) := by
  obtain ⟨h2, h3, _, hp, _⟩ := vtkOsmLayer.SelectTiles_pass PerspectiveProjection Zoom
    bottomLeft topRight layer _ _ _ _ rfl rfl rfl rfl
  obtain ⟨st, hst, p2, p3, _, ps⟩ := vtkOsmLayer.SelectTilesPerspective_pass renderer Zoom
    focalPt layer
  subst hst
  have hA : ((vtkOsmLayer.SelectTiles PerspectiveProjection Zoom bottomLeft topRight
      (Selection.start layer)).trace.filterMap SelectEvent.produced).Nodup := by
    rw [hp]
    exact nodup_cellKeys _ _ _ (nodup_intRange _ _) (nodup_intRange _ _)
  have hB : ((vtkOsmLayer.SelectTilesPerspective renderer Zoom focalPt
      (Selection.start layer)).trace.filterMap SelectEvent.produced).Nodup :=
    List.Nodup.sublist ps (nodup_gridKeys _ _ _)
  refine ⟨⟨hA, h2, h3, ?_⟩, ⟨hB, p2, p3, ?_⟩⟩
  · rw [h3]
    exact List.Nodup.sublist (pushedSpec_keys_sublist _) hA
  · rw [p3]
    exact List.Nodup.sublist (pushedSpec_keys_sublist _) hB

/-! ## Evaluation at concrete viewports -/

theorem long2tilex_neg180 (z : Nat) : long2tilex (-180) z = 0 := by
  simp [long2tilex]

theorem long2tilex_180 (z : Nat) : long2tilex 180 z = 2 ^ z := by
  unfold long2tilex
  have h : ((180 : ℝ) + 180) / 360 * 2 ^ z = (((2 : ℤ) ^ z : ℤ) : ℝ) := by push_cast; ring
  rw [h, Int.floor_intCast]

theorem row_neg180 (z : Nat) : lat2tiley (y2lat (-180)) z = 2 ^ z := by
  rw [lat2tiley_y2lat]
  have h : ((180 : ℝ) - -180) / 360 * 2 ^ z = (((2 : ℤ) ^ z : ℤ) : ℝ) := by push_cast; ring
  rw [h, Int.floor_intCast]

theorem row_180 (z : Nat) : lat2tiley (y2lat 180) z = 0 := by
  rw [lat2tiley_y2lat]
  simp

theorem long2tilex_zero (z : Nat) : long2tilex 0 (z + 1) = 2 ^ z := by
  unfold long2tilex
  have h : ((0 : ℝ) + 180) / 360 * 2 ^ (z + 1) = (((2 : ℤ) ^ z : ℤ) : ℝ) := by
    push_cast; ring
  rw [h, Int.floor_intCast]

theorem row_zero (z : Nat) : lat2tiley (y2lat 0) (z + 1) = 2 ^ z := by
  rw [lat2tiley_y2lat]
  have h : ((180 : ℝ) - 0) / 360 * 2 ^ (z + 1) = (((2 : ℤ) ^ z : ℤ) : ℝ) := by
    push_cast; ring
  rw [h, Int.floor_intCast]

/-- Orthographic `SelectTiles` on a viewport whose world corners are `(-180,-180)` and
`(180,180)`: the tile indices are `0`, `2^z`, `2^z`, `0` before the clamps. -/
theorem vtkOsmLayer.SelectTiles_fullWorld (Zoom : Nat) (bottomLeft topRight : WorldPoint)
    (st : Selection)
    (hbx : bottomLeft.divideByW.x = -180) (hby : bottomLeft.divideByW.y = -180)
    (htx : topRight.divideByW.x = 180) (hty : topRight.divideByW.y = 180) :
    vtkOsmLayer.SelectTiles false Zoom bottomLeft topRight st
      = vtkOsmLayer.SelectTiles_tiles Zoom 0 (2 ^ Zoom) (2 ^ Zoom) 0 st := by
  unfold vtkOsmLayer.SelectTiles
  simp only [vtkOsmLayer.SelectTiles_corner, vtkOsmLayer.SelectTiles_zoomLevel, hbx, hby, htx,
    hty, long2tilex_neg180, long2tilex_180, row_neg180, row_180, Bool.false_eq_true, if_false,
    Nat.add_zero]

theorem fullWorld_corners :
    ({ x := -180, y := -180, z := 0, w := 1 } : WorldPoint).divideByW.x = -180 ∧
    ({ x := -180, y := -180, z := 0, w := 1 } : WorldPoint).divideByW.y = -180 ∧
    ({ x := 180, y := 180, z := 0, w := 1 } : WorldPoint).divideByW.x = 180 ∧
    ({ x := 180, y := 180, z := 0, w := 1 } : WorldPoint).divideByW.y = 180 := by
  simp [WorldPoint.divideByW]

/-- Perspective selection with the focal point at the world origin starts from the base
tile `(2^Zoom, 2^Zoom)` at zoom level `Zoom + 1`. -/
theorem vtkOsmLayer.SelectTilesPerspective_origin (renderer : vtkRenderer) (Zoom : Nat)
    (st : Selection) :
    vtkOsmLayer.SelectTilesPerspective renderer Zoom (0, 0, 0) st
      = vtkOsmLayer.SelectTilesPerspective_loops renderer (Zoom + 1) (2 ^ Zoom) (2 ^ Zoom) st := by
  unfold vtkOsmLayer.SelectTilesPerspective
  simp only [long2tilex_zero, row_zero]

theorem SelectTiles_fullWorld_zoom0_trace (objects : Nat → vtkMapTile) :
    (vtkOsmLayer.SelectTiles false 0 { x := -180, y := -180, z := 0, w := 1 }
      { x := 180, y := 180, z := 0, w := 1 }
      (Selection.start (vtkOsmLayer.New objects))).trace
    = [SelectEvent.lookup 0 0 0, SelectEvent.spec (vtkOsmLayer.SelectTiles_tileSpec 0 0 0)] := by
  rw [vtkOsmLayer.SelectTiles_fullWorld 0 _ _ _ fullWorld_corners.1 fullWorld_corners.2.1
    fullWorld_corners.2.2.1 fullWorld_corners.2.2.2]
  rfl

theorem SelectTilesPerspective_origin_zoom0_mem :
    SelectEvent.lookup 1 1 0 ∈
      (vtkOsmLayer.SelectTilesPerspective { WorldToView := fun _ _ _ => (0, 0, 0) } 0 (0, 0, 0)
        (Selection.start (vtkOsmLayer.New (fun _ => vtkMapTile.New)))).trace ∧
    (vtkOsmLayer.SelectTilesPerspective { WorldToView := fun _ _ _ => (0, 0, 0) } 0 (0, 0, 0)
        (Selection.start (vtkOsmLayer.New (fun _ => vtkMapTile.New)))).tileSpecs.length = 4 := by
  rw [vtkOsmLayer.SelectTilesPerspective_origin]
  decide

/-- Witness of C2: at zoom 0 the full-world orthographic pass looks up key `(0,0,0)`, and
the perspective pass with the focal point at the origin looks up key `(1,1,0)`; both are
valid keys. -/
theorem C2_witness_zoom0 :
    (SelectEvent.lookup 0 0 0 ∈
      (vtkOsmLayer.SelectTiles false 0 { x := -180, y := -180, z := 0, w := 1 }
        { x := 180, y := 180, z := 0, w := 1 }
        (Selection.start (vtkOsmLayer.New (fun _ => vtkMapTile.New)))).trace ∧
      validKey (vtkOsmLayer.SelectTiles_zoomLevel false 0) (SelectEvent.lookup 0 0 0).key) ∧
    (SelectEvent.lookup 1 1 0 ∈
      (vtkOsmLayer.SelectTilesPerspective { WorldToView := fun _ _ _ => (0, 0, 0) } 0 (0, 0, 0)
        (Selection.start (vtkOsmLayer.New (fun _ => vtkMapTile.New)))).trace ∧
      validKey (0 + 1) (SelectEvent.lookup 1 1 0).key) := by
  have h1 : SelectEvent.lookup 0 0 0 ∈
      (vtkOsmLayer.SelectTiles false 0 { x := -180, y := -180, z := 0, w := 1 }
        { x := 180, y := 180, z := 0, w := 1 }
        (Selection.start (vtkOsmLayer.New (fun _ => vtkMapTile.New)))).trace := by
    rw [SelectTiles_fullWorld_zoom0_trace]
    exact List.mem_cons_self _ _
  have h2 := SelectTilesPerspective_origin_zoom0_mem.1
  have h := C2_selected_keys_in_range false 0 { x := -180, y := -180, z := 0, w := 1 }
    { x := 180, y := 180, z := 0, w := 1 } { WorldToView := fun _ _ _ => (0, 0, 0) } (0, 0, 0)
    (vtkOsmLayer.New (fun _ => vtkMapTile.New))
  exact ⟨⟨h1, h.1 _ h1⟩, ⟨h2, h.2.2.1 _ h2⟩⟩

theorem SelectTiles_tileSpec_rowcol (zl : Nat) (i j : Int) :
    (vtkOsmLayer.SelectTiles_tileSpec zl i j).ZoomRowCol0
      = (vtkOsmLayer.SelectTiles_tileSpec zl i j).ZoomXY0 ∧
    (vtkOsmLayer.SelectTiles_tileSpec zl i j).ZoomRowCol1
      = (vtkOsmLayer.SelectTiles_tileSpec zl i j).ZoomXY1 ∧
    (vtkOsmLayer.SelectTiles_tileSpec zl i j).ZoomRowCol2
      + (vtkOsmLayer.SelectTiles_tileSpec zl i j).ZoomXY2
      = 2 ^ (vtkOsmLayer.SelectTiles_tileSpec zl i j).ZoomXY0.toNat - 1 := by
  simp only [vtkOsmLayer.SelectTiles_tileSpec, Int.toNat_ofNat]
  refine ⟨trivial, trivial, ?_⟩
  omega

theorem SelectTilesPerspective_tileSpec_rowcol (tilex tiley : Int) (zl : Nat) :
    (vtkOsmLayer.SelectTilesPerspective_tileSpec tilex tiley zl).ZoomRowCol0
      = (vtkOsmLayer.SelectTilesPerspective_tileSpec tilex tiley zl).ZoomXY0 ∧
    (vtkOsmLayer.SelectTilesPerspective_tileSpec tilex tiley zl).ZoomRowCol1
      = (vtkOsmLayer.SelectTilesPerspective_tileSpec tilex tiley zl).ZoomXY1 ∧
    (vtkOsmLayer.SelectTilesPerspective_tileSpec tilex tiley zl).ZoomRowCol2
      + (vtkOsmLayer.SelectTilesPerspective_tileSpec tilex tiley zl).ZoomXY2
      = 2 ^ (vtkOsmLayer.SelectTilesPerspective_tileSpec tilex tiley zl).ZoomXY0.toNat - 1 := by
  simp only [vtkOsmLayer.SelectTilesPerspective_tileSpec, Int.toNat_ofNat]
  refine ⟨trivial, trivial, ?_⟩
  omega

/-- C10: every tile spec that `SelectTiles` or `SelectTilesPerspective` (through
`SelectTilesPerspective_DoTile`) appends to `tileSpecs` carries a server index and a cache
index that agree on zoom and on the horizontal index and are mirrored vertically:
`ZoomRowCol[0] = ZoomXY[0]`, `ZoomRowCol[1] = ZoomXY[1]` and
`ZoomRowCol[2] + ZoomXY[2] = 2^zoom - 1` with `zoom = ZoomXY[0]`. -/
theorem C10_server_and_cache_index_mirrored (PerspectiveProjection : Bool) (Zoom : Nat)
    (bottomLeft topRight : WorldPoint) (renderer : vtkRenderer) (focalPt : ℝ × ℝ × ℝ)
    (layer : vtkOsmLayer) (s : vtkMapTileSpecInternal)
    (hs : s ∈ (vtkOsmLayer.SelectTiles PerspectiveProjection Zoom bottomLeft topRight
          (Selection.start layer)).tileSpecs ∨
        s ∈ (vtkOsmLayer.SelectTilesPerspective renderer Zoom focalPt
          (Selection.start layer)).tileSpecs) :
    s.ZoomRowCol0 = s.ZoomXY0 ∧ s.ZoomRowCol1 = s.ZoomXY1 ∧
    s.ZoomRowCol2 + s.ZoomXY2 = 2 ^ s.ZoomXY0.toNat - 1 := by
  rcases hs with hs | hs
  · obtain ⟨_, h3, _, _, hf⟩ := vtkOsmLayer.SelectTiles_pass PerspectiveProjection Zoom
      bottomLeft topRight layer _ _ _ _ rfl rfl rfl rfl
    rw [h3] at hs
    obtain ⟨i, _, j, _, hfor⟩ := hf _ (mem_pushedSpecs hs)
    have := @SelectEvent.isFor_pushedSpec _ s _ hfor rfl
    subst this
    exact SelectTiles_tileSpec_rowcol _ i j
  · obtain ⟨st, hst, _, p3, pf, _⟩ := vtkOsmLayer.SelectTilesPerspective_pass renderer Zoom
      focalPt layer
    subst hst
    rw [p3] at hs
    obtain ⟨j, _, i, _, hfor, _⟩ := pf _ (mem_pushedSpecs hs)
    have := @SelectEvent.isFor_pushedSpec _ s _ hfor rfl
    subst this
    exact SelectTilesPerspective_tileSpec_rowcol _ _ _

theorem SelectTiles_fullWorld_zoom0_tileSpecs (objects : Nat → vtkMapTile) :
    (vtkOsmLayer.SelectTiles false 0 { x := -180, y := -180, z := 0, w := 1 }
      { x := 180, y := 180, z := 0, w := 1 }
      (Selection.start (vtkOsmLayer.New objects))).tileSpecs
    = [vtkOsmLayer.SelectTiles_tileSpec 0 0 0] := by
  rw [vtkOsmLayer.SelectTiles_fullWorld 0 _ _ _ fullWorld_corners.1 fullWorld_corners.2.1
    fullWorld_corners.2.2.1 fullWorld_corners.2.2.2]
  rfl

/-- Witness of C10: the spec emitted by the full-world orthographic pass at zoom 0. -/
theorem C10_witness_zoom0 :
    vtkOsmLayer.SelectTiles_tileSpec 0 0 0 ∈
      (vtkOsmLayer.SelectTiles false 0 { x := -180, y := -180, z := 0, w := 1 }
        { x := 180, y := 180, z := 0, w := 1 }
        (Selection.start (vtkOsmLayer.New (fun _ => vtkMapTile.New)))).tileSpecs ∧
    ((vtkOsmLayer.SelectTiles_tileSpec 0 0 0).ZoomRowCol0
        = (vtkOsmLayer.SelectTiles_tileSpec 0 0 0).ZoomXY0 ∧
      (vtkOsmLayer.SelectTiles_tileSpec 0 0 0).ZoomRowCol1
        = (vtkOsmLayer.SelectTiles_tileSpec 0 0 0).ZoomXY1 ∧
      (vtkOsmLayer.SelectTiles_tileSpec 0 0 0).ZoomRowCol2
        + (vtkOsmLayer.SelectTiles_tileSpec 0 0 0).ZoomXY2
        = 2 ^ (vtkOsmLayer.SelectTiles_tileSpec 0 0 0).ZoomXY0.toNat - 1) := by
  have hmem : vtkOsmLayer.SelectTiles_tileSpec 0 0 0 ∈
      (vtkOsmLayer.SelectTiles false 0 { x := -180, y := -180, z := 0, w := 1 }
        { x := 180, y := 180, z := 0, w := 1 }
        (Selection.start (vtkOsmLayer.New (fun _ => vtkMapTile.New)))).tileSpecs := by
    rw [SelectTiles_fullWorld_zoom0_tileSpecs]
    exact List.mem_singleton_self _
  exact ⟨hmem, C10_server_and_cache_index_mirrored false 0
    { x := -180, y := -180, z := 0, w := 1 } { x := 180, y := 180, z := 0, w := 1 }
    { WorldToView := fun _ _ _ => (0, 0, 0) } (0, 0, 0)
    (vtkOsmLayer.New (fun _ => vtkMapTile.New)) _ (Or.inl hmem)⟩

theorem IsPointOnScreen_iff (renderer : vtkRenderer) (px py : ℚ) :
    IsPointOnScreen (px, py, 0) renderer = true ↔ cornerOnScreen renderer px py := by
  simp only [IsPointOnScreen, GetViewCoords, cornerOnScreen, Bool.and_eq_true,
    decide_eq_true_eq, ge_iff_le]
  tauto

/-- The function `IsTileOnScreen` returns 0 exactly when none of the four corner points of
the tile is on screen. -/
theorem IsTileOnScreen_eq_zero_iff (s : vtkMapTileSpecInternal) (renderer : vtkRenderer) :
    IsTileOnScreen s renderer = 0 ↔ completelyOffScreen renderer s := by
  unfold completelyOffScreen
  rw [← IsPointOnScreen_iff, ← IsPointOnScreen_iff, ← IsPointOnScreen_iff,
    ← IsPointOnScreen_iff]
  simp only [IsTileOnScreen, IsRectOnScreen]
  generalize IsPointOnScreen (s.Corners0, s.Corners1, 0) renderer = a
  generalize IsPointOnScreen (s.Corners0, s.Corners3, 0) renderer = b
  generalize IsPointOnScreen (s.Corners2, s.Corners3, 0) renderer = c
  generalize IsPointOnScreen (s.Corners2, s.Corners1, 0) renderer = d
  cases a <;> cases b <;> cases c <;> cases d <;> simp

/-- C7: in `SelectTilesPerspective`, for every row (offset `j` from the base row) and
each x direction: if the candidate tile at offset `N` in that direction (`N ≥ 0` for +x,
`N ≤ -1` for -x) is completely off-screen, then no tile farther along that direction
(offset `M` beyond `N`) in that row occurs in any recorded statement: it is not tested,
not looked up in the cache, not pushed to `tiles`, and no spec with its key is in
`tileSpecs`. Nothing is assumed about tile `M` itself, which may be on-screen. -/
theorem C7_scan_stops_at_off_screen_tile (renderer : vtkRenderer) (Zoom : Nat)
    (focalPt : ℝ × ℝ × ℝ) (layer : vtkOsmLayer) (j N M : Int)
    (hoffScreen : completelyOffScreen renderer
      (vtkOsmLayer.SelectTilesPerspective_tileSpec
        (long2tilex focalPt.1 (Zoom + 1) + N)
        (lat2tiley (y2lat focalPt.2.1) (Zoom + 1) + j) (Zoom + 1)))
    (hdir : (0 ≤ N ∧ N < M) ∨ (N ≤ -1 ∧ M < N)) :
    (∀ e ∈ (vtkOsmLayer.SelectTilesPerspective renderer Zoom focalPt
        (Selection.start layer)).trace,
      e.key ≠ tileKey (Zoom + 1) (long2tilex focalPt.1 (Zoom + 1) + M)
        (lat2tiley (y2lat focalPt.2.1) (Zoom + 1) + j)) ∧
    (∀ s ∈ (vtkOsmLayer.SelectTilesPerspective renderer Zoom focalPt
        (Selection.start layer)).tileSpecs,
      s.ZoomXY ≠ tileKey (Zoom + 1) (long2tilex focalPt.1 (Zoom + 1) + M)
        (lat2tiley (y2lat focalPt.2.1) (Zoom + 1) + j)) := by
  have hoff := (IsTileOnScreen_eq_zero_iff _ _).mpr hoffScreen
  obtain ⟨st, hst, _, p3, pf, _⟩ := vtkOsmLayer.SelectTilesPerspective_pass renderer Zoom
    focalPt layer
  subst hst
  have hA : ∀ e ∈ (vtkOsmLayer.SelectTilesPerspective renderer Zoom focalPt
      (Selection.start layer)).trace,
      e.key ≠ tileKey (Zoom + 1) (long2tilex focalPt.1 (Zoom + 1) + M)
        (lat2tiley (y2lat focalPt.2.1) (Zoom + 1) + j) := by
    intro e he hkey
    obtain ⟨j2, _, i, hreach, hfor, _⟩ := pf e he
    rw [SelectEvent.isFor_key hfor, SelectTilesPerspective_tileSpec_ZoomXY] at hkey
    obtain ⟨hx, hy⟩ := tileKey_injective _ _ _ _ _ hkey
    have hi : i = M := by omega
    have hj : j2 = j := by omega
    subst hi hj
    rcases hreach with hr | hr
    · obtain ⟨h0, _, hno⟩ := reached_offsetsUp _ _ hr
      rcases hdir with ⟨hN0, hNM⟩ | ⟨hN1, hMN⟩
      · exact hno N hN0 hNM (Or.inr hoff)
      · omega
    · obtain ⟨_, h1, hno⟩ := reached_offsetsDown _ _ hr
      rcases hdir with ⟨hN0, hNM⟩ | ⟨hN1, hMN⟩
      · omega
      · exact hno N hMN hN1 (Or.inr hoff)
  refine ⟨hA, ?_⟩
  intro s hs
  rw [p3] at hs
  exact hA _ (mem_pushedSpecs hs)

/-- Witness of C7: zoom 1 (tiles of zoom level 2), focal point at the origin, so the base
tile is `(2, 2)`; the renderer shows exactly the world points with `x > 90`. The base tile
(offset 0) is completely off-screen, the next tile in the positive x direction (offset 1)
is not, and it is never visited. -/
theorem C7_witness_next_tile_on_screen :
    (completelyOffScreen { WorldToView := fun x _ _ => (if x > 90 then 0 else 5, 0, 0) }
        (vtkOsmLayer.SelectTilesPerspective_tileSpec
          (long2tilex ((0 : ℝ), (0 : ℝ), (0 : ℝ)).1 (1 + 1) + 0)
          (lat2tiley (y2lat ((0 : ℝ), (0 : ℝ), (0 : ℝ)).2.1) (1 + 1) + 0) (1 + 1)) ∧
      ((0 : Int) ≤ 0 ∧ (0 : Int) < 1)) ∧
    ¬ completelyOffScreen { WorldToView := fun x _ _ => (if x > 90 then 0 else 5, 0, 0) }
        (vtkOsmLayer.SelectTilesPerspective_tileSpec (2 + 1) (2 + 0) 2) ∧
    ((∀ e ∈ (vtkOsmLayer.SelectTilesPerspective
          { WorldToView := fun x _ _ => (if x > 90 then 0 else 5, 0, 0) } 1 (0, 0, 0)
          (Selection.start (vtkOsmLayer.New (fun _ => vtkMapTile.New)))).trace,
        e.key ≠ tileKey (1 + 1) (long2tilex ((0 : ℝ), (0 : ℝ), (0 : ℝ)).1 (1 + 1) + 1)
          (lat2tiley (y2lat ((0 : ℝ), (0 : ℝ), (0 : ℝ)).2.1) (1 + 1) + 0)) ∧
      (∀ s ∈ (vtkOsmLayer.SelectTilesPerspective
          { WorldToView := fun x _ _ => (if x > 90 then 0 else 5, 0, 0) } 1 (0, 0, 0)
          (Selection.start (vtkOsmLayer.New (fun _ => vtkMapTile.New)))).tileSpecs,
        s.ZoomXY ≠ tileKey (1 + 1) (long2tilex ((0 : ℝ), (0 : ℝ), (0 : ℝ)).1 (1 + 1) + 1)
          (lat2tiley (y2lat ((0 : ℝ), (0 : ℝ), (0 : ℝ)).2.1) (1 + 1) + 0))) := by
  have hoff : completelyOffScreen
      { WorldToView := fun x _ _ => (if x > 90 then 0 else 5, 0, 0) }
      (vtkOsmLayer.SelectTilesPerspective_tileSpec
        (long2tilex ((0 : ℝ), (0 : ℝ), (0 : ℝ)).1 (1 + 1) + 0)
        (lat2tiley (y2lat ((0 : ℝ), (0 : ℝ), (0 : ℝ)).2.1) (1 + 1) + 0) (1 + 1)) := by
    rw [long2tilex_zero 1, row_zero 1]
    norm_num [completelyOffScreen, cornerOnScreen, vtkOsmLayer.SelectTilesPerspective_tileSpec]
  have hon : ¬ completelyOffScreen
      { WorldToView := fun x _ _ => (if x > 90 then 0 else 5, 0, 0) }
      (vtkOsmLayer.SelectTilesPerspective_tileSpec (2 + 1) (2 + 0) 2) := by
    norm_num [completelyOffScreen, cornerOnScreen, vtkOsmLayer.SelectTilesPerspective_tileSpec]
  exact ⟨⟨hoff, by decide⟩, hon,
    C7_scan_stops_at_off_screen_tile
      { WorldToView := fun x _ _ => (if x > 90 then 0 else 5, 0, 0) } 1 (0, 0, 0)
      (vtkOsmLayer.New (fun _ => vtkMapTile.New)) 0 0 1 hoff (Or.inl ⟨le_refl _, by decide⟩)⟩

theorem mem_produced {evs : List SelectEvent} {k : Int × Int × Int}
    (h : k ∈ evs.filterMap SelectEvent.produced) : ∃ e ∈ evs, e.key = k := by
  rw [List.mem_filterMap] at h
  obtain ⟨e, he, hk⟩ := h
  exact ⟨e, he, SelectEvent.produced_eq_key hk⟩

theorem SelectTiles_columns_fullWorld (z : Nat) :
    SelectTiles_columns z 0 (2 ^ z) = intRange 0 (2 ^ z - 1) := by
  have hp : (1 : Int) ≤ 2 ^ z := one_le_pow₀ (by norm_num)
  unfold SelectTiles_columns
  congr 1 <;> omega

theorem SelectTiles_rows_fullWorld (z : Nat) :
    SelectTiles_rows z (2 ^ z) 0 = intRange 0 (2 ^ z - 1) := by
  have hp : (1 : Int) ≤ 2 ^ z := one_le_pow₀ (by norm_num)
  unfold SelectTiles_rows
  have h : ¬ ((0 : Int) > 2 ^ z) := by omega
  simp only [h, if_false]
  congr 1 <;> omega

/-- C4: for every zoom level `z`, orthographic `SelectTiles` on a viewport whose world
corners are `bottomLeft = (-180,-180)` and `topRight = (180,180)` produces exactly `4^z`
entries (cached tiles plus tile specs), with pairwise distinct keys, and the keys produced
are exactly the triples `(z, x, y)` with `x` and `y` in `[0, 2^z - 1]`. -/
theorem C4_full_world_selects_all_tiles (z : Nat) (bottomLeft topRight : WorldPoint)
    (layer : vtkOsmLayer)
    (hbx : bottomLeft.divideByW.x = -180) (hby : bottomLeft.divideByW.y = -180)
    (htx : topRight.divideByW.x = 180) (hty : topRight.divideByW.y = 180) :
    (vtkOsmLayer.SelectTiles false z bottomLeft topRight (Selection.start layer)).tiles.length
      + (vtkOsmLayer.SelectTiles false z bottomLeft topRight
          (Selection.start layer)).tileSpecs.length = 4 ^ z ∧
    ((vtkOsmLayer.SelectTiles false z bottomLeft topRight
        (Selection.start layer)).trace.filterMap SelectEvent.produced).length = 4 ^ z ∧
    ((vtkOsmLayer.SelectTiles false z bottomLeft topRight
        (Selection.start layer)).trace.filterMap SelectEvent.produced).Nodup ∧
    (∀ k : Int × Int × Int,
      k ∈ (vtkOsmLayer.SelectTiles false z bottomLeft topRight
          (Selection.start layer)).trace.filterMap SelectEvent.produced ↔
        (k.1 = (z : Int) ∧ 0 ≤ k.2.1 ∧ k.2.1 ≤ 2 ^ z - 1 ∧ 0 ≤ k.2.2 ∧ k.2.2 ≤ 2 ^ z - 1)) ∧
    (vtkOsmLayer.SelectTiles false z bottomLeft topRight (Selection.start layer)).tiles
      = (vtkOsmLayer.SelectTiles false z bottomLeft topRight
          (Selection.start layer)).trace.filterMap SelectEvent.pushedTile ∧
    (vtkOsmLayer.SelectTiles false z bottomLeft topRight (Selection.start layer)).tileSpecs
      = (vtkOsmLayer.SelectTiles false z bottomLeft topRight
          (Selection.start layer)).trace.filterMap SelectEvent.pushedSpec := by
  have hp : (1 : Int) ≤ 2 ^ z := one_le_pow₀ (by norm_num)
  rw [vtkOsmLayer.SelectTiles_fullWorld z bottomLeft topRight _ hbx hby htx hty]
  obtain ⟨evs, hx, _, hprod, _⟩ := vtkOsmLayer.SelectTiles_tiles_events z 0 (2 ^ z) (2 ^ z) 0
    (Selection.start layer)
  obtain ⟨h1, h2, h3⟩ := hx.of_start
  rw [SelectTiles_columns_fullWorld, SelectTiles_rows_fullWorld, ← h1] at hprod
  have hlen : ((vtkOsmLayer.SelectTiles_tiles z 0 (2 ^ z) (2 ^ z) 0
      (Selection.start layer)).trace.filterMap SelectEvent.produced).length = 4 ^ z := by
    rw [hprod, length_cellKeys, length_intRange]
    have h4 : (4 : Nat) ^ z = 2 ^ z * 2 ^ z := by
      rw [← mul_pow]; norm_num
    have h5 : ((2 : Int) ^ z - 1 + 1 - 0).toNat = 2 ^ z := by
      have : ((2 : Int) ^ z - 1 + 1 - 0) = ((2 ^ z : Nat) : Int) := by push_cast; ring
      rw [this, Int.toNat_ofNat]
    rw [h5, h4]
  refine ⟨?_, hlen, ?_, ?_, h2, h3⟩
  · rw [← hlen, length_produced, ← h2, ← h3]
  · rw [hprod]
    exact nodup_cellKeys _ _ _ (nodup_intRange _ _) (nodup_intRange _ _)
  · intro k
    rw [hprod, mem_cellKeys]
    constructor
    · rintro ⟨i, hi, j, hj, rfl⟩
      rw [mem_intRange] at hi hj
      simp only [tileKey]
      refine ⟨trivial, hi.1, hi.2, ?_, ?_⟩ <;> omega
    · rintro ⟨hk1, hk2, hk3, hk4, hk5⟩
      refine ⟨k.2.1, (mem_intRange _ _ _).mpr ⟨hk2, hk3⟩, 2 ^ z - 1 - k.2.2,
        (mem_intRange _ _ _).mpr ⟨by omega, by omega⟩, ?_⟩
      obtain ⟨k1, k2, k3⟩ := k
      simp only [tileKey, Prod.mk.injEq] at hk1 ⊢
      exact ⟨hk1, trivial, by omega⟩

/-- Witness of C4: zoom 3 with the viewport corners `(-180,-180,0,1)` and `(180,180,0,1)`:
64 entries, keys spanning `[0,7] x [0,7]`. -/
theorem C4_witness_zoom3 :
    (({ x := -180, y := -180, z := 0, w := 1 } : WorldPoint).divideByW.x = -180 ∧
      ({ x := -180, y := -180, z := 0, w := 1 } : WorldPoint).divideByW.y = -180 ∧
      ({ x := 180, y := 180, z := 0, w := 1 } : WorldPoint).divideByW.x = 180 ∧
      ({ x := 180, y := 180, z := 0, w := 1 } : WorldPoint).divideByW.y = 180) ∧
    (vtkOsmLayer.SelectTiles false 3 { x := -180, y := -180, z := 0, w := 1 }
        { x := 180, y := 180, z := 0, w := 1 }
        (Selection.start (vtkOsmLayer.New (fun _ => vtkMapTile.New)))).tiles.length
      + (vtkOsmLayer.SelectTiles false 3 { x := -180, y := -180, z := 0, w := 1 }
        { x := 180, y := 180, z := 0, w := 1 }
        (Selection.start (vtkOsmLayer.New (fun _ => vtkMapTile.New)))).tileSpecs.length = 64 ∧
    (∀ k : Int × Int × Int,
      k ∈ (vtkOsmLayer.SelectTiles false 3 { x := -180, y := -180, z := 0, w := 1 }
          { x := 180, y := 180, z := 0, w := 1 }
          (Selection.start (vtkOsmLayer.New (fun _ => vtkMapTile.New)))).trace.filterMap
            SelectEvent.produced ↔
        (k.1 = 3 ∧ 0 ≤ k.2.1 ∧ k.2.1 ≤ 7 ∧ 0 ≤ k.2.2 ∧ k.2.2 ≤ 7)) := by
  have h := C4_full_world_selects_all_tiles 3 { x := -180, y := -180, z := 0, w := 1 }
    { x := 180, y := 180, z := 0, w := 1 } (vtkOsmLayer.New (fun _ => vtkMapTile.New))
    fullWorld_corners.1 fullWorld_corners.2.1 fullWorld_corners.2.2.1 fullWorld_corners.2.2.2
  refine ⟨fullWorld_corners, ?_, ?_⟩
  · rw [h.1]; norm_num
  · intro k
    rw [h.2.2.2.1 k]
    norm_num

/-- C9: `SelectTilesPerspective` takes at most 8 tiles in each direction from the base
tile `(tbasex, tbasey) = (long2tilex(focal.x), lat2tiley(y2lat(focal.y)))` at zoom level
`Zoom + 1`, whatever the camera and the on-screen tests: every recorded statement is about
a tile whose column offset and row offset from the base tile lie in `-8..7` (offsets
`0..7` in the positive directions, `-1..-8` in the negative ones); in every row at most 8 entries are produced at
column offsets `≥ 0` and at most 8 at column offsets `< 0`; and one pass produces at most
256 entries (cached tiles plus tile specs). -/
theorem C9_at_most_eight_tiles_each_direction (renderer : vtkRenderer) (Zoom : Nat)
    (focalPt : ℝ × ℝ × ℝ) (layer : vtkOsmLayer) :
    (∀ e ∈ (vtkOsmLayer.SelectTilesPerspective renderer Zoom focalPt
        (Selection.start layer)).trace,
      ∃ i j : Int, -8 ≤ i ∧ i ≤ 7 ∧ -8 ≤ j ∧ j ≤ 7 ∧
        e.key = tileKey (Zoom + 1) (long2tilex focalPt.1 (Zoom + 1) + i)
          (lat2tiley (y2lat focalPt.2.1) (Zoom + 1) + j)) ∧
    (∀ tiley : Int,
      (((vtkOsmLayer.SelectTilesPerspective renderer Zoom focalPt
          (Selection.start layer)).trace.filterMap SelectEvent.produced).filter
        (fun k => decide (k.2.2 = 2 ^ (Zoom + 1) - 1 - tiley) &&
          decide (long2tilex focalPt.1 (Zoom + 1) ≤ k.2.1))).length ≤ 8 ∧
      (((vtkOsmLayer.SelectTilesPerspective renderer Zoom focalPt
          (Selection.start layer)).trace.filterMap SelectEvent.produced).filter
        (fun k => decide (k.2.2 = 2 ^ (Zoom + 1) - 1 - tiley) &&
          decide (k.2.1 < long2tilex focalPt.1 (Zoom + 1)))).length ≤ 8) ∧
    (vtkOsmLayer.SelectTilesPerspective renderer Zoom focalPt
        (Selection.start layer)).tiles.length
      + (vtkOsmLayer.SelectTilesPerspective renderer Zoom focalPt
        (Selection.start layer)).tileSpecs.length ≤ 256 := by
  obtain ⟨st, hst, p2, p3, pf, ps⟩ := vtkOsmLayer.SelectTilesPerspective_pass renderer Zoom
    focalPt layer
  subst hst
  have hA : ∀ e ∈ (vtkOsmLayer.SelectTilesPerspective renderer Zoom focalPt
      (Selection.start layer)).trace,
      ∃ i j : Int, -8 ≤ i ∧ i ≤ 7 ∧ -8 ≤ j ∧ j ≤ 7 ∧
        e.key = tileKey (Zoom + 1) (long2tilex focalPt.1 (Zoom + 1) + i)
          (lat2tiley (y2lat focalPt.2.1) (Zoom + 1) + j) := by
    intro e he
    obtain ⟨j, hj, i, hreach, hfor, _⟩ := pf e he
    rw [mem_offsets] at hj
    refine ⟨i, j, ?_, ?_, hj.1, hj.2, ?_⟩
    · rcases hreach with hr | hr
      · have := reached_offsetsUp _ _ hr; omega
      · have := reached_offsetsDown _ _ hr; omega
    · rcases hreach with hr | hr
      · have := reached_offsetsUp _ _ hr; omega
      · have := reached_offsetsDown _ _ hr; omega
    · rw [SelectEvent.isFor_key hfor, SelectTilesPerspective_tileSpec_ZoomXY]
  have hnd : ((vtkOsmLayer.SelectTilesPerspective renderer Zoom focalPt
      (Selection.start layer)).trace.filterMap SelectEvent.produced).Nodup :=
    List.Nodup.sublist ps (nodup_gridKeys _ _ _)
  refine ⟨hA, ?_, ?_⟩
  · intro tiley
    constructor
    · have hsub : ((vtkOsmLayer.SelectTilesPerspective renderer Zoom focalPt
          (Selection.start layer)).trace.filterMap SelectEvent.produced).filter
          (fun k => decide (k.2.2 = 2 ^ (Zoom + 1) - 1 - tiley) &&
            decide (long2tilex focalPt.1 (Zoom + 1) ≤ k.2.1))
          ⊆ offsetsUp.map (fun i => tileKey (Zoom + 1)
              (long2tilex focalPt.1 (Zoom + 1) + i) tiley) := by
        intro k hk
        rw [List.mem_filter] at hk
        obtain ⟨hk1, hk2⟩ := hk
        simp only [Bool.and_eq_true, decide_eq_true_eq] at hk2
        obtain ⟨e, he, hek⟩ := mem_produced hk1
        obtain ⟨i, j, hi1, hi2, _, _, hkey⟩ := hA e he
        rw [hek] at hkey
        subst hkey
        simp only [tileKey] at hk2
        rw [List.mem_map]
        refine ⟨i, ?_, ?_⟩
        · rw [offsetsUp_eq]
          simp only [List.mem_cons, List.mem_singleton, List.not_mem_nil, or_false]
          omega
        · simp only [tileKey, Prod.mk.injEq, true_and]
          omega
      have := (List.subperm_of_subset (List.Nodup.filter _ hnd) hsub).length_le
      simpa [offsetsUp_eq] using this
    · have hsub : ((vtkOsmLayer.SelectTilesPerspective renderer Zoom focalPt
          (Selection.start layer)).trace.filterMap SelectEvent.produced).filter
          (fun k => decide (k.2.2 = 2 ^ (Zoom + 1) - 1 - tiley) &&
            decide (k.2.1 < long2tilex focalPt.1 (Zoom + 1)))
          ⊆ offsetsDown.map (fun i => tileKey (Zoom + 1)
              (long2tilex focalPt.1 (Zoom + 1) + i) tiley) := by
        intro k hk
        rw [List.mem_filter] at hk
        obtain ⟨hk1, hk2⟩ := hk
        simp only [Bool.and_eq_true, decide_eq_true_eq] at hk2
        obtain ⟨e, he, hek⟩ := mem_produced hk1
        obtain ⟨i, j, hi1, hi2, _, _, hkey⟩ := hA e he
        rw [hek] at hkey
        subst hkey
        simp only [tileKey] at hk2
        rw [List.mem_map]
        refine ⟨i, ?_, ?_⟩
        · rw [offsetsDown_eq]
          simp only [List.mem_cons, List.mem_singleton, List.not_mem_nil, or_false]
          omega
        · simp only [tileKey, Prod.mk.injEq, true_and]
          omega
      have := (List.subperm_of_subset (List.Nodup.filter _ hnd) hsub).length_le
      simpa [offsetsDown_eq] using this
  · have := ps.length_le
    rw [length_gridKeys, length_produced, ← p2, ← p3] at this
    exact this

/-- Witness of C9: the perspective pass at zoom 0 with the focal point at the origin looks
up key `(1,1,0)`, the base tile itself (offsets `i = 0`, `j = 0`). -/
theorem C9_witness_zoom0 :
    SelectEvent.lookup 1 1 0 ∈
      (vtkOsmLayer.SelectTilesPerspective { WorldToView := fun _ _ _ => (0, 0, 0) } 0 (0, 0, 0)
        (Selection.start (vtkOsmLayer.New (fun _ => vtkMapTile.New)))).trace ∧
    (∃ i j : Int, -8 ≤ i ∧ i ≤ 7 ∧ -8 ≤ j ∧ j ≤ 7 ∧
      (SelectEvent.lookup 1 1 0).key = tileKey (0 + 1)
        (long2tilex ((0 : ℝ), (0 : ℝ), (0 : ℝ)).1 (0 + 1) + i)
        (lat2tiley (y2lat ((0 : ℝ), (0 : ℝ), (0 : ℝ)).2.1) (0 + 1) + j)) ∧
    (vtkOsmLayer.SelectTilesPerspective { WorldToView := fun _ _ _ => (0, 0, 0) } 0 (0, 0, 0)
        (Selection.start (vtkOsmLayer.New (fun _ => vtkMapTile.New)))).tiles.length
      + (vtkOsmLayer.SelectTilesPerspective { WorldToView := fun _ _ _ => (0, 0, 0) } 0
        (0, 0, 0) (Selection.start (vtkOsmLayer.New (fun _ => vtkMapTile.New)))).tileSpecs.length
      ≤ 256 :=
  ⟨SelectTilesPerspective_origin_zoom0_mem.1,
   (C9_at_most_eight_tiles_each_direction { WorldToView := fun _ _ _ => (0, 0, 0) } 0 (0, 0, 0)
      (vtkOsmLayer.New (fun _ => vtkMapTile.New))).1 _ SelectTilesPerspective_origin_zoom0_mem.1,
   (C9_at_most_eight_tiles_each_direction { WorldToView := fun _ _ _ => (0, 0, 0) } 0 (0, 0, 0)
      (vtkOsmLayer.New (fun _ => vtkMapTile.New))).2.2⟩

theorem vtkOsmLayer.tileSetVisible_flag (L : vtkOsmLayer) (t : Nat) :
    ((L.tileSetVisible t true).objects t).VisibleFlag = true := by
  simp [vtkOsmLayer.tileSetVisible, vtkMapTile.SetVisible_true]

theorem Selection.Extends.two {st st2 : Selection} {e1 e2 : SelectEvent}
    (h : st.Extends st2 [e1, e2]) :
    st2.tiles = st.tiles ++ [e1, e2].filterMap SelectEvent.pushedTile ∧
    st2.tileSpecs = st.tileSpecs ++ [e1, e2].filterMap SelectEvent.pushedSpec :=
  ⟨h.2.1, h.2.2⟩

/-- The outcome of the cache lookup shared by both selectors, on the real vectors. -/
theorem vtkOsmLayer.lookupOrSpec_outcome (st : Selection) (zoomLevel x y : Int)
    (tileSpec : vtkMapTileSpecInternal) :
    (∀ t, (st.layer.GetCachedTile zoomLevel x y).1 = some t →
      (vtkOsmLayer.lookupOrSpec st zoomLevel x y tileSpec).1 = 1 ∧
      (vtkOsmLayer.lookupOrSpec st zoomLevel x y tileSpec).2.tiles = st.tiles ++ [some t] ∧
      (vtkOsmLayer.lookupOrSpec st zoomLevel x y tileSpec).2.tileSpecs = st.tileSpecs ∧
      ((vtkOsmLayer.lookupOrSpec st zoomLevel x y tileSpec).2.layer.objects t).VisibleFlag
        = true) ∧
    ((st.layer.GetCachedTile zoomLevel x y).1 = none →
      (vtkOsmLayer.lookupOrSpec st zoomLevel x y tileSpec).1 = 2 ∧
      (vtkOsmLayer.lookupOrSpec st zoomLevel x y tileSpec).2.tiles = st.tiles ∧
      (vtkOsmLayer.lookupOrSpec st zoomLevel x y tileSpec).2.tileSpecs
        = st.tileSpecs ++ [tileSpec] ∧
      (vtkOsmLayer.lookupOrSpec st zoomLevel x y tileSpec).2.layer.objects
        = st.layer.objects) := by
  constructor
  · intro t h
    obtain ⟨h1, h2, h3⟩ := vtkOsmLayer.lookupOrSpec_some st zoomLevel x y tileSpec t h
    refine ⟨h1, ?_, ?_, ?_⟩
    · simpa [SelectEvent.pushedTile] using h2.2.1
    · simpa [SelectEvent.pushedSpec] using h2.2.2
    · rw [h3]; exact vtkOsmLayer.tileSetVisible_flag _ t
  · intro h
    obtain ⟨h1, h2, h3⟩ := vtkOsmLayer.lookupOrSpec_none st zoomLevel x y tileSpec h
    refine ⟨h1, ?_, ?_, ?_⟩
    · simpa [SelectEvent.pushedTile] using h2.2.1
    · simpa [SelectEvent.pushedSpec] using h2.2.2
    · rw [h3]; rfl

/-- C6: for every key a selector decides to include — the cell `(i, j)` handled by the
loop body of `SelectTiles`, and an in-range candidate `(i, j)` of
`SelectTilesPerspective_DoTile` that is not completely off-screen — with
`key = (zoomLevel, i, 2^zoomLevel - 1 - j)`: if `GetCachedTile(key)` returns a tile, that
tile is appended to `tiles`, its visible flag is true afterwards and `tileSpecs` is
unchanged; if it returns NULL, exactly one tile spec, with `ZoomXY = key`, is appended to
`tileSpecs` and `tiles` is unchanged. -/
theorem C6_cached_tile_is_shown_missing_tile_is_queued (st : Selection) (zoomLevel : Nat)
    (i j : Int) (renderer : vtkRenderer) :
    (∀ t, (st.layer.GetCachedTile zoomLevel i (2 ^ zoomLevel - 1 - j)).1 = some t →
      (vtkOsmLayer.SelectTiles_cell zoomLevel i j st).tiles = st.tiles ++ [some t] ∧
      (vtkOsmLayer.SelectTiles_cell zoomLevel i j st).tileSpecs = st.tileSpecs ∧
      ((vtkOsmLayer.SelectTiles_cell zoomLevel i j st).layer.objects t).VisibleFlag = true) ∧
    ((st.layer.GetCachedTile zoomLevel i (2 ^ zoomLevel - 1 - j)).1 = none →
      (vtkOsmLayer.SelectTiles_cell zoomLevel i j st).tiles = st.tiles ∧
      (vtkOsmLayer.SelectTiles_cell zoomLevel i j st).tileSpecs
        = st.tileSpecs ++ [vtkOsmLayer.SelectTiles_tileSpec zoomLevel i j] ∧
      (vtkOsmLayer.SelectTiles_tileSpec zoomLevel i j).ZoomXY
        = ((zoomLevel : Int), i, 2 ^ zoomLevel - 1 - j)) ∧
    ((0 ≤ i ∧ i < 2 ^ zoomLevel ∧ 0 ≤ j ∧ j < 2 ^ zoomLevel) →
      IsTileOnScreen (vtkOsmLayer.SelectTilesPerspective_tileSpec i j zoomLevel) renderer ≠ 0 →
      (∀ t, (st.layer.GetCachedTile zoomLevel i (2 ^ zoomLevel - 1 - j)).1 = some t →
        (vtkOsmLayer.SelectTilesPerspective_DoTile st i j zoomLevel renderer).2.tiles
          = st.tiles ++ [some t] ∧
        (vtkOsmLayer.SelectTilesPerspective_DoTile st i j zoomLevel renderer).2.tileSpecs
          = st.tileSpecs ∧
        ((vtkOsmLayer.SelectTilesPerspective_DoTile st i j zoomLevel
          renderer).2.layer.objects t).VisibleFlag = true) ∧
      ((st.layer.GetCachedTile zoomLevel i (2 ^ zoomLevel - 1 - j)).1 = none →
        (vtkOsmLayer.SelectTilesPerspective_DoTile st i j zoomLevel renderer).2.tiles
          = st.tiles ∧
        (vtkOsmLayer.SelectTilesPerspective_DoTile st i j zoomLevel renderer).2.tileSpecs
          = st.tileSpecs ++ [vtkOsmLayer.SelectTilesPerspective_tileSpec i j zoomLevel] ∧
        (vtkOsmLayer.SelectTilesPerspective_tileSpec i j zoomLevel).ZoomXY
          = ((zoomLevel : Int), i, 2 ^ zoomLevel - 1 - j))) := by
  have hc := vtkOsmLayer.lookupOrSpec_outcome st zoomLevel i (2 ^ zoomLevel - 1 - j)
    (vtkOsmLayer.SelectTiles_tileSpec zoomLevel i j)
  refine ⟨?_, ?_, ?_⟩
  · intro t h
    obtain ⟨_, h2, h3, h4⟩ := hc.1 t h
    exact ⟨h2, h3, h4⟩
  · intro h
    obtain ⟨_, h2, h3, _⟩ := hc.2 h
    exact ⟨h2, h3, rfl⟩
  · intro hr hs
    have hr2 : ¬ (i < 0 ∨ i ≥ 2 ^ zoomLevel ∨ j < 0 ∨ j ≥ 2 ^ zoomLevel) := by omega
    have hd := vtkOsmLayer.lookupOrSpec_outcome
      { st with trace := st.trace ++
          [SelectEvent.test (zoomLevel : Int) i (2 ^ zoomLevel - 1 - j)] }
      zoomLevel i (2 ^ zoomLevel - 1 - j)
      (vtkOsmLayer.SelectTilesPerspective_tileSpec i j zoomLevel)
    have heq : vtkOsmLayer.SelectTilesPerspective_DoTile st i j zoomLevel renderer
        = vtkOsmLayer.lookupOrSpec
            { st with trace := st.trace ++
                [SelectEvent.test (zoomLevel : Int) i (2 ^ zoomLevel - 1 - j)] }
            zoomLevel i (2 ^ zoomLevel - 1 - j)
            (vtkOsmLayer.SelectTilesPerspective_tileSpec i j zoomLevel) := by
      unfold vtkOsmLayer.SelectTilesPerspective_DoTile
      simp only [hr2, hs, if_false]
      rfl
    rw [heq]
    refine ⟨?_, ?_⟩
    · intro t h
      obtain ⟨_, h2, h3, h4⟩ := hd.1 t h
      exact ⟨h2, h3, h4⟩
    · intro h
      obtain ⟨_, h2, h3, _⟩ := hd.2 h
      exact ⟨h2, h3, rfl⟩

/-- Witness of C6: with tile 7 cached under `(0,0,0)` the cell `(0,0)` at zoom 0 appends
tile 7 and marks it visible; with an empty cache it queues the spec; the same holds for
`SelectTilesPerspective_DoTile` under a renderer that shows everything. -/
theorem C6_witness_zoom0 :
    ((((Selection.start ((vtkOsmLayer.New (fun _ => vtkMapTile.New)).AddTileToCache 0 0 0
          (some 7))).layer.GetCachedTile ((0 : Nat) : Int) 0 (2 ^ 0 - 1 - 0)).1 = some 7) ∧
      (vtkOsmLayer.SelectTiles_cell 0 0 0
        (Selection.start ((vtkOsmLayer.New (fun _ => vtkMapTile.New)).AddTileToCache 0 0 0
          (some 7)))).tiles = [] ++ [some 7] ∧
      ((vtkOsmLayer.SelectTiles_cell 0 0 0
        (Selection.start ((vtkOsmLayer.New (fun _ => vtkMapTile.New)).AddTileToCache 0 0 0
          (some 7)))).layer.objects 7).VisibleFlag = true) ∧
    ((((Selection.start (vtkOsmLayer.New (fun _ => vtkMapTile.New))).layer.GetCachedTile
          ((0 : Nat) : Int) 0 (2 ^ 0 - 1 - 0)).1 = none) ∧
      (vtkOsmLayer.SelectTiles_cell 0 0 0
        (Selection.start (vtkOsmLayer.New (fun _ => vtkMapTile.New)))).tileSpecs
        = [] ++ [vtkOsmLayer.SelectTiles_tileSpec 0 0 0]) ∧
    ((((0 : Int) ≤ 0 ∧ (0 : Int) < 2 ^ 0 ∧ (0 : Int) ≤ 0 ∧ (0 : Int) < 2 ^ 0) ∧
      IsTileOnScreen (vtkOsmLayer.SelectTilesPerspective_tileSpec 0 0 0)
        { WorldToView := fun _ _ _ => (0, 0, 0) } ≠ 0) ∧
      (vtkOsmLayer.SelectTilesPerspective_DoTile
        (Selection.start ((vtkOsmLayer.New (fun _ => vtkMapTile.New)).AddTileToCache 0 0 0
          (some 7))) 0 0 0 { WorldToView := fun _ _ _ => (0, 0, 0) }).2.tiles
        = [] ++ [some 7] ∧
      (vtkOsmLayer.SelectTilesPerspective_DoTile
        (Selection.start (vtkOsmLayer.New (fun _ => vtkMapTile.New))) 0 0 0
        { WorldToView := fun _ _ _ => (0, 0, 0) }).2.tileSpecs
        = [] ++ [vtkOsmLayer.SelectTilesPerspective_tileSpec 0 0 0]) := by
  have h1 : ((Selection.start ((vtkOsmLayer.New (fun _ => vtkMapTile.New)).AddTileToCache 0 0 0
      (some 7))).layer.GetCachedTile ((0 : Nat) : Int) 0 (2 ^ 0 - 1 - 0)).1 = some 7 := by
    decide
  have h0 : ((Selection.start (vtkOsmLayer.New (fun _ => vtkMapTile.New))).layer.GetCachedTile
      ((0 : Nat) : Int) 0 (2 ^ 0 - 1 - 0)).1 = none := by decide
  have hr : (0 : Int) ≤ 0 ∧ (0 : Int) < 2 ^ 0 ∧ (0 : Int) ≤ 0 ∧ (0 : Int) < 2 ^ 0 := by decide
  have hs : IsTileOnScreen (vtkOsmLayer.SelectTilesPerspective_tileSpec 0 0 0)
      { WorldToView := fun _ _ _ => (0, 0, 0) } ≠ 0 := by decide
  have c1 := C6_cached_tile_is_shown_missing_tile_is_queued
    (Selection.start ((vtkOsmLayer.New (fun _ => vtkMapTile.New)).AddTileToCache 0 0 0
      (some 7))) 0 0 0 { WorldToView := fun _ _ _ => (0, 0, 0) }
  have c0 := C6_cached_tile_is_shown_missing_tile_is_queued
    (Selection.start (vtkOsmLayer.New (fun _ => vtkMapTile.New))) 0 0 0
    { WorldToView := fun _ _ _ => (0, 0, 0) }
  exact ⟨⟨h1, (c1.1 7 h1).1, (c1.1 7 h1).2.2⟩, ⟨h0, (c0.2.1 h0).2.1⟩,
    ⟨⟨hr, hs⟩, ((c1.2.2 hr hs).1 7 h1).1, ((c0.2.2 hr hs).2 h0).2.1⟩⟩

/-- C8: for an in-range tile, `SelectTilesPerspective_DoTile` returns 0 and leaves `tiles`,
`tileSpecs` and every tile's visible flag unchanged if and only if the tile is completely
off-screen, that is, none of the four corner points `(Corners[0],Corners[1])`,
`(Corners[0],Corners[3])`, `(Corners[2],Corners[3])`, `(Corners[2],Corners[1])` of the tile
has view coordinates with x and y both in `[-1,1]`; when at least one corner is on screen
it returns non-zero and appends exactly one entry: a cached tile to `tiles`, or the tile
spec to `tileSpecs`. -/
theorem C8_DoTile_zero_iff_completely_off_screen (st : Selection) (tilex tiley : Int)
    (zoomLevel : Nat) (renderer : vtkRenderer)
    (hr : 0 ≤ tilex ∧ tilex < 2 ^ zoomLevel ∧ 0 ≤ tiley ∧ tiley < 2 ^ zoomLevel) :
    (((vtkOsmLayer.SelectTilesPerspective_DoTile st tilex tiley zoomLevel renderer).1 = 0 ∧
      (vtkOsmLayer.SelectTilesPerspective_DoTile st tilex tiley zoomLevel renderer).2.tiles
        = st.tiles ∧
      (vtkOsmLayer.SelectTilesPerspective_DoTile st tilex tiley zoomLevel renderer).2.tileSpecs
        = st.tileSpecs ∧
      (∀ a, ((vtkOsmLayer.SelectTilesPerspective_DoTile st tilex tiley zoomLevel
          renderer).2.layer.objects a).VisibleFlag = (st.layer.objects a).VisibleFlag)) ↔
      completelyOffScreen renderer
        (vtkOsmLayer.SelectTilesPerspective_tileSpec tilex tiley zoomLevel)) ∧
    (¬ completelyOffScreen renderer
        (vtkOsmLayer.SelectTilesPerspective_tileSpec tilex tiley zoomLevel) →
      (vtkOsmLayer.SelectTilesPerspective_DoTile st tilex tiley zoomLevel renderer).1 ≠ 0 ∧
      ((∃ t,
          (vtkOsmLayer.SelectTilesPerspective_DoTile st tilex tiley zoomLevel renderer).2.tiles
            = st.tiles ++ [some t] ∧
          (vtkOsmLayer.SelectTilesPerspective_DoTile st tilex tiley zoomLevel
            renderer).2.tileSpecs = st.tileSpecs) ∨
        ((vtkOsmLayer.SelectTilesPerspective_DoTile st tilex tiley zoomLevel renderer).2.tiles
            = st.tiles ∧
          (vtkOsmLayer.SelectTilesPerspective_DoTile st tilex tiley zoomLevel
            renderer).2.tileSpecs
            = st.tileSpecs ++
              [vtkOsmLayer.SelectTilesPerspective_tileSpec tilex tiley zoomLevel]))) := by
  have hr2 : ¬ (tilex < 0 ∨ tilex ≥ 2 ^ zoomLevel ∨ tiley < 0 ∨ tiley ≥ 2 ^ zoomLevel) := by
    omega
  rw [← IsTileOnScreen_eq_zero_iff]
  by_cases hs : IsTileOnScreen
      (vtkOsmLayer.SelectTilesPerspective_tileSpec tilex tiley zoomLevel) renderer = 0
  · have heq : vtkOsmLayer.SelectTilesPerspective_DoTile st tilex tiley zoomLevel renderer
        = (0, { st with trace := st.trace ++
            [SelectEvent.test (zoomLevel : Int) tilex (2 ^ zoomLevel - 1 - tiley)] }) := by
      unfold vtkOsmLayer.SelectTilesPerspective_DoTile
      simp only [hr2, hs, if_false, if_true]
      rfl
    rw [heq]
    refine ⟨⟨fun _ => hs, fun _ => ⟨rfl, rfl, rfl, fun _ => rfl⟩⟩, ?_⟩
    intro h
    exact absurd hs h
  · have heq : vtkOsmLayer.SelectTilesPerspective_DoTile st tilex tiley zoomLevel renderer
        = vtkOsmLayer.lookupOrSpec
            { st with trace := st.trace ++
                [SelectEvent.test (zoomLevel : Int) tilex (2 ^ zoomLevel - 1 - tiley)] }
            zoomLevel tilex (2 ^ zoomLevel - 1 - tiley)
            (vtkOsmLayer.SelectTilesPerspective_tileSpec tilex tiley zoomLevel) := by
      unfold vtkOsmLayer.SelectTilesPerspective_DoTile
      simp only [hr2, hs, if_false]
      rfl
    have hd := vtkOsmLayer.lookupOrSpec_outcome
      { st with trace := st.trace ++
          [SelectEvent.test (zoomLevel : Int) tilex (2 ^ zoomLevel - 1 - tiley)] }
      zoomLevel tilex (2 ^ zoomLevel - 1 - tiley)
      (vtkOsmLayer.SelectTilesPerspective_tileSpec tilex tiley zoomLevel)
    rw [heq]
    cases hc : (st.layer.GetCachedTile zoomLevel tilex (2 ^ zoomLevel - 1 - tiley)).1 with
    | none =>
      obtain ⟨h1, h2, h3, _⟩ := hd.2 hc
      refine ⟨⟨fun h => absurd h.1 (by rw [h1]; decide), fun h => absurd h hs⟩, ?_⟩
      intro _
      exact ⟨by rw [h1]; decide, Or.inr ⟨h2, h3⟩⟩
    | some t =>
      obtain ⟨h1, h2, h3, _⟩ := hd.1 t hc
      refine ⟨⟨fun h => absurd h.1 (by rw [h1]; decide), fun h => absurd h hs⟩, ?_⟩
      intro _
      exact ⟨by rw [h1]; decide, Or.inl ⟨t, h2, h3⟩⟩

/-- Witness of C8: tile `(0,0)` at zoom level 0. Under a renderer that maps every point to
the view point `(2,2,0)` no corner is on screen and the call returns 0; under a renderer
that maps every point to `(0,0,0)` the call returns non-zero. -/
theorem C8_witness_zoom0 :
    ((0 : Int) ≤ 0 ∧ (0 : Int) < 2 ^ 0 ∧ (0 : Int) ≤ 0 ∧ (0 : Int) < 2 ^ 0) ∧
    ((vtkOsmLayer.SelectTilesPerspective_DoTile
        (Selection.start (vtkOsmLayer.New (fun _ => vtkMapTile.New))) 0 0 0
        { WorldToView := fun _ _ _ => (2, 2, 0) }).1 = 0 ∧
      (vtkOsmLayer.SelectTilesPerspective_DoTile
        (Selection.start (vtkOsmLayer.New (fun _ => vtkMapTile.New))) 0 0 0
        { WorldToView := fun _ _ _ => (2, 2, 0) }).2.tileSpecs = []) ∧
    (vtkOsmLayer.SelectTilesPerspective_DoTile
        (Selection.start (vtkOsmLayer.New (fun _ => vtkMapTile.New))) 0 0 0
        { WorldToView := fun _ _ _ => (0, 0, 0) }).1 ≠ 0 := by
  have hr : (0 : Int) ≤ 0 ∧ (0 : Int) < 2 ^ 0 ∧ (0 : Int) ≤ 0 ∧ (0 : Int) < 2 ^ 0 := by decide
  have hoff := (C8_DoTile_zero_iff_completely_off_screen
    (Selection.start (vtkOsmLayer.New (fun _ => vtkMapTile.New))) 0 0 0
    { WorldToView := fun _ _ _ => (2, 2, 0) } hr).1.mpr
      (by norm_num [completelyOffScreen, cornerOnScreen])
  have hon := (C8_DoTile_zero_iff_completely_off_screen
    (Selection.start (vtkOsmLayer.New (fun _ => vtkMapTile.New))) 0 0 0
    { WorldToView := fun _ _ _ => (0, 0, 0) } hr).2
      (by norm_num [completelyOffScreen, cornerOnScreen])
  exact ⟨hr, ⟨hoff.1, hoff.2.2.1⟩, hon.1⟩

/-! ## Round trips of the Mercator functions -/

/-- C14: tile-index round-trip bracketing over exact reals: for every zoom `z` and every
longitude `L` in `[-180, 180)`, with `x = long2tilex(L, z)`:
`tilex2long(x, z) ≤ L < tilex2long(x + 1, z)`, and `x` is a column of the zoom level,
`0 ≤ x < 2^z`. -/
theorem C14_tilex_round_trip_brackets (z : ℕ) (L : ℝ) (h1 : -180 ≤ L) (h2 : L < 180) :
    (tilex2long (long2tilex L z) z ≤ L ∧ L < tilex2long (long2tilex L z + 1) z) ∧
    0 ≤ long2tilex L z ∧ long2tilex L z < 2 ^ z := by
  refine ⟨?_, long2tilex_bounds L z h1 h2⟩
  have hb := column_brackets L z
  have hp : (0 : ℝ) < 2 ^ z := by positivity
  unfold tilex2long
  push_cast at hb ⊢
  have e1 : ∀ t : ℝ, t / 2 ^ z * 360 - 180 = -180 + t * (360 / 2 ^ z) := by
    intro t; field_simp; ring
  rw [e1, e1]
  exact hb

/-- Witness of C14: longitude -70 at zoom 3 (tile column 2, from -90 to -45). -/
theorem C14_witness_lon_minus70_zoom3 :
    (-180 ≤ (-70 : ℝ) ∧ (-70 : ℝ) < 180) ∧
    tilex2long (long2tilex (-70) 3) 3 ≤ -70 ∧ (-70 : ℝ) < tilex2long (long2tilex (-70) 3 + 1) 3 :=
  ⟨⟨by norm_num, by norm_num⟩,
    (C14_tilex_round_trip_brackets 3 (-70) (by norm_num) (by norm_num)).1⟩

theorem y2lat_lat2y (p : ℝ) (h1 : -90 < p) (h2 : p < 90) : y2lat (lat2y p) = p := by
  have hpi := Real.pi_pos
  have hpi0 : Real.pi ≠ 0 := Real.pi_ne_zero
  have hθ0 : 0 < Real.pi / 4 + p * (Real.pi / 180) / 2 := by nlinarith
  have hθ1 : Real.pi / 4 + p * (Real.pi / 180) / 2 < Real.pi / 2 := by nlinarith
  have htan : 0 < Real.tan (Real.pi / 4 + p * (Real.pi / 180) / 2) :=
    Real.tan_pos_of_pos_of_lt_pi_div_two hθ0 hθ1
  unfold y2lat lat2y
  have e : 180 / Real.pi * Real.log (Real.tan (Real.pi / 4 + p * (Real.pi / 180) / 2))
      * Real.pi / 180 = Real.log (Real.tan (Real.pi / 4 + p * (Real.pi / 180) / 2)) := by
    field_simp
  rw [e, Real.exp_log htan, Real.arctan_tan (by linarith) hθ1]
  field_simp
  ring

/-- C15: projection round trip over exact reals: `y2lat(lat2y(p)) = p` for every latitude
`p` strictly between -90 and 90 degrees; in particular for every `p` strictly between -85
and 85 degrees the two differ by less than `1e-9`. -/
theorem C15_projection_round_trip (p : ℝ) :
    (-90 < p → p < 90 → y2lat (lat2y p) = p) ∧
    (-85 < p → p < 85 → |y2lat (lat2y p) - p| < 1e-9) := by
  refine ⟨y2lat_lat2y p, ?_⟩
  intro h1 h2
  rw [y2lat_lat2y p (by linarith) (by linarith), sub_self, abs_zero]
  norm_num

/-- Witness of C15: latitude 40. -/
theorem C15_witness_lat_40 :
    ((-90 : ℝ) < 40 ∧ (40 : ℝ) < 90 ∧ y2lat (lat2y 40) = 40) ∧
    ((-85 : ℝ) < 40 ∧ (40 : ℝ) < 85 ∧ |y2lat (lat2y 40) - 40| < 1e-9) :=
  ⟨⟨by norm_num, by norm_num, (C15_projection_round_trip 40).1 (by norm_num) (by norm_num)⟩,
   ⟨by norm_num, by norm_num, (C15_projection_round_trip 40).2 (by norm_num) (by norm_num)⟩⟩

/-! ## Tile materialisation -/

theorem take4_pad (contents : List ℕ) (h : 4 ≤ contents.length) :
    contents.take 4 ++ List.replicate (4 - (contents.take 4).length) 0 = contents.take 4 := by
  simp [List.length_take, h]

theorem prefix_iff_take (l contents : List ℕ) :
    l <+: contents ↔ contents.take l.length = l := by
  constructor
  · rintro ⟨t, rfl⟩
    simp
  · intro h
    rw [← h]
    exact List.take_prefix _ _

theorem vtkMapTile.IsImageDownloaded_iff (h : Host) (outfile : String) :
    vtkMapTile.IsImageDownloaded h outfile = true ↔
      ∃ contents, h.files outfile = some contents ∧ 4 ≤ contents.length ∧
        (PNGHDR <+: contents ∨ JPEGHDR <+: contents) := by
  unfold vtkMapTile.IsImageDownloaded
  cases hf : h.files outfile with
  | none => simp
  | some contents =>
      simp only [Option.some.injEq, exists_eq_left']
      by_cases h4 : 4 ≤ contents.length
      · rw [take4_pad contents h4]
        simp only [h4, decide_True, Bool.true_and, Bool.or_eq_true, decide_eq_true_eq, true_and,
          prefix_iff_take]
        have e1 : PNGHDR.length = 4 := rfl
        have e2 : JPEGHDR.length = 2 := rfl
        rw [e1, e2, List.take_take, List.take_take]
        simp
      · simp [h4]

theorem vtkMapTile.DownloadImage_since (h : Host) (url out : String) :
    ((vtkMapTile.DownloadImage h url out).since h).filter HostEvent.isDownload =
      [HostEvent.download url out] := by
  unfold vtkMapTile.DownloadImage Host.since
  simp only
  split
  · split
    · split <;> simp [HostEvent.isDownload]
    · simp [HostEvent.isDownload]
  · simp [HostEvent.isDownload]

/-- Claim C19 as stated fails: a file that exists and whose two bytes are the JPEG magic
bytes `FF D8` is not accepted by `IsImageDownloaded`, because reading four bytes fails. -/
theorem C19_counterexample_two_byte_file :
    (Host.ofFile "3-1-2.jpg" [0xFF, 0xD8]).files "3-1-2.jpg" = some [0xFF, 0xD8] ∧
    JPEGHDR <+: [0xFF, 0xD8] ∧
    vtkMapTile.IsImageDownloaded (Host.ofFile "3-1-2.jpg" [0xFF, 0xD8]) "3-1-2.jpg" = false := by
  refine ⟨by decide, ⟨[], by decide⟩, by decide⟩

/-- Claim C19, amended: `IsImageDownloaded` is true if and only if the file can be opened,
holds at least four bytes and begins with the PNG magic bytes or with the JPEG magic bytes;
and `InitializeDownload` calls `DownloadImage` (once, with the tile's source and file) if
and only if `IsImageDownloaded` is false. -/
theorem C19_download_skipped_iff_image_present (t : vtkMapTile) (h : Host) :
    (vtkMapTile.IsImageDownloaded h t.ImageFile = true ↔
      ∃ contents, h.files t.ImageFile = some contents ∧ 4 ≤ contents.length ∧
        (PNGHDR <+: contents ∨ JPEGHDR <+: contents)) ∧
    ((t.InitializeDownload h).since h).filter HostEvent.isDownload =
      (if vtkMapTile.IsImageDownloaded h t.ImageFile then []
       else [HostEvent.download t.ImageSource t.ImageFile]) := by
  refine ⟨vtkMapTile.IsImageDownloaded_iff h t.ImageFile, ?_⟩
  unfold vtkMapTile.InitializeDownload
  cases hd : vtkMapTile.IsImageDownloaded h t.ImageFile
  · simpa using vtkMapTile.DownloadImage_since h t.ImageSource t.ImageFile
  · simp [Host.since]

theorem vtkMapTile.DownloadImage_events (h : Host) (url out : String) :
    ∃ new, (vtkMapTile.DownloadImage h url out).events = h.events ++ new ∧
      ∀ r f, HostEvent.readImage r f ∉ new := by
  unfold vtkMapTile.DownloadImage
  simp only
  split
  · split
    · split
      · exact ⟨[HostEvent.download url out], by simp, by simp⟩
      · exact ⟨[HostEvent.download url out, HostEvent.warning "curl"], by simp, by simp⟩
    · exact ⟨[HostEvent.download url out, HostEvent.error "Not Open"], by simp, by simp⟩
  · exact ⟨[HostEvent.download url out], by simp, by simp⟩

theorem vtkMapTile.DownloadImage_next (h : Host) (url out : String) :
    (vtkMapTile.DownloadImage h url out).next = h.next := by
  unfold vtkMapTile.DownloadImage
  simp only
  split
  · split
    · split <;> rfl
    · rfl
  · rfl

theorem vtkMapTile.InitializeDownload_events (t : vtkMapTile) (h : Host) :
    ∃ new, (t.InitializeDownload h).events = h.events ++ new ∧
      ∀ r f, HostEvent.readImage r f ∉ new := by
  unfold vtkMapTile.InitializeDownload
  split
  · exact vtkMapTile.DownloadImage_events h _ _
  · exact ⟨[], by simp, by simp⟩

theorem vtkMapTile.InitializeDownload_next (t : vtkMapTile) (h : Host) :
    (t.InitializeDownload h).next = h.next := by
  unfold vtkMapTile.InitializeDownload
  split
  · exact vtkMapTile.DownloadImage_next h _ _
  · rfl

/-- Claim C20 as stated fails: for the extension `.jpeg` the JPEG reader is not selected;
`Build` reports the extension as unsupported and leaves the tile without mapper and
actor. -/
theorem C20_counterexample_jpeg_extension :
    GetFilenameLastExtension (vtkMapTile.ofImage "3-1-2.jpeg" "").ImageFile = ".jpeg" ∧
    (((vtkMapTile.ofImage "3-1-2.jpeg" "").Build
        (Host.ofFile "3-1-2.jpeg" [0xFF, 0xD8, 0xFF, 0xE0])).2.since
        (Host.ofFile "3-1-2.jpeg" [0xFF, 0xD8, 0xFF, 0xE0])) =
      [HostEvent.error "Unsupported map-tile extension .jpeg"] ∧
    ((vtkMapTile.ofImage "3-1-2.jpeg" "").Build
        (Host.ofFile "3-1-2.jpeg" [0xFF, 0xD8, 0xFF, 0xE0])).1.Mapper = none ∧
    ((vtkMapTile.ofImage "3-1-2.jpeg" "").Build
        (Host.ofFile "3-1-2.jpeg" [0xFF, 0xD8, 0xFF, 0xE0])).1.Actor = none := by
  refine ⟨by decide, by decide, by decide, by decide⟩

theorem Host.since_append (a b : Host) (new : List HostEvent)
    (h : a.events = b.events ++ new) : a.since b = new := by
  simp [Host.since, h]

theorem vtkMapTile.Build_finish_result (reader : ImageReader) (t : vtkMapTile) (h : Host) :
    (vtkMapTile.Build_finish reader t h).2.events =
        h.events ++ [HostEvent.readImage reader t.ImageFile] ∧
    (vtkMapTile.Build_finish reader t h).1.Mapper = some h.next ∧
    (vtkMapTile.Build_finish reader t h).1.Actor = some (h.next + 1) ∧
    t.MTime < (vtkMapTile.Build_finish reader t h).1.BuildTime := by
  refine ⟨rfl, rfl, rfl, ?_⟩
  show t.MTime < max t.MTime t.BuildTime + 1
  omega

/-- Claim C20, amended: `Build` dispatches on the last extension of the image file.
For `.png` the last call is the read by the PNG reader, for `.jpg` the read by the JPEG
reader, and in both cases mapper and actor are created and `BuildTime` is stamped after
the tile's modification time. For every other extension, `.jpeg` included, the last event
is the error report, no reader is run, and mapper, actor and `BuildTime` are as before. -/
theorem C20_build_dispatches_on_extension (t : vtkMapTile) (h : Host) :
    (GetFilenameLastExtension t.ImageFile = ".png" →
      ((t.Build h).2.since h).getLast? =
          some (HostEvent.readImage ImageReader.vtkPNGReader t.ImageFile) ∧
        (t.Build h).1.Mapper ≠ none ∧ (t.Build h).1.Actor ≠ none ∧
        t.MTime < (t.Build h).1.BuildTime) ∧
    (GetFilenameLastExtension t.ImageFile = ".jpg" →
      ((t.Build h).2.since h).getLast? =
          some (HostEvent.readImage ImageReader.vtkJPEGReader t.ImageFile) ∧
        (t.Build h).1.Mapper ≠ none ∧ (t.Build h).1.Actor ≠ none ∧
        t.MTime < (t.Build h).1.BuildTime) ∧
    (GetFilenameLastExtension t.ImageFile ≠ ".png" →
      GetFilenameLastExtension t.ImageFile ≠ ".jpg" →
      ((t.Build h).2.since h).getLast? =
          some (HostEvent.error
            ("Unsupported map-tile extension " ++ GetFilenameLastExtension t.ImageFile)) ∧
        (∀ r f, HostEvent.readImage r f ∉ (t.Build h).2.since h) ∧
        (t.Build h).1.Mapper = t.Mapper ∧ (t.Build h).1.Actor = t.Actor ∧
        (t.Build h).1.BuildTime = t.BuildTime) := by
  obtain ⟨new, hnew, hread⟩ := vtkMapTile.InitializeDownload_events
    { t with Plane := some h.next, TexturePlane := some (h.next + 1) }
    { h with next := h.next + 1 + 1 }
  simp only at hnew
  refine ⟨?_, ?_, ?_⟩
  · intro he
    unfold vtkMapTile.Build
    simp only [he, if_true]
    obtain ⟨h1, h2, h3, h4⟩ := vtkMapTile.Build_finish_result ImageReader.vtkPNGReader
      { t with Plane := some h.next, TexturePlane := some (h.next + 1) }
      (vtkMapTile.InitializeDownload
        { t with Plane := some h.next, TexturePlane := some (h.next + 1) }
        { h with next := h.next + 1 + 1 })
    rw [hnew, List.append_assoc] at h1
    rw [Host.since_append _ _ _ h1, h2, h3]
    exact ⟨by simp, by simp, by simp, h4⟩
  · intro he
    have hne : GetFilenameLastExtension t.ImageFile ≠ ".png" := by rw [he]; decide
    unfold vtkMapTile.Build
    simp only [he, if_true]
    obtain ⟨h1, h2, h3, h4⟩ := vtkMapTile.Build_finish_result ImageReader.vtkJPEGReader
      { t with Plane := some h.next, TexturePlane := some (h.next + 1) }
      (vtkMapTile.InitializeDownload
        { t with Plane := some h.next, TexturePlane := some (h.next + 1) }
        { h with next := h.next + 1 + 1 })
    rw [hnew, List.append_assoc] at h1
    simp only [show ¬ ((".jpg" : String) = ".png") by decide, if_false]
    rw [Host.since_append _ _ _ h1, h2, h3]
    exact ⟨by simp, by simp, by simp, h4⟩
  · intro he1 he2
    unfold vtkMapTile.Build
    simp only [he1, he2, if_false]
    have h1 : (vtkMapTile.InitializeDownload
        { t with Plane := some h.next, TexturePlane := some (h.next + 1) }
        { h with next := h.next + 1 + 1 }).events ++
        [HostEvent.error
          ("Unsupported map-tile extension " ++ GetFilenameLastExtension t.ImageFile)] =
        h.events ++ (new ++ [HostEvent.error
          ("Unsupported map-tile extension " ++ GetFilenameLastExtension t.ImageFile)]) := by
      rw [hnew, List.append_assoc]
    rw [Host.since_append _ _ _ h1]
    refine ⟨by simp, ?_, trivial, trivial, trivial⟩
    intro r f hm
    rcases List.mem_append.mp hm with hm | hm
    · exact hread r f hm
    · simp at hm

/-- Claim C20, amended, at the tiles `3-1-2.png`, `3-1-2.jpg` and `3-1-2.jpeg`. -/
theorem C20_witness_png_jpg_jpeg :
    ((((vtkMapTile.ofImage "3-1-2.png" "").Build (Host.ofFile "" [])).2.since
        (Host.ofFile "" [])).getLast? =
          some (HostEvent.readImage ImageReader.vtkPNGReader "3-1-2.png")) ∧
    ((((vtkMapTile.ofImage "3-1-2.jpg" "").Build (Host.ofFile "" [])).2.since
        (Host.ofFile "" [])).getLast? =
          some (HostEvent.readImage ImageReader.vtkJPEGReader "3-1-2.jpg")) ∧
    ((vtkMapTile.ofImage "3-1-2.jpeg" "").Build (Host.ofFile "" [])).1.Mapper = none :=
  ⟨((C20_build_dispatches_on_extension (vtkMapTile.ofImage "3-1-2.png" "")
      (Host.ofFile "" [])).1 (by decide)).1,
   ((C20_build_dispatches_on_extension (vtkMapTile.ofImage "3-1-2.jpg" "")
      (Host.ofFile "" [])).2.1 (by decide)).1,
   ((C20_build_dispatches_on_extension (vtkMapTile.ofImage "3-1-2.jpeg" "")
      (Host.ofFile "" [])).2.2 (by decide) (by decide)).2.2.1⟩

/-! ## Side effects of `GetCachedTile` -/

/-- Claim C13, the code at a failing input: on a freshly constructed layer and on a
freshly constructed `vtkMap`, the call `GetCachedTile(1, 2, 4)` returns null and leaves
the cache map with a zoom entry 1 holding an x entry 2; and on a cache that holds the
tile at address 5 under `(1, 2, 3)`, the same call leaves a y entry 4 holding a null
pointer next to it. -/
theorem C13_GetCachedTile_inserts_entries (objects : Nat → vtkMapTile) :
    ((vtkOsmLayer.New objects).GetCachedTile 1 2 4).1 = none ∧
    ((vtkOsmLayer.New objects).GetCachedTile 1 2 4).2.CachedTilesMap = [(1, [(2, [])])] ∧
    ((vtkMap.New objects).GetCachedTile 1 2 4).1 = none ∧
    ((vtkMap.New objects).GetCachedTile 1 2 4).2.CachedTiles = [(1, [(2, [])])] ∧
    ((vtkOsmLayer.New objects).AddTileToCache 1 2 3 (some 5)).CachedTilesMap
      = [(1, [(2, [(3, some 5)])])] ∧
    (((vtkOsmLayer.New objects).AddTileToCache 1 2 3 (some 5)).GetCachedTile 1 2 4).2.CachedTilesMap
      = [(1, [(2, [(3, some 5), (4, none)])])] ∧
    (((vtkMap.New objects).AddTileToCache 1 2 3 5).GetCachedTile 1 2 4).2.CachedTiles
      = [(1, [(2, [(3, some 5), (4, none)])])] := by
  exact ⟨rfl, rfl, rfl, rfl, rfl, rfl, rfl⟩

/-! ## The borders set by `RenderTiles` -/

theorem derefAll_map_some (ts : List Nat) : derefAll (ts.map some) = some ts := by
  induction ts with
  | nil => rfl
  | cons t rest ih => simp [derefAll, ih]

theorem derefAll_eq_some {ps : List TilePtr} {ts : List Nat} (h : derefAll ps = some ts) :
    ps = ts.map some := by
  induction ps generalizing ts with
  | nil => simp [derefAll] at h; subst h; rfl
  | cons p rest ih =>
    cases p with
    | none => simp [derefAll] at h
    | some t =>
      simp only [derefAll, Option.map_eq_some'] at h
      obtain ⟨ts2, h2, rfl⟩ := h
      simp [ih h2]

theorem foldl_min_spec (f : Nat → ℚ) (ts : List Nat) :
    ∀ b : ℚ, (ts.foldl (fun b t => min b (f t)) b ≤ b ∧
      ∀ t ∈ ts, ts.foldl (fun b t => min b (f t)) b ≤ f t) ∧
      (ts.foldl (fun b t => min b (f t)) b = b ∨
        ∃ t ∈ ts, ts.foldl (fun b t => min b (f t)) b = f t) := by
  induction ts with
  | nil => intro b; simp
  | cons t rest ih =>
    intro b
    obtain ⟨⟨h1, h2⟩, h3⟩ := ih (min b (f t))
    simp only [List.foldl_cons, List.mem_cons, forall_eq_or_imp, exists_eq_or_imp]
    refine ⟨⟨le_trans h1 (min_le_left _ _), le_trans h1 (min_le_right _ _), h2⟩, ?_⟩
    rcases h3 with h3 | h3
    · rcases min_choice b (f t) with hm | hm
      · left; rw [h3, hm]
      · right; left; rw [h3, hm]
    · right; right; exact h3

theorem foldl_max_spec (f : Nat → ℚ) (ts : List Nat) :
    ∀ b : ℚ, (b ≤ ts.foldl (fun b t => max b (f t)) b ∧
      ∀ t ∈ ts, f t ≤ ts.foldl (fun b t => max b (f t)) b) ∧
      (ts.foldl (fun b t => max b (f t)) b = b ∨
        ∃ t ∈ ts, ts.foldl (fun b t => max b (f t)) b = f t) := by
  induction ts with
  | nil => intro b; simp
  | cons t rest ih =>
    intro b
    obtain ⟨⟨h1, h2⟩, h3⟩ := ih (max b (f t))
    simp only [List.foldl_cons, List.mem_cons, forall_eq_or_imp, exists_eq_or_imp]
    refine ⟨⟨le_trans (le_max_left _ _) h1, le_trans (le_max_right _ _) h1, h2⟩, ?_⟩
    rcases h3 with h3 | h3
    · rcases max_choice b (f t) with hm | hm
      · left; rw [h3, hm]
      · right; left; rw [h3, hm]
    · right; right; exact h3

theorem Host.AddViewProp_frame (h : Host) (p : Option Nat) :
    (h.AddViewProp p).next = h.next ∧ (h.AddViewProp p).events = h.events := by
  unfold Host.AddViewProp
  cases p with
  | none => exact ⟨rfl, rfl⟩
  | some a =>
    simp only
    split <;> exact ⟨rfl, rfl⟩

theorem Host.RemoveActor_frame (h : Host) (p : Option Nat) :
    (h.RemoveActor p).next = h.next ∧ (h.RemoveActor p).events = h.events := by
  cases p <;> exact ⟨rfl, rfl⟩

theorem Host.foldl_RemoveActor_frame (as : List (Option Nat)) :
    ∀ h : Host, (as.foldl (fun h a => h.RemoveActor a) h).next = h.next ∧
      (as.foldl (fun h a => h.RemoveActor a) h).events = h.events := by
  induction as with
  | nil => intro h; exact ⟨rfl, rfl⟩
  | cons a rest ih =>
    intro h
    obtain ⟨i1, i2⟩ := ih (h.RemoveActor a)
    obtain ⟨s1, s2⟩ := Host.RemoveActor_frame h a
    simp only [List.foldl_cons]
    exact ⟨i1.trans s1, i2.trans s2⟩

/-- The loop of `RenderTiles` leaves the tile objects alone and folds the borders with
`min` and `max` over the corners. -/
theorem vtkOsmLayer.RenderTiles_tile_fold (ts : List Nat) :
    ∀ st : vtkOsmLayer × Host,
      (ts.foldl vtkOsmLayer.RenderTiles_tile st).1.objects = st.1.objects ∧
      (ts.foldl vtkOsmLayer.RenderTiles_tile st).1.CachedTiles = st.1.CachedTiles ∧
      (ts.foldl vtkOsmLayer.RenderTiles_tile st).1.CachedTilesMap = st.1.CachedTilesMap ∧
      ((ts.foldl vtkOsmLayer.RenderTiles_tile st).1.CacheDirectory = st.1.CacheDirectory ∧
        (ts.foldl vtkOsmLayer.RenderTiles_tile st).1.Map = st.1.Map ∧
        (ts.foldl vtkOsmLayer.RenderTiles_tile st).1.Renderer = st.1.Renderer ∧
        (ts.foldl vtkOsmLayer.RenderTiles_tile st).2.next = st.2.next ∧
        (ts.foldl vtkOsmLayer.RenderTiles_tile st).2.events = st.2.events) ∧
      (ts.foldl vtkOsmLayer.RenderTiles_tile st).1.TileBorders0
        = ts.foldl (fun b t => min b (st.1.objects t).Corners0) st.1.TileBorders0 ∧
      (ts.foldl vtkOsmLayer.RenderTiles_tile st).1.TileBorders1
        = ts.foldl (fun b t => min b (st.1.objects t).Corners1) st.1.TileBorders1 ∧
      (ts.foldl vtkOsmLayer.RenderTiles_tile st).1.TileBorders2
        = ts.foldl (fun b t => max b (st.1.objects t).Corners2) st.1.TileBorders2 ∧
      (ts.foldl vtkOsmLayer.RenderTiles_tile st).1.TileBorders3
        = ts.foldl (fun b t => max b (st.1.objects t).Corners3) st.1.TileBorders3 := by
  induction ts with
  | nil => intro st; simp
  | cons t rest ih =>
    intro st
    have hstep : (vtkOsmLayer.RenderTiles_tile st t).1.objects = st.1.objects ∧
        (vtkOsmLayer.RenderTiles_tile st t).1.CachedTiles = st.1.CachedTiles ∧
        (vtkOsmLayer.RenderTiles_tile st t).1.CachedTilesMap = st.1.CachedTilesMap ∧
        ((vtkOsmLayer.RenderTiles_tile st t).1.CacheDirectory = st.1.CacheDirectory ∧
          (vtkOsmLayer.RenderTiles_tile st t).1.Map = st.1.Map ∧
          (vtkOsmLayer.RenderTiles_tile st t).1.Renderer = st.1.Renderer ∧
          (vtkOsmLayer.RenderTiles_tile st t).2.next = st.2.next ∧
          (vtkOsmLayer.RenderTiles_tile st t).2.events = st.2.events) ∧
        (vtkOsmLayer.RenderTiles_tile st t).1.TileBorders0
          = min st.1.TileBorders0 (st.1.objects t).Corners0 ∧
        (vtkOsmLayer.RenderTiles_tile st t).1.TileBorders1
          = min st.1.TileBorders1 (st.1.objects t).Corners1 ∧
        (vtkOsmLayer.RenderTiles_tile st t).1.TileBorders2
          = max st.1.TileBorders2 (st.1.objects t).Corners2 ∧
        (vtkOsmLayer.RenderTiles_tile st t).1.TileBorders3
          = max st.1.TileBorders3 (st.1.objects t).Corners3 := by
      unfold vtkOsmLayer.RenderTiles_tile
      simp only
      refine ⟨trivial, trivial, trivial,
        ⟨trivial, trivial, trivial, (Host.AddViewProp_frame _ _).1,
          (Host.AddViewProp_frame _ _).2⟩, ?_, ?_, ?_, ?_⟩
      · split_ifs with a
        · exact (min_eq_right a.le).symm
        · exact (min_eq_left (not_lt.mp a)).symm
      · split_ifs with a
        · exact (min_eq_right a.le).symm
        · exact (min_eq_left (not_lt.mp a)).symm
      · split_ifs with a
        · exact (max_eq_right (le_of_lt a)).symm
        · exact (max_eq_left (not_lt.mp a)).symm
      · split_ifs with a
        · exact (max_eq_right (le_of_lt a)).symm
        · exact (max_eq_left (not_lt.mp a)).symm
    obtain ⟨s1, s2, s3, ⟨a1, a2, a3, a4, a5⟩, s4, s5, s6, s7⟩ := hstep
    obtain ⟨i1, i2, i3, ⟨b1, b2, b3, b4, b5⟩, i4, i5, i6, i7⟩ :=
      ih (vtkOsmLayer.RenderTiles_tile st t)
    simp only [List.foldl_cons]
    rw [i1, i2, i3, i4, i5, i6, i7, s1, s2, s3, s4, s5, s6, s7, b1, b2, b3, b4, b5,
      a1, a2, a3, a4, a5]
    exact ⟨rfl, rfl, rfl, ⟨rfl, rfl, rfl, rfl, rfl⟩, rfl, rfl, rfl, rfl⟩

theorem vtkOsmLayer.RenderTiles_cons (self : vtkOsmLayer) (h : Host) (tile0 : Nat)
    (rest cached : List Nat) (hr : self.Renderer = true)
    (hc : derefAll self.CachedTiles = some cached) :
    self.RenderTiles h ((tile0 :: rest).map some) =
      some ((tile0 :: rest).foldl vtkOsmLayer.RenderTiles_tile
        ({ self with
            TileBorders0 := (self.objects tile0).Corners0
            TileBorders1 := (self.objects tile0).Corners1
            TileBorders2 := (self.objects tile0).Corners2
            TileBorders3 := (self.objects tile0).Corners3 },
          cached.foldl (fun h t => h.RemoveActor (self.objects t).Actor) h)) := by
  unfold vtkOsmLayer.RenderTiles
  simp only [hr, hc, derefAll_map_some, List.length_map, List.length_cons]
  simp

/-- Claim C16: `RenderTiles` with an empty tile list sets `TileBorders` to (0,0,0,0). With
a non-empty list of tiles (a renderer being set and no null pointer in `CachedTiles`) it
returns with
`TileBorders[0]` and `TileBorders[1]` the minima of `Corners[0]` and `Corners[1]` over
the tiles of the list, and `TileBorders[2]` and `TileBorders[3]` the maxima of
`Corners[2]` and `Corners[3]`: each border bounds the corner of every tile and is the
corner of some tile. -/
theorem C16_RenderTiles_sets_borders_to_extent (self : vtkOsmLayer) (h : Host)
    (ts : List Nat) :
    (∃ r, self.RenderTiles h [] = some r ∧
      r.1.TileBorders0 = 0 ∧ r.1.TileBorders1 = 0 ∧ r.1.TileBorders2 = 0 ∧
      r.1.TileBorders3 = 0) ∧
    (ts ≠ [] → self.Renderer = true → derefAll self.CachedTiles ≠ none →
      ∃ r, self.RenderTiles h (ts.map some) = some r ∧
        ((∀ t ∈ ts, r.1.TileBorders0 ≤ (self.objects t).Corners0) ∧
          ∃ t ∈ ts, r.1.TileBorders0 = (self.objects t).Corners0) ∧
        ((∀ t ∈ ts, r.1.TileBorders1 ≤ (self.objects t).Corners1) ∧
          ∃ t ∈ ts, r.1.TileBorders1 = (self.objects t).Corners1) ∧
        ((∀ t ∈ ts, (self.objects t).Corners2 ≤ r.1.TileBorders2) ∧
          ∃ t ∈ ts, r.1.TileBorders2 = (self.objects t).Corners2) ∧
        ((∀ t ∈ ts, (self.objects t).Corners3 ≤ r.1.TileBorders3) ∧
          ∃ t ∈ ts, r.1.TileBorders3 = (self.objects t).Corners3)) := by
  constructor
  · exact ⟨_, rfl, rfl, rfl, rfl, rfl⟩
  · intro hne hr hc
    cases ts with
    | nil => exact absurd rfl hne
    | cons tile0 rest =>
      obtain ⟨cached, hc⟩ := Option.ne_none_iff_exists'.mp hc
      refine ⟨_, vtkOsmLayer.RenderTiles_cons self h tile0 rest cached hr hc, ?_⟩
      obtain ⟨_, _, _, _, f0, f1, f2, f3⟩ := vtkOsmLayer.RenderTiles_tile_fold (tile0 :: rest)
        ({ self with
            TileBorders0 := (self.objects tile0).Corners0
            TileBorders1 := (self.objects tile0).Corners1
            TileBorders2 := (self.objects tile0).Corners2
            TileBorders3 := (self.objects tile0).Corners3 },
          cached.foldl (fun h t => h.RemoveActor (self.objects t).Actor) h)
      rw [f0, f1, f2, f3]
      simp only
      refine ⟨?_, ?_, ?_, ?_⟩
      · obtain ⟨⟨_, b⟩, c⟩ := foldl_min_spec (fun t => (self.objects t).Corners0)
          (tile0 :: rest) (self.objects tile0).Corners0
        refine ⟨b, ?_⟩
        rcases c with c | c
        · exact ⟨tile0, List.mem_cons_self _ _, c⟩
        · exact c
      · obtain ⟨⟨_, b⟩, c⟩ := foldl_min_spec (fun t => (self.objects t).Corners1)
          (tile0 :: rest) (self.objects tile0).Corners1
        refine ⟨b, ?_⟩
        rcases c with c | c
        · exact ⟨tile0, List.mem_cons_self _ _, c⟩
        · exact c
      · obtain ⟨⟨_, b⟩, c⟩ := foldl_max_spec (fun t => (self.objects t).Corners2)
          (tile0 :: rest) (self.objects tile0).Corners2
        refine ⟨b, ?_⟩
        rcases c with c | c
        · exact ⟨tile0, List.mem_cons_self _ _, c⟩
        · exact c
      · obtain ⟨⟨_, b⟩, c⟩ := foldl_max_spec (fun t => (self.objects t).Corners3)
          (tile0 :: rest) (self.objects tile0).Corners3
        refine ⟨b, ?_⟩
        rcases c with c | c
        · exact ⟨tile0, List.mem_cons_self _ _, c⟩
        · exact c

/-- The method `RenderTiles` returns when a renderer is set and no null pointer is among
the cached and the handed-over tiles, and changes neither the cache nor the tile objects;
it creates no object and makes no report. -/
theorem vtkOsmLayer.RenderTiles_frame (self : vtkOsmLayer) (h : Host) (ts cached : List Nat)
    (hr : self.Renderer = true) (hc : derefAll self.CachedTiles = some cached) :
    ∃ r, self.RenderTiles h (ts.map some) = some r ∧
      r.1.CachedTiles = self.CachedTiles ∧ r.1.CachedTilesMap = self.CachedTilesMap ∧
      r.1.objects = self.objects ∧ r.1.CacheDirectory = self.CacheDirectory ∧
      r.1.Map = self.Map ∧ r.1.Renderer = self.Renderer ∧
      r.2.next = h.next ∧ r.2.events = h.events := by
  cases ts with
  | nil => exact ⟨_, rfl, rfl, rfl, rfl, rfl, rfl, rfl, rfl, rfl⟩
  | cons tile0 rest =>
    refine ⟨_, vtkOsmLayer.RenderTiles_cons self h tile0 rest cached hr hc, ?_⟩
    obtain ⟨f0, f1, f2, ⟨f3, f4, f5, f6, f7⟩, _⟩ :=
      vtkOsmLayer.RenderTiles_tile_fold (tile0 :: rest)
        ({ self with
            TileBorders0 := (self.objects tile0).Corners0
            TileBorders1 := (self.objects tile0).Corners1
            TileBorders2 := (self.objects tile0).Corners2
            TileBorders3 := (self.objects tile0).Corners3 },
          cached.foldl (fun h t => h.RemoveActor (self.objects t).Actor) h)
    rw [f0, f1, f2, f3, f4, f5, f6, f7]
    have hf := Host.foldl_RemoveActor_frame (cached.map (fun t => (self.objects t).Actor)) h
    rw [List.foldl_map] at hf
    exact ⟨rfl, rfl, rfl, rfl, rfl, rfl, hf.1, hf.2⟩

/-! ## The selectors as functions of the cache contents -/

theorem Selection.Step.nil (st : Selection) : Selection.Step [] st st := by
  refine ⟨by simp, fun _ => rfl, rfl, by simp, by simp⟩

theorem Selection.Step.append {K1 K2 : List (Int × Int × Int)} {a b c : Selection}
    (h1 : Selection.Step K1 a b) (h2 : Selection.Step K2 b c) :
    Selection.Step (K1 ++ K2) a c := by
  obtain ⟨a1, a2, a3, a4, a5⟩ := h1
  obtain ⟨b1, b2, b3, b4, b5⟩ := h2
  have hl : b.layer.lookup = a.layer.lookup := funext a2
  refine ⟨?_, ?_, ?_, ?_, ?_⟩
  · rw [b1, a1, List.append_assoc]
  · intro key; rw [b2, a2]
  · rw [← a3, ← b3]
  · rw [b4, a4, hl]; simp
  · rw [b5, a5, hl]; simp

theorem vtkOsmLayer.lookup_GetCachedTile (self : vtkOsmLayer) (zoom x y : Int) :
    (self.GetCachedTile zoom x y).1 = self.lookup (zoom, x, y) ∧
    (∀ key, (self.GetCachedTile zoom x y).2.lookup key = self.lookup key) ∧
    { (self.GetCachedTile zoom x y).2 with CachedTilesMap := self.CachedTilesMap } = self := by
  refine ⟨TileMap.getCached_fst _ _ _ _, ?_, rfl⟩
  intro key
  exact TileMap.lookup_getCached _ _ _ _ _ _ _

theorem vtkOsmLayer.lookupOrSpec_step (st : Selection) (zoomLevel x y : Int)
    (tileSpec : vtkMapTileSpecInternal) (hk : tileSpec.ZoomXY = (zoomLevel, x, y)) :
    (vtkOsmLayer.lookupOrSpec st zoomLevel x y tileSpec).1 ≠ 0 ∧
    Selection.Step [(zoomLevel, x, y)] st
      (vtkOsmLayer.lookupOrSpec st zoomLevel x y tileSpec).2 := by
  obtain ⟨g1, g2, g3⟩ := vtkOsmLayer.lookup_GetCachedTile st.layer zoomLevel x y
  cases hg : (st.layer.GetCachedTile zoomLevel x y).1 with
  | none =>
    have hl : st.layer.lookup (zoomLevel, x, y) = none := by rw [← g1, hg]
    unfold vtkOsmLayer.lookupOrSpec
    simp only [hg]
    refine ⟨by decide, ?_, g2, ?_, ?_, ?_⟩
    · simp [Selection.keys, List.filterMap_append, SelectEvent.produced, hk]
    · exact g3
    · simp [hl]
    · simp [hl, hk]
  | some t =>
    have hl : st.layer.lookup (zoomLevel, x, y) = some t := by rw [← g1, hg]
    unfold vtkOsmLayer.lookupOrSpec
    simp only [hg]
    refine ⟨by decide, ?_, ?_, ?_, ?_, ?_⟩
    · simp [Selection.keys, List.filterMap_append, SelectEvent.produced]
    · intro key
      exact g2 key
    · exact g3
    · simp [hl]
    · simp [hl]

theorem vtkOsmLayer.SelectTiles_cell_step (zoomLevel : Nat) (i j : Int) (st : Selection) :
    Selection.Step [tileKey zoomLevel i j] st (vtkOsmLayer.SelectTiles_cell zoomLevel i j st) :=
  (vtkOsmLayer.lookupOrSpec_step st zoomLevel i (2 ^ zoomLevel - 1 - j)
    (vtkOsmLayer.SelectTiles_tileSpec zoomLevel i j) rfl).2

theorem vtkOsmLayer.SelectTiles_inner_step (zoomLevel : Nat) (i : Int) (js : List Int) :
    ∀ st : Selection, Selection.Step (js.map (fun j => tileKey zoomLevel i j)) st
      (js.foldl (fun st j => vtkOsmLayer.SelectTiles_cell zoomLevel i j st) st) := by
  induction js with
  | nil => intro st; exact Selection.Step.nil st
  | cons j rest ih =>
    intro st
    exact (vtkOsmLayer.SelectTiles_cell_step zoomLevel i j st).append
      (ih (vtkOsmLayer.SelectTiles_cell zoomLevel i j st))

theorem vtkOsmLayer.SelectTiles_outer_step (zoomLevel : Nat) (js : List Int) (is : List Int) :
    ∀ st : Selection, Selection.Step (cellKeys zoomLevel is js) st
      (is.foldl (fun st i => js.foldl
        (fun st j => vtkOsmLayer.SelectTiles_cell zoomLevel i j st) st) st) := by
  induction is with
  | nil => intro st; exact Selection.Step.nil st
  | cons i rest ih =>
    intro st
    have h := (vtkOsmLayer.SelectTiles_inner_step zoomLevel i js st).append
      (ih (js.foldl (fun st j => vtkOsmLayer.SelectTiles_cell zoomLevel i j st) st))
    simpa [cellKeys] using h

theorem vtkOsmLayer.SelectTiles_step (PerspectiveProjection : Bool) (Zoom : Nat)
    (bottomLeft topRight : WorldPoint) :
    ∃ K : List (Int × Int × Int), ∀ st : Selection, Selection.Step K st
      (vtkOsmLayer.SelectTiles PerspectiveProjection Zoom bottomLeft topRight st) :=
  ⟨_, fun st => vtkOsmLayer.SelectTiles_outer_step _ _ _ st⟩

theorem vtkOsmLayer.SelectTilesPerspective_DoTile_step (tilex tiley : Int) (zoomLevel : Nat)
    (renderer : vtkRenderer) :
    ∃ K : List (Int × Int × Int), ∃ stop : Bool, ∀ st : Selection,
      ((vtkOsmLayer.SelectTilesPerspective_DoTile st tilex tiley zoomLevel renderer).1 = 0
        ↔ stop = true) ∧
      Selection.Step K st
        (vtkOsmLayer.SelectTilesPerspective_DoTile st tilex tiley zoomLevel renderer).2 := by
  by_cases hr : tilex < 0 ∨ tilex ≥ 2 ^ zoomLevel ∨ tiley < 0 ∨ tiley ≥ 2 ^ zoomLevel
  · refine ⟨[], true, fun st => ?_⟩
    unfold vtkOsmLayer.SelectTilesPerspective_DoTile
    simp only [hr, if_true]
    exact ⟨by simp, Selection.Step.nil st⟩
  · by_cases hs : IsTileOnScreen
        (vtkOsmLayer.SelectTilesPerspective_tileSpec tilex tiley zoomLevel) renderer = 0
    · refine ⟨[], true, fun st => ?_⟩
      unfold vtkOsmLayer.SelectTilesPerspective_DoTile
      simp only [hr, if_false, hs, if_true]
      refine ⟨by simp, ?_, fun _ => rfl, rfl, by simp, by simp⟩
      simp [Selection.keys, List.filterMap_append, SelectEvent.produced]
    · refine ⟨[tileKey zoomLevel tilex tiley], false, fun st => ?_⟩
      unfold vtkOsmLayer.SelectTilesPerspective_DoTile
      simp only [hr, if_false, hs]
      obtain ⟨h1, h2⟩ := vtkOsmLayer.lookupOrSpec_step
        { st with trace := st.trace ++
          [SelectEvent.test
            (vtkOsmLayer.SelectTilesPerspective_tileSpec tilex tiley zoomLevel).ZoomXY0
            (vtkOsmLayer.SelectTilesPerspective_tileSpec tilex tiley zoomLevel).ZoomXY1
            (vtkOsmLayer.SelectTilesPerspective_tileSpec tilex tiley zoomLevel).ZoomXY2] }
        zoomLevel
        (vtkOsmLayer.SelectTilesPerspective_tileSpec tilex tiley zoomLevel).ZoomXY1
        (vtkOsmLayer.SelectTilesPerspective_tileSpec tilex tiley zoomLevel).ZoomXY2
        (vtkOsmLayer.SelectTilesPerspective_tileSpec tilex tiley zoomLevel) rfl
      refine ⟨by simpa using h1, ?_⟩
      have h0 : Selection.Step [] st { st with trace := st.trace ++
          [SelectEvent.test
            (vtkOsmLayer.SelectTilesPerspective_tileSpec tilex tiley zoomLevel).ZoomXY0
            (vtkOsmLayer.SelectTilesPerspective_tileSpec tilex tiley zoomLevel).ZoomXY1
            (vtkOsmLayer.SelectTilesPerspective_tileSpec tilex tiley zoomLevel).ZoomXY2] } := by
        refine ⟨?_, fun _ => rfl, rfl, by simp, by simp⟩
        simp [Selection.keys, List.filterMap_append, SelectEvent.produced]
      exact h0.append h2

theorem vtkOsmLayer.SelectTilesPerspective_scan_step (renderer : vtkRenderer)
    (zoomLevel : Nat) (tbasex tiley : Int) (is : List Int) :
    ∃ K : List (Int × Int × Int), ∀ st : Selection, Selection.Step K st
      (vtkOsmLayer.SelectTilesPerspective_scan renderer zoomLevel tbasex tiley is st) := by
  induction is with
  | nil => exact ⟨[], fun st => Selection.Step.nil st⟩
  | cons i rest ih =>
    obtain ⟨K1, stop, h1⟩ := vtkOsmLayer.SelectTilesPerspective_DoTile_step (tbasex + i) tiley
      zoomLevel renderer
    obtain ⟨K2, h2⟩ := ih
    cases stop with
    | true =>
      refine ⟨K1, fun st => ?_⟩
      unfold vtkOsmLayer.SelectTilesPerspective_scan
      simp only [(h1 st).1.mpr rfl, if_true]
      exact (h1 st).2
    | false =>
      refine ⟨K1 ++ K2, fun st => ?_⟩
      unfold vtkOsmLayer.SelectTilesPerspective_scan
      have hne : ¬ (vtkOsmLayer.SelectTilesPerspective_DoTile st (tbasex + i) tiley zoomLevel
          renderer).1 = 0 := fun h => Bool.false_ne_true ((h1 st).1.mp h)
      simp only [hne, if_false]
      exact (h1 st).2.append (h2 _)

theorem vtkOsmLayer.SelectTilesPerspective_rows_step (renderer : vtkRenderer)
    (zoomLevel : Nat) (tbasex tbasey : Int) (js : List Int) :
    ∃ K : List (Int × Int × Int), ∀ st : Selection, Selection.Step K st
      (vtkOsmLayer.SelectTilesPerspective_rows renderer zoomLevel tbasex tbasey js st) := by
  induction js with
  | nil => exact ⟨[], fun st => Selection.Step.nil st⟩
  | cons j rest ih =>
    obtain ⟨K3, h3⟩ := ih
    by_cases hr : tbasey + j < 0 ∨ tbasey + j ≥ 2 ^ zoomLevel
    · refine ⟨K3, fun st => ?_⟩
      unfold vtkOsmLayer.SelectTilesPerspective_rows
      simp only [hr, if_true]
      exact h3 st
    · obtain ⟨K1, h1⟩ := vtkOsmLayer.SelectTilesPerspective_scan_step renderer zoomLevel
        tbasex (tbasey + j) offsetsUp
      obtain ⟨K2, h2⟩ := vtkOsmLayer.SelectTilesPerspective_scan_step renderer zoomLevel
        tbasex (tbasey + j) offsetsDown
      refine ⟨K1 ++ K2 ++ K3, fun st => ?_⟩
      unfold vtkOsmLayer.SelectTilesPerspective_rows
      simp only [hr, if_false]
      exact ((h1 st).append (h2 _)).append (h3 _)

theorem vtkOsmLayer.SelectTilesPerspective_step (renderer : vtkRenderer) (Zoom : Nat)
    (focalPt : ℝ × ℝ × ℝ) :
    ∃ K : List (Int × Int × Int), ∀ st : Selection, Selection.Step K st
      (vtkOsmLayer.SelectTilesPerspective renderer Zoom focalPt st) := by
  obtain ⟨K1, h1⟩ := vtkOsmLayer.SelectTilesPerspective_rows_step renderer (Zoom + 1)
    (long2tilex focalPt.1 (Zoom + 1)) (lat2tiley (y2lat focalPt.2.1) (Zoom + 1)) offsetsUp
  obtain ⟨K2, h2⟩ := vtkOsmLayer.SelectTilesPerspective_rows_step renderer (Zoom + 1)
    (long2tilex focalPt.1 (Zoom + 1)) (lat2tiley (y2lat focalPt.2.1) (Zoom + 1)) offsetsDown
  exact ⟨K1 ++ K2, fun st => (h1 st).append (h2 _)⟩

/-- The keys a selection step of `AddTiles` handles depend on the viewport only, and no
key is handled twice. -/
theorem vtkOsmLayer.AddTiles_select_step (view : Viewport) :
    ∃ K : List (Int × Int × Int), K.Nodup ∧ ∀ layer : vtkOsmLayer,
      Selection.Step K (Selection.start layer) (vtkOsmLayer.AddTiles_select view layer) := by
  cases hp : view.PerspectiveProjection with
  | true =>
    obtain ⟨K, hK⟩ := vtkOsmLayer.SelectTilesPerspective_step view.renderer view.Zoom
      view.focalPt
    refine ⟨K, ?_, fun layer => ?_⟩
    · obtain ⟨st, hst, _, _, _, ps⟩ := vtkOsmLayer.SelectTilesPerspective_pass view.renderer
        view.Zoom view.focalPt (vtkOsmLayer.New (fun _ => vtkMapTile.New))
      have hk := (hK (Selection.start (vtkOsmLayer.New (fun _ => vtkMapTile.New)))).1
      subst hst
      simp only [Selection.keys, Selection.start, List.filterMap_nil, List.nil_append] at hk
      rw [← hk]
      exact List.Nodup.sublist ps (nodup_gridKeys _ _ _)
    · unfold vtkOsmLayer.AddTiles_select
      simp only [hp, if_true]
      exact hK _
  | false =>
    obtain ⟨K, hK⟩ := vtkOsmLayer.SelectTiles_step view.PerspectiveProjection view.Zoom
      view.bottomLeft view.topRight
    refine ⟨K, ?_, fun layer => ?_⟩
    · obtain ⟨_, _, _, hp2, _⟩ := vtkOsmLayer.SelectTiles_pass view.PerspectiveProjection
        view.Zoom view.bottomLeft view.topRight (vtkOsmLayer.New (fun _ => vtkMapTile.New))
        _ _ _ _ rfl rfl rfl rfl
      have hk := (hK (Selection.start (vtkOsmLayer.New (fun _ => vtkMapTile.New)))).1
      simp only [Selection.keys, Selection.start, List.filterMap_nil, List.nil_append] at hk
      rw [← hk]
      simp only [Selection.start] at hp2
      rw [hp2]
      exact nodup_cellKeys _ _ _ (nodup_intRange _ _) (nodup_intRange _ _)
    · unfold vtkOsmLayer.AddTiles_select
      simp only [hp, Bool.false_eq_true, if_false]
      have := hK (Selection.start layer)
      rw [hp] at this
      exact this

/-! ## Materialisation of the missing tiles -/

theorem vtkMapTileSpecInternal.ZoomXY_eq (s : vtkMapTileSpecInternal) :
    s.ZoomXY = (s.ZoomXY0, s.ZoomXY1, s.ZoomXY2) := rfl

theorem vtkMapTile.DownloadImage_ViewProps (h : Host) (url out : String) :
    (vtkMapTile.DownloadImage h url out).ViewProps = h.ViewProps := by
  unfold vtkMapTile.DownloadImage
  simp only
  split
  · split
    · split <;> rfl
    · rfl
  · rfl

theorem vtkMapTile.InitializeDownload_ViewProps (t : vtkMapTile) (h : Host) :
    (t.InitializeDownload h).ViewProps = h.ViewProps := by
  unfold vtkMapTile.InitializeDownload
  split
  · exact vtkMapTile.DownloadImage_ViewProps h _ _
  · rfl

theorem vtkMapTile.Build_host (t : vtkMapTile) (h : Host) :
    (t.Build h).2.ViewProps = h.ViewProps ∧ h.next ≤ (t.Build h).2.next := by
  have e1 := vtkMapTile.InitializeDownload_ViewProps
    { t with Plane := some h.next, TexturePlane := some (h.next + 1) }
    { h with next := h.next + 1 + 1 }
  have e2 := vtkMapTile.InitializeDownload_next
    { t with Plane := some h.next, TexturePlane := some (h.next + 1) }
    { h with next := h.next + 1 + 1 }
  simp only at e1 e2
  unfold vtkMapTile.Build
  simp only
  split_ifs
  · simp only [vtkMapTile.Build_finish, e1, e2, true_and]
    omega
  · simp only [vtkMapTile.Build_finish, e1, e2, true_and]
    omega
  · simp only [e1, e2, true_and]
    omega

theorem vtkMapTile.Init_host (t : vtkMapTile) (h : Host) :
    (t.Init h).2.ViewProps = h.ViewProps ∧ h.next ≤ (t.Init h).2.next := by
  unfold vtkMapTile.Init
  split
  · exact vtkMapTile.Build_host t h
  · exact ⟨rfl, le_refl _⟩

theorem vtkOsmLayer.InitializeTiles_spec_result (st : Materialised)
    (spec : vtkMapTileSpecInternal) (dir : String) (hd : st.layer.CacheDirectory = some dir) :
    ∃ st2, vtkOsmLayer.InitializeTiles_spec st spec = some st2 ∧
      st2.tiles = st.tiles ++ [some st.host.next] ∧
      st2.layer.CachedTiles = st.layer.CachedTiles ++ [some st.host.next] ∧
      (∀ key, st2.layer.lookup key
        = if key = spec.ZoomXY then some st.host.next else st.layer.lookup key) ∧
      st2.layer.CacheDirectory = st.layer.CacheDirectory ∧
      st2.layer.Map = st.layer.Map ∧ st2.layer.Renderer = st.layer.Renderer ∧
      st2.host.ViewProps = st.host.ViewProps ∧
      st.host.next < st2.host.next := by
  unfold vtkOsmLayer.InitializeTiles_spec vtkOsmLayer.MakeFileSystemPath
  simp only [hd]
  refine ⟨_, rfl, rfl, rfl, ?_, rfl, rfl, rfl, ?_, ?_⟩
  · intro key
    obtain ⟨k0, k1, k2⟩ := key
    simp only [vtkOsmLayer.lookup, vtkOsmLayer.tileSetVisible, vtkOsmLayer.AddTileToCache,
      TileMap.lookup_store, vtkMapTileSpecInternal.ZoomXY_eq, Prod.mk.injEq]
  · exact (vtkMapTile.Init_host _ _).1
  · exact Nat.lt_of_lt_of_le (Nat.lt_succ_self _)
      (vtkMapTile.Init_host _ { st.host with next := st.host.next + 1 }).2

theorem vtkOsmLayer.InitializeTiles_result (specs : List vtkMapTileSpecInternal) :
    ∀ (st : Materialised) (dir : String), st.layer.CacheDirectory = some dir →
      (specs.map vtkMapTileSpecInternal.ZoomXY).Nodup →
      ∃ (st2 : Materialised) (new : List Nat),
        vtkOsmLayer.InitializeTiles st specs = some st2 ∧
        new.length = specs.length ∧
        st2.tiles = st.tiles ++ new.map some ∧
        st2.layer.CachedTiles = st.layer.CachedTiles ++ new.map some ∧
        (∀ key, key ∉ specs.map vtkMapTileSpecInternal.ZoomXY →
          st2.layer.lookup key = st.layer.lookup key) ∧
        specs.map (fun s => st2.layer.lookup s.ZoomXY) = new.map some ∧
        st2.layer.CacheDirectory = st.layer.CacheDirectory ∧
        st2.layer.Map = st.layer.Map ∧ st2.layer.Renderer = st.layer.Renderer ∧
        st2.host.ViewProps = st.host.ViewProps ∧
        st.host.next + specs.length ≤ st2.host.next := by
  induction specs with
  | nil =>
    intro st dir _ _
    exact ⟨st, [], rfl, rfl, by simp, by simp, fun _ _ => rfl, rfl, rfl, rfl, rfl, rfl,
      le_refl _⟩
  | cons spec rest ih =>
    intro st dir hd hn
    obtain ⟨st1, e1, t1, c1, l1, d1, m1, r1, v1, n1⟩ :=
      vtkOsmLayer.InitializeTiles_spec_result st spec dir hd
    rw [List.map_cons, List.nodup_cons] at hn
    obtain ⟨st2, new, e2, len2, t2, c2, l2, s2, d2, m2, r2, v2, n2⟩ :=
      ih st1 dir (d1.trans hd) hn.2
    refine ⟨st2, st.host.next :: new, ?_, ?_, ?_, ?_, ?_, ?_, ?_, ?_, ?_, ?_, ?_⟩
    · simp only [vtkOsmLayer.InitializeTiles, e1, e2]
    · simp [len2]
    · rw [t2, t1]; simp
    · rw [c2, c1]; simp
    · intro key hk
      rw [List.map_cons, List.mem_cons, not_or] at hk
      rw [l2 key hk.2, l1 key, if_neg hk.1]
    · rw [List.map_cons, List.map_cons, s2, l2 _ hn.1, l1, if_pos rfl]
    · rw [d2, d1]
    · rw [m2, m1]
    · rw [r2, r1]
    · rw [v2, v1]
    · simp only [List.length_cons]
      omega

/-! ## One pass of `AddTiles`, and a second one -/

theorem derefAll_append_map_some (ps : List TilePtr) (cached new : List Nat)
    (h : derefAll ps = some cached) :
    derefAll (ps ++ new.map some) = some (cached ++ new) := by
  rw [derefAll_eq_some h, ← List.map_append]
  exact derefAll_map_some _

theorem filterMap_of_map_eq_map_some {α : Type} (f : α → Option Nat) (l : List α)
    (new : List Nat) (h : l.map f = new.map some) : l.filterMap f = new := by
  induction l generalizing new with
  | nil =>
    cases new with
    | nil => rfl
    | cons a rest => simp at h
  | cons k rest ih =>
    cases new with
    | nil => simp at h
    | cons a new2 =>
      simp only [List.map_cons, List.cons.injEq] at h
      simp [List.filterMap_cons, h.1, ih new2 h.2]

theorem filterMap_filter_isSome {α : Type} (f g : α → Option Nat) (l : List α)
    (h : ∀ k, (f k).isSome = true → g k = f k) :
    (l.filter (fun k => (f k).isSome)).filterMap g = l.filterMap f := by
  induction l with
  | nil => rfl
  | cons k rest ih =>
    cases hf : f k with
    | none => simp [List.filter_cons, List.filterMap_cons, hf, ih]
    | some a =>
      have hg : g k = some a := by rw [h k (by simp [hf]), hf]
      simp [List.filter_cons, List.filterMap_cons, hf, hg, ih]

theorem Selection.Step.from_start {K : List (Int × Int × Int)} {layer : vtkOsmLayer}
    {sel : Selection} (h : Selection.Step K (Selection.start layer) sel) :
    sel.keys = K ∧ (∀ key, sel.layer.lookup key = layer.lookup key) ∧
    sel.layer.CachedTiles = layer.CachedTiles ∧
    sel.layer.CacheDirectory = layer.CacheDirectory ∧
    sel.layer.Map = layer.Map ∧ sel.layer.Renderer = layer.Renderer ∧
    sel.tiles = (K.filterMap layer.lookup).map some ∧
    sel.tileSpecs.map vtkMapTileSpecInternal.ZoomXY
      = K.filter (fun key => (layer.lookup key).isNone) := by
  obtain ⟨h1, h2, h3, h4, h5⟩ := h
  simp only [Selection.start, Selection.keys, List.filterMap_nil, List.nil_append,
    List.map_nil] at h1 h2 h3 h4 h5
  refine ⟨h1, h2, ?_, ?_, ?_, ?_, h4, h5⟩
  · rw [← h3]
  · rw [← h3]
  · rw [← h3]
  · rw [← h3]

/-- The part of `AddTiles` after a selector that handled the keys `K` on the layer
`layer`: it returns; a tile is created for each key of `K` the cache held no tile for,
and stored under that key; the pointer held for any other key stays the same. -/
theorem vtkOsmLayer.AddTiles_finish_result (K : List (Int × Int × Int)) (hK : K.Nodup)
    (layer : vtkOsmLayer) (sel : Selection) (h : Host) (dir : String) (cached : List Nat)
    (hs : Selection.Step K (Selection.start layer) sel) (hr : layer.Renderer = true)
    (hd : layer.CacheDirectory = some dir) (hc : derefAll layer.CachedTiles = some cached) :
    ∃ (r : AddTilesResult) (new : List Nat),
      vtkOsmLayer.AddTiles_finish sel h = some r ∧
      r.selected = sel ∧
      r.rendered = (K.filterMap layer.lookup).map some ++ new.map some ∧
      r.layer.CachedTiles = layer.CachedTiles ++ new.map some ∧
      (∀ key, key ∉ K.filter (fun key => (layer.lookup key).isNone) →
        r.layer.lookup key = layer.lookup key) ∧
      (K.filter (fun key => (layer.lookup key).isNone)).map r.layer.lookup = new.map some ∧
      r.layer.CacheDirectory = layer.CacheDirectory ∧
      r.layer.Map = layer.Map ∧ r.layer.Renderer = layer.Renderer ∧
      (sel.tileSpecs = [] → new = [] ∧ r.host.next = h.next ∧ r.host.events = h.events) := by
  obtain ⟨s1, s2, s3, s4, s5, s6, s7, s8⟩ := hs.from_start
  have hn : (sel.tileSpecs.map vtkMapTileSpecInternal.ZoomXY).Nodup := by
    rw [s8]; exact hK.filter _
  obtain ⟨st2, new, e2, len2, t2, c2, l2, m2, d2, p2, r2, v2, n2⟩ :=
    vtkOsmLayer.InitializeTiles_result sel.tileSpecs
      { layer := sel.layer, host := h, tiles := sel.tiles } dir (s4.trans hd) hn
  simp only at t2 c2 l2 d2 p2 r2 v2 n2
  have hif : (if sel.tileSpecs.length > 0 then
      vtkOsmLayer.InitializeTiles { layer := sel.layer, host := h, tiles := sel.tiles }
        sel.tileSpecs
      else some { layer := sel.layer, host := h, tiles := sel.tiles }) = some st2 := by
    split_ifs with hlen
    · exact e2
    · have : sel.tileSpecs = [] := List.length_eq_zero.mp (by omega)
      rw [this] at e2
      exact e2
  have hc2 : derefAll st2.layer.CachedTiles = some (cached ++ new) := by
    rw [c2, s3]
    exact derefAll_append_map_some _ _ _ hc
  have ht2 : st2.tiles = (K.filterMap layer.lookup ++ new).map some := by
    rw [t2, s7, List.map_append]
  obtain ⟨r, er, f1, f2, f3, f4, f5, f6, f7, f8⟩ :=
    vtkOsmLayer.RenderTiles_frame st2.layer st2.host (K.filterMap layer.lookup ++ new)
      (cached ++ new) (r2.trans (s6.trans hr)) hc2
  rw [← ht2] at er
  have hlk : ∀ key, r.1.lookup key = st2.layer.lookup key := by
    intro key
    simp only [vtkOsmLayer.lookup, f2]
  refine ⟨{ layer := r.1, host := r.2, selected := sel, rendered := st2.tiles }, new,
    ?_, rfl, ?_, ?_, ?_, ?_, ?_, ?_, ?_, ?_⟩
  · unfold vtkOsmLayer.AddTiles_finish
    simp only [hif, er]
  · simp only [ht2, List.map_append]
  · simp only [f1, c2, s3]
  · intro key hk
    simp only [hlk]
    rw [← s8] at hk
    rw [l2 key hk, s2]
  · rw [← s8, List.map_map]
    have : (r.1.lookup ∘ vtkMapTileSpecInternal.ZoomXY)
        = fun s => st2.layer.lookup s.ZoomXY := by
      funext s
      exact hlk _
    simp only [this]
    exact m2
  · simp only [f4, d2, s4]
  · simp only [f5, p2, s5]
  · simp only [f6, r2, s6]
  · intro hnil
    rw [hnil] at e2 len2
    simp only [vtkOsmLayer.InitializeTiles, Option.some.injEq] at e2
    have hnew : new = [] := List.length_eq_zero.mp len2
    refine ⟨hnew, ?_, ?_⟩
    · simp only [f7, ← e2]
    · simp only [f8, ← e2]

/-- Claim C12: one pass of `vtkOsmLayer::AddTiles` (on a layer attached to a map, with a
cache directory and no null pointer in `CachedTiles`) returns, and every key for which
`GetCachedTile` returned a tile before the pass returns the same tile after it; the
vector `CachedTiles` only grows at its end; and every spec handed to `InitializeTiles`
has a key for which the cache held no tile before the pass. -/
theorem C12_pass_keeps_cached_tiles (layer : vtkOsmLayer) (view : Viewport) (h : Host)
    (storage dir : String) (hm : layer.Map = some storage)
    (hd : layer.CacheDirectory = some dir) (hc : derefAll layer.CachedTiles ≠ none) :
    ∃ r, layer.AddTiles view h = some r ∧
      (∀ zoom x y t, (layer.GetCachedTile zoom x y).1 = some t →
        (r.layer.GetCachedTile zoom x y).1 = some t) ∧
      layer.CachedTiles <+: r.layer.CachedTiles ∧
      ∀ s ∈ r.selected.tileSpecs,
        (layer.GetCachedTile s.ZoomXY0 s.ZoomXY1 s.ZoomXY2).1 = none := by
  cases hr : layer.Renderer with
  | false =>
    refine ⟨{ layer := layer, host := h, selected := Selection.start layer, rendered := [] },
      ?_, fun _ _ _ _ ht => ht, List.prefix_refl _, ?_⟩
    · unfold vtkOsmLayer.AddTiles
      simp [hr]
    · intro s hs
      simp [Selection.start] at hs
  | true =>
    obtain ⟨cached, hc⟩ := Option.ne_none_iff_exists'.mp hc
    obtain ⟨K, hK, hstep⟩ := vtkOsmLayer.AddTiles_select_step view
    obtain ⟨r, new, e, rs, _, c, l, _, _, _, _, _⟩ := vtkOsmLayer.AddTiles_finish_result K hK
      layer (vtkOsmLayer.AddTiles_select view layer) h dir cached (hstep layer) hr hd hc
    refine ⟨r, ?_, ?_, ?_, ?_⟩
    · unfold vtkOsmLayer.AddTiles
      simp [hr, hm, e]
    · intro zoom x y t ht
      rw [(vtkOsmLayer.lookup_GetCachedTile _ _ _ _).1] at ht ⊢
      rw [l (zoom, x, y), ht]
      simp [ht]
    · rw [c]
      exact List.prefix_append _ _
    · intro s hs
      rw [rs] at hs
      have h8 := (hstep layer).from_start.2.2.2.2.2.2.2
      have hmem : s.ZoomXY ∈ (vtkOsmLayer.AddTiles_select view layer).tileSpecs.map
          vtkMapTileSpecInternal.ZoomXY := List.mem_map_of_mem _ hs
      rw [h8, List.mem_filter] at hmem
      rw [(vtkOsmLayer.lookup_GetCachedTile _ _ _ _).1]
      exact Option.isNone_iff_eq_none.mp hmem.2

/-! ## Removal of actors, and the change of the tile server -/

theorem Host.foldl_RemoveActor_ViewProps (as : List (Option Nat)) :
    ∀ h : Host, h.ViewProps.Nodup →
      (as.foldl (fun h a => h.RemoveActor a) h).ViewProps
        = h.ViewProps.filter (fun p => decide (some p ∉ as)) := by
  induction as with
  | nil => intro h _; simp
  | cons a rest ih =>
    intro h hn
    simp only [List.foldl_cons]
    cases a with
    | none =>
      rw [show h.RemoveActor none = h from rfl, ih h hn]
      apply List.filter_congr
      intro p _
      simp
    | some x =>
      have hn1 : (h.RemoveActor (some x)).ViewProps.Nodup := hn.erase x
      rw [ih _ hn1]
      show List.filter _ (h.ViewProps.erase x) = _
      rw [hn.erase_eq_filter, List.filter_filter]
      apply List.filter_congr
      intro p _
      by_cases hp : p = x <;> simp [hp]

theorem vtkOsmLayer.lookup_of_empty (self : vtkOsmLayer) (he : self.CachedTilesMap = [])
    (key : Int × Int × Int) : self.lookup key = none := by
  simp [vtkOsmLayer.lookup, he, TileMap.lookup, StdMap.find]

theorem vtkOsmLayer.SetMapTileServer_clear_eq (self : vtkOsmLayer) (h : Host)
    (server attribution extension fullPath : String) (cached : List Nat)
    (hd : derefAll self.CachedTiles = some cached) (hr : self.Renderer = true) :
    self.SetMapTileServer_clear h server attribution extension fullPath
      = some ({ self with
                CachedTilesMap := []
                CachedTiles := []
                MapTileExtension := extension
                MapTileServer := server
                MapTileAttribution := attribution
                CacheDirectory := some fullPath },
              cached.foldl (fun h t => h.RemoveActor (self.objects t).Actor) h) := by
  unfold vtkOsmLayer.SetMapTileServer_clear vtkOsmLayer.RemoveTiles
  simp only [hd, hr]
  simp

theorem vtkOsmLayer.AddTiles_select_of_empty (self : vtkOsmLayer)
    (he : self.CachedTilesMap = []) (view : Viewport) :
    (vtkOsmLayer.AddTiles_select view self).tiles = [] := by
  obtain ⟨K, _, hstep⟩ := vtkOsmLayer.AddTiles_select_step view
  have h7 := (hstep self).from_start.2.2.2.2.2.2.1
  rw [h7]
  have : K.filterMap self.lookup = [] := by
    rw [List.filterMap_eq_nil_iff]
    intro key _
    exact vtkOsmLayer.lookup_of_empty self he key
  rw [this]
  rfl

/-- Claim C18: when `SetMapTileServer` succeeds — the layer is attached to a map and its
cache directory exists or can be created — on a layer with a renderer and no null pointer
in `CachedTiles`, it returns with `CachedTiles` and `CachedTilesMap` empty; the actor of
every tile that was in `CachedTiles` is no longer among the renderer's props; and after
it `GetCachedTile` returns null for every key and a selection pass finds no tile. -/
theorem C18_SetMapTileServer_clears_cache (self : vtkOsmLayer) (h : Host)
    (server attribution extension storage : String) (cached : List Nat)
    (hm : self.Map = some storage)
    (hdir : h.directories (storage ++ "/" ++ server) = true ∨
      h.canMakeDirectory (storage ++ "/" ++ server) = true)
    (hr : self.Renderer = true) (hc : self.CachedTiles = cached.map some)
    (hn : h.ViewProps.Nodup) :
    ∃ r, self.SetMapTileServer h server attribution extension = some r ∧
      r.1.CachedTiles = [] ∧ r.1.CachedTilesMap = [] ∧
      (∀ t ∈ cached, ∀ a, (self.objects t).Actor = some a → a ∉ r.2.ViewProps) ∧
      (∀ zoom x y, (r.1.GetCachedTile zoom x y).1 = none) ∧
      (∀ view, (vtkOsmLayer.AddTiles_select view r.1).tiles = []) ∧
      r.1.MapTileServer = server ∧ r.1.MapTileExtension = extension ∧
      r.1.CacheDirectory = some (storage ++ "/" ++ server) := by
  have hd : derefAll self.CachedTiles = some cached := by
    rw [hc]; exact derefAll_map_some _
  have key : ∀ h2 : Host, h2.ViewProps = h.ViewProps →
      ∃ r, self.SetMapTileServer_clear h2 server attribution extension
          (storage ++ "/" ++ server) = some r ∧
        r.1.CachedTiles = [] ∧ r.1.CachedTilesMap = [] ∧
        (∀ t ∈ cached, ∀ a, (self.objects t).Actor = some a → a ∉ r.2.ViewProps) ∧
        (∀ zoom x y, (r.1.GetCachedTile zoom x y).1 = none) ∧
        (∀ view, (vtkOsmLayer.AddTiles_select view r.1).tiles = []) ∧
        r.1.MapTileServer = server ∧ r.1.MapTileExtension = extension ∧
        r.1.CacheDirectory = some (storage ++ "/" ++ server) := by
    intro h2 hv
    refine ⟨_, vtkOsmLayer.SetMapTileServer_clear_eq self h2 server attribution extension _
      cached hd hr, rfl, rfl, ?_, ?_, ?_, rfl, rfl, rfl⟩
    · intro t ht a ha
      have hf := Host.foldl_RemoveActor_ViewProps
        (cached.map (fun t => (self.objects t).Actor)) h2 (hv ▸ hn)
      rw [List.foldl_map] at hf
      simp only
      rw [hf, List.mem_filter]
      intro hmem
      have : some a ∈ cached.map (fun t => (self.objects t).Actor) :=
        List.mem_map.mpr ⟨t, ht, ha⟩
      simp [this] at hmem
    · intro zoom x y
      rw [(vtkOsmLayer.lookup_GetCachedTile _ _ _ _).1]
      exact vtkOsmLayer.lookup_of_empty _ rfl _
    · intro view
      exact vtkOsmLayer.AddTiles_select_of_empty _ rfl view
  unfold vtkOsmLayer.SetMapTileServer
  simp only [hm]
  by_cases hex : h.directories (storage ++ "/" ++ server) = true
  · simp only [hex, Bool.not_true, Bool.false_eq_true, if_false]
    exact key h rfl
  · have hmk : h.canMakeDirectory (storage ++ "/" ++ server) = true := by
      rcases hdir with h1 | h1
      · exact absurd h1 hex
      · exact h1
    have hex2 : h.directories (storage ++ "/" ++ server) = false := by simpa using hex
    simp only [hex2, hmk, Bool.not_false, if_true]
    exact key _ rfl

/-! ## The render part of `vtkMap::AddTiles` -/

theorem Host.foldl_AddActor_ViewProps (f : Nat → Option Nat) (ts : List Nat) :
    ∀ h : Host, ∃ extra : List Nat,
      (ts.foldl (fun h t => h.AddActor (f t)) h).ViewProps = h.ViewProps ++ extra ∧
      (∀ p ∈ extra, ∃ t ∈ ts, f t = some p) ∧
      (h.ViewProps.Nodup → (h.ViewProps ++ extra).Nodup) := by
  induction ts with
  | nil => intro h; exact ⟨[], by simp, by simp, by simp⟩
  | cons t rest ih =>
    intro h
    simp only [List.foldl_cons]
    cases hf : f t with
    | none =>
      obtain ⟨extra, e1, e2, e3⟩ := ih (h.AddActor none)
      refine ⟨extra, e1, ?_, e3⟩
      intro p hp
      obtain ⟨t2, ht2, hft⟩ := e2 p hp
      exact ⟨t2, List.mem_cons_of_mem _ ht2, hft⟩
    | some a =>
      obtain ⟨extra, e1, e2, e3⟩ := ih (h.AddActor (some a))
      by_cases hmem : a ∈ h.ViewProps
      · have hs : h.AddActor (some a) = h := by
          simp [Host.AddActor, Host.AddViewProp, hmem]
        rw [hs] at e1 e3
        refine ⟨extra, by rw [hs]; exact e1, ?_, e3⟩
        intro p hp
        obtain ⟨t2, ht2, hft⟩ := e2 p hp
        exact ⟨t2, List.mem_cons_of_mem _ ht2, hft⟩
      · have hs : (h.AddActor (some a)).ViewProps = h.ViewProps ++ [a] := by
          simp [Host.AddActor, Host.AddViewProp, hmem]
        rw [hs] at e1 e3
        refine ⟨a :: extra, by simpa using e1, ?_, ?_⟩
        · intro p hp
          rcases List.mem_cons.mp hp with hp | hp
          · exact ⟨t, List.mem_cons_self _ _, hp ▸ hf⟩
          · obtain ⟨t2, ht2, hft⟩ := e2 p hp
            exact ⟨t2, List.mem_cons_of_mem _ ht2, hft⟩
        · intro hn
          have : (h.ViewProps ++ [a]).Nodup := by
            rw [List.nodup_append]
            refine ⟨hn, List.nodup_singleton a, ?_⟩
            intro x hx hx2
            rw [List.mem_singleton] at hx2
            exact hmem (hx2 ▸ hx)
          simpa using e3 this

theorem Host.foldl_AddViewProp_ViewProps (ps : List Nat) :
    ∀ h : Host, ps.Nodup → (∀ p ∈ ps, p ∉ h.ViewProps) →
      (ps.foldl (fun h p => h.AddViewProp (some p)) h).ViewProps = h.ViewProps ++ ps := by
  induction ps with
  | nil => intro h _ _; simp
  | cons p rest ih =>
    intro h hn hd
    rw [List.nodup_cons] at hn
    have hp : p ∉ h.ViewProps := hd p (List.mem_cons_self _ _)
    have hs : (h.AddViewProp (some p)).ViewProps = h.ViewProps ++ [p] := by
      simp [Host.AddViewProp, hp]
    simp only [List.foldl_cons]
    rw [ih _ hn.2, hs]
    · simp
    · intro q hq
      rw [hs, List.mem_append, List.mem_singleton]
      rintro (h1 | h1)
      · exact hd q (List.mem_cons_of_mem _ hq) h1
      · exact hn.1 (h1 ▸ hq)

theorem vtkMap.mem_sortPending (Hidden : Int) (objects : Nat → vtkMapTile) (tiles : List Nat)
    (t : Nat) : t ∈ vtkMap.sortPending Hidden objects tiles ↔ t ∈ tiles :=
  (List.perm_insertionSort _ tiles).mem_iff

/-- The props of the renderer after the render part of `vtkMap::AddTiles` with pending
tiles: actors of the pending tiles, followed by the props that were there before and are
not cached actors, in their order. -/
theorem vtkMap.AddTiles_render_ViewProps (Hidden : Int) (self : vtkMap) (h : Host)
    (hp : self.NewPendingTiles ≠ []) (hn : h.ViewProps.Nodup)
    (hpend : ∀ t ∈ self.NewPendingTiles, (self.objects t).Actor ∈ self.CachedActors) :
    ∃ actors : List Nat,
      (self.AddTiles_render Hidden h).2.ViewProps
        = actors ++ h.ViewProps.filter (fun p => decide (some p ∉ self.CachedActors)) ∧
      (∀ p ∈ actors, some p ∈ self.CachedActors) ∧
      (∀ p ∈ actors, ∃ t ∈ self.NewPendingTiles, (self.objects t).Actor = some p) ∧
      (actors ++ h.ViewProps.filter (fun p => decide (some p ∉ self.CachedActors))).Nodup := by
  have hlen : self.NewPendingTiles.length > 0 := List.length_pos.mpr hp
  have hrem := Host.foldl_RemoveActor_ViewProps self.CachedActors h hn
  obtain ⟨actors, a1, a2, a3⟩ := Host.foldl_AddActor_ViewProps
    (fun t => (self.objects t).Actor)
    (vtkMap.sortPending Hidden self.objects self.NewPendingTiles)
    (Host.RemoveAllViewProps (self.CachedActors.foldl (fun h a => h.RemoveActor a) h))
  simp only [Host.RemoveAllViewProps, List.nil_append] at a1 a3
  have hact : ∀ p ∈ actors, ∃ t ∈ self.NewPendingTiles, (self.objects t).Actor = some p := by
    intro p hpa
    obtain ⟨t, ht, hft⟩ := a2 p hpa
    exact ⟨t, (vtkMap.mem_sortPending _ _ _ _).mp ht, hft⟩
  have hcached : ∀ p ∈ actors, some p ∈ self.CachedActors := by
    intro p hpa
    obtain ⟨t, ht, hft⟩ := hact p hpa
    exact hft ▸ hpend t ht
  have hadd := Host.foldl_AddViewProp_ViewProps
    (h.ViewProps.filter (fun p => decide (some p ∉ self.CachedActors)))
    ((vtkMap.sortPending Hidden self.objects self.NewPendingTiles).foldl
      (fun h t => h.AddActor (self.objects t).Actor)
      (Host.RemoveAllViewProps (self.CachedActors.foldl (fun h a => h.RemoveActor a) h)))
    (hn.filter _)
    (by
      intro p hpf
      rw [Host.RemoveAllViewProps, a1]
      intro hpa
      have := (List.mem_filter.mp hpf).2
      simp only [decide_eq_true_eq] at this
      exact this (hcached p hpa))
  refine ⟨actors, ?_, hcached, hact, ?_⟩
  · unfold vtkMap.AddTiles_render
    simp only [hlen, if_true, hrem]
    simp only [Host.RemoveAllViewProps] at hadd ⊢
    rw [hadd, a1]
  · rw [List.nodup_append]
    refine ⟨by simpa using a3 List.nodup_nil, hn.filter _, ?_⟩
    intro p hpa hpf
    have := (List.mem_filter.mp hpf).2
    simp only [decide_eq_true_eq] at this
    exact this (hcached p hpa)

/-- Claim C17: in the render part of `vtkMap::AddTiles` with a non-empty pending tile
set (the renderer holding no prop twice, the actor of every pending tile being a cached
actor), the props that are not cached actors are the same after the pass as before, in
the same order; no prop occurs twice afterwards; and every prop that was added or removed
is a cached actor. -/
theorem C17_other_props_survive_render (Hidden : Int) (self : vtkMap) (h : Host)
    (hp : self.NewPendingTiles ≠ []) (hn : h.ViewProps.Nodup)
    (hpend : ∀ t ∈ self.NewPendingTiles, (self.objects t).Actor ∈ self.CachedActors) :
    (self.AddTiles_render Hidden h).2.ViewProps.filter
        (fun p => decide (some p ∉ self.CachedActors))
      = h.ViewProps.filter (fun p => decide (some p ∉ self.CachedActors)) ∧
    (self.AddTiles_render Hidden h).2.ViewProps.Nodup ∧
    (∀ p, p ∈ h.ViewProps → some p ∉ self.CachedActors →
      (self.AddTiles_render Hidden h).2.ViewProps.count p = 1) ∧
    (∀ p, (p ∈ (self.AddTiles_render Hidden h).2.ViewProps ∧ p ∉ h.ViewProps) ∨
        (p ∈ h.ViewProps ∧ p ∉ (self.AddTiles_render Hidden h).2.ViewProps) →
      some p ∈ self.CachedActors) := by
  obtain ⟨actors, e, hc, _, hnd⟩ := vtkMap.AddTiles_render_ViewProps Hidden self h hp hn hpend
  rw [e]
  have hfa : actors.filter (fun p => decide (some p ∉ self.CachedActors)) = [] := by
    rw [List.filter_eq_nil_iff]
    intro p hpa
    simp [hc p hpa]
  refine ⟨?_, hnd, ?_, ?_⟩
  · rw [List.filter_append, hfa, List.nil_append, List.filter_filter]
    apply List.filter_congr
    intro p _
    simp
  · intro p hpv hpc
    apply List.count_eq_one_of_mem hnd
    apply List.mem_append_right
    rw [List.mem_filter]
    exact ⟨hpv, by simpa using hpc⟩
  · intro p hcase
    rcases hcase with ⟨h1, h2⟩ | ⟨h1, h2⟩
    · rcases List.mem_append.mp h1 with h3 | h3
      · exact hc p h3
      · exact absurd (List.mem_filter.mp h3).1 h2
    · by_contra hnc
      apply h2
      apply List.mem_append_right
      rw [List.mem_filter]
      exact ⟨h1, by simpa using hnc⟩

/-! ## Two passes of `vtkMap::AddTiles` -/

theorem vtkMap.Pass.empty (st : vtkMap × Host) : vtkMap.Pass [] st st :=
  ⟨fun _ _ => rfl, by simp, by simp, fun _ => ⟨rfl, rfl, rfl, fun _ => rfl⟩, rfl⟩

theorem vtkMap.Pass.concat {K1 K2 : List (Int × Int × Int)} {a b c : vtkMap × Host}
    (h1 : vtkMap.Pass K1 a b) (h2 : vtkMap.Pass K2 b c) : vtkMap.Pass (K1 ++ K2) a c := by
  obtain ⟨a1, a2, a3, a4, a5⟩ := h1
  obtain ⟨b1, b2, b3, b4, b5⟩ := h2
  refine ⟨?_, ?_, ?_, ?_, ?_⟩
  · intro key hk
    rw [b1 key (by rw [a1 key hk]; exact hk), a1 key hk]
  · intro key hk
    rcases List.mem_append.mp hk with hk | hk
    · rw [b1 key (a2 key hk)]
      exact a2 key hk
    · exact b2 key hk
  · rw [b3, a3, List.filterMap_append, List.append_assoc]
    congr 2
    apply List.filterMap_congr
    intro key hk
    exact (b1 key (a2 key hk)).symm
  · intro hall
    have hall1 : ∀ key ∈ K1, a.1.lookup key ≠ none :=
      fun key hk => hall key (List.mem_append_left _ hk)
    obtain ⟨n1, e1, c1, l1⟩ := a4 hall1
    have hall2 : ∀ key ∈ K2, b.1.lookup key ≠ none := by
      intro key hk
      rw [l1 key]
      exact hall key (List.mem_append_right _ hk)
    obtain ⟨n2, e2, c2, l2⟩ := b4 hall2
    exact ⟨n2.trans n1, e2.trans e1, c2.trans c1, fun key => (l2 key).trans (l1 key)⟩
  · exact b5.trans a5

theorem vtkMap.lookup_cached (self : vtkMap) (zoom x y : Int) :
    (self.GetCachedTile zoom x y).1 = self.lookup (zoom, x, y) ∧
    (∀ key, (self.GetCachedTile zoom x y).2.lookup key = self.lookup key) :=
  ⟨TileMap.getCached_fst _ _ _ _, fun _ => TileMap.lookup_getCached _ _ _ _ _ _ _⟩

theorem vtkMap.AddTiles_cell_pass (Zoom : Nat) (i j : Int) (st : vtkMap × Host) :
    vtkMap.Pass [tileKey Zoom i j] st (vtkMap.AddTiles_cell Zoom i j st) := by
  obtain ⟨g1, g2⟩ := vtkMap.lookup_cached st.1 Zoom i (2 ^ Zoom - 1 - j)
  cases hg : (st.1.GetCachedTile Zoom i (2 ^ Zoom - 1 - j)).1 with
  | some tile =>
    have hl : st.1.lookup (tileKey Zoom i j) = some tile := by rw [← hg, g1]; rfl
    have hlk : ∀ key, (vtkMap.AddTiles_cell Zoom i j st).1.lookup key = st.1.lookup key := by
      intro key
      unfold vtkMap.AddTiles_cell
      simp only [hg]
      exact g2 key
    refine ⟨fun key _ => hlk key, ?_, ?_, ?_, ?_⟩
    · intro key hk
      rw [List.mem_singleton] at hk
      rw [hlk, hk, hl]
      simp
    · simp only [List.filterMap_cons, List.filterMap_nil, hlk, hl]
      unfold vtkMap.AddTiles_cell
      simp only [hg]
      rfl
    · intro _
      refine ⟨?_, ?_, ?_, hlk⟩
      · unfold vtkMap.AddTiles_cell
        simp only [hg]
      · unfold vtkMap.AddTiles_cell
        simp only [hg]
      · unfold vtkMap.AddTiles_cell
        simp only [hg]
        rfl
    · unfold vtkMap.AddTiles_cell
      simp only [hg]
  | none =>
    have hl : st.1.lookup (tileKey Zoom i j) = none := by rw [← hg, g1]; rfl
    have hlk : ∀ key, (vtkMap.AddTiles_cell Zoom i j st).1.lookup key
        = if key = tileKey Zoom i j then some st.2.next else st.1.lookup key := by
      intro key
      obtain ⟨k0, k1, k2⟩ := key
      unfold vtkMap.AddTiles_cell
      simp only [hg]
      simp only [vtkMap.lookup, vtkMap.AddTileToCache, TileMap.lookup_store, tileKey,
        Prod.mk.injEq]
      split_ifs
      · rfl
      · exact g2 (k0, k1, k2)
    refine ⟨?_, ?_, ?_, ?_, ?_⟩
    · intro key hk
      rw [hlk]
      split_ifs with h
      · rw [h, hl] at hk
        exact absurd rfl hk
      · rfl
    · intro key hk
      rw [List.mem_singleton] at hk
      rw [hlk, if_pos hk]
      simp
    · simp only [List.filterMap_cons, List.filterMap_nil, hlk, if_true]
      unfold vtkMap.AddTiles_cell
      simp only [hg]
      rfl
    · intro hall
      exact absurd hl (hall _ (List.mem_singleton.mpr rfl))
    · unfold vtkMap.AddTiles_cell
      simp only [hg]
      exact (vtkMapTile.Init_host _ _).1

theorem vtkMap.AddTiles_inner_pass (Zoom : Nat) (i : Int) (js : List Int) :
    ∀ st : vtkMap × Host, vtkMap.Pass (js.map (fun j => tileKey Zoom i j)) st
      (js.foldl (fun st j => vtkMap.AddTiles_cell Zoom i j st) st) := by
  induction js with
  | nil => intro st; exact vtkMap.Pass.empty st
  | cons j rest ih =>
    intro st
    exact (vtkMap.AddTiles_cell_pass Zoom i j st).concat (ih _)

theorem vtkMap.AddTiles_outer_pass (Zoom : Nat) (js : List Int) (is : List Int) :
    ∀ st : vtkMap × Host, vtkMap.Pass (cellKeys Zoom is js) st
      (is.foldl (fun st i => js.foldl
        (fun st j => vtkMap.AddTiles_cell Zoom i j st) st) st) := by
  induction is with
  | nil => intro st; exact vtkMap.Pass.empty st
  | cons i rest ih =>
    intro st
    have h := (vtkMap.AddTiles_inner_pass Zoom i js st).concat
      (ih (js.foldl (fun st j => vtkMap.AddTiles_cell Zoom i j st) st))
    simpa [cellKeys] using h

/-- The loops of `vtkMap::AddTiles` handle keys that depend on the viewport only, each
once. -/
theorem vtkMap.AddTiles_select_pass (Zoom : Nat) (bottomLeft topRight : WorldPoint) :
    ∃ K : List (Int × Int × Int), K.Nodup ∧ ∀ st : vtkMap × Host,
      vtkMap.Pass K st (vtkMap.AddTiles_select Zoom bottomLeft topRight st) :=
  ⟨_, nodup_cellKeys _ _ _ (nodup_intRange _ _) (nodup_intRange _ _),
    fun st => vtkMap.AddTiles_outer_pass _ _ _ st⟩

theorem Host.foldl_AddViewProp_frame (ps : List Nat) :
    ∀ h : Host, (ps.foldl (fun h p => h.AddViewProp (some p)) h).next = h.next ∧
      (ps.foldl (fun h p => h.AddViewProp (some p)) h).events = h.events := by
  induction ps with
  | nil => intro h; exact ⟨rfl, rfl⟩
  | cons p rest ih =>
    intro h
    obtain ⟨i1, i2⟩ := ih (h.AddViewProp (some p))
    obtain ⟨s1, s2⟩ := Host.AddViewProp_frame h (some p)
    simp only [List.foldl_cons]
    exact ⟨i1.trans s1, i2.trans s2⟩

theorem Host.foldl_AddActor_frame (f : Nat → Option Nat) (ts : List Nat) :
    ∀ h : Host, (ts.foldl (fun h t => h.AddActor (f t)) h).next = h.next ∧
      (ts.foldl (fun h t => h.AddActor (f t)) h).events = h.events := by
  induction ts with
  | nil => intro h; exact ⟨rfl, rfl⟩
  | cons t rest ih =>
    intro h
    obtain ⟨i1, i2⟩ := ih (h.AddActor (f t))
    obtain ⟨s1, s2⟩ := Host.AddViewProp_frame h (f t)
    simp only [List.foldl_cons]
    exact ⟨i1.trans s1, i2.trans s2⟩

/-- The render part of `vtkMap::AddTiles` leaves the cache alone, creates no object, makes
no report, and leaves no tile pending. -/
theorem vtkMap.AddTiles_render_frame (Hidden : Int) (self : vtkMap) (h : Host) :
    (self.AddTiles_render Hidden h).1.CachedTiles = self.CachedTiles ∧
    (self.AddTiles_render Hidden h).1.CachedActors = self.CachedActors ∧
    (self.AddTiles_render Hidden h).1.objects = self.objects ∧
    (self.AddTiles_render Hidden h).1.NewPendingTiles = [] ∧
    (self.AddTiles_render Hidden h).2.next = h.next ∧
    (self.AddTiles_render Hidden h).2.events = h.events := by
  unfold vtkMap.AddTiles_render
  split_ifs with hlen
  · refine ⟨rfl, rfl, rfl, rfl, ?_, ?_⟩
    · simp only
      rw [(Host.foldl_AddViewProp_frame _ _).1, (Host.foldl_AddActor_frame _ _ _).1]
      exact (Host.foldl_RemoveActor_frame _ _).1
    · simp only
      rw [(Host.foldl_AddViewProp_frame _ _).2, (Host.foldl_AddActor_frame _ _ _).2]
      exact (Host.foldl_RemoveActor_frame _ _).2
  · refine ⟨rfl, rfl, rfl, ?_, rfl, rfl⟩
    exact List.length_eq_zero.mp (Nat.eq_zero_of_not_pos hlen)

/-- Two passes of `vtkMap::AddTiles` with the same viewport inputs: the loops of the
second pass make the same tiles pending as those of the first, in the same order, one
for each selected key; the second pass creates no object, downloads and reports nothing,
and leaves `CachedActors` and the pointer held for every key as they were. -/
theorem vtkMap.AddTiles_second_pass (Hidden : Int) (Zoom : Nat) (bottomLeft topRight : WorldPoint)
    (self : vtkMap) (h : Host) (hp : self.NewPendingTiles = []) :
    ∃ K : List (Int × Int × Int), K.Nodup ∧
      (vtkMap.AddTiles_select Zoom bottomLeft topRight (self, h)).1.NewPendingTiles
        = K.filterMap (vtkMap.AddTiles Hidden Zoom bottomLeft topRight (self, h)).1.lookup ∧
      (∀ key ∈ K,
        (vtkMap.AddTiles Hidden Zoom bottomLeft topRight (self, h)).1.lookup key ≠ none) ∧
      (vtkMap.AddTiles_select Zoom bottomLeft topRight
          (vtkMap.AddTiles Hidden Zoom bottomLeft topRight (self, h))).1.NewPendingTiles
        = (vtkMap.AddTiles_select Zoom bottomLeft topRight (self, h)).1.NewPendingTiles ∧
      (vtkMap.AddTiles Hidden Zoom bottomLeft topRight
          (vtkMap.AddTiles Hidden Zoom bottomLeft topRight (self, h))).2.next
        = (vtkMap.AddTiles Hidden Zoom bottomLeft topRight (self, h)).2.next ∧
      (vtkMap.AddTiles Hidden Zoom bottomLeft topRight
          (vtkMap.AddTiles Hidden Zoom bottomLeft topRight (self, h))).2.events
        = (vtkMap.AddTiles Hidden Zoom bottomLeft topRight (self, h)).2.events ∧
      (vtkMap.AddTiles Hidden Zoom bottomLeft topRight
          (vtkMap.AddTiles Hidden Zoom bottomLeft topRight (self, h))).1.CachedActors
        = (vtkMap.AddTiles Hidden Zoom bottomLeft topRight (self, h)).1.CachedActors ∧
      ∀ key, (vtkMap.AddTiles Hidden Zoom bottomLeft topRight
          (vtkMap.AddTiles Hidden Zoom bottomLeft topRight (self, h))).1.lookup key
        = (vtkMap.AddTiles Hidden Zoom bottomLeft topRight (self, h)).1.lookup key := by
  obtain ⟨K, hK, hpass⟩ := vtkMap.AddTiles_select_pass Zoom bottomLeft topRight
  obtain ⟨_, a2, a3, _, _⟩ := hpass (self, h)
  have hr1 := vtkMap.AddTiles_render_frame Hidden
    (vtkMap.AddTiles_select Zoom bottomLeft topRight (self, h)).1
    (vtkMap.AddTiles_select Zoom bottomLeft topRight (self, h)).2
  have e1 : vtkMap.AddTiles Hidden Zoom bottomLeft topRight (self, h)
      = vtkMap.AddTiles_render Hidden
          (vtkMap.AddTiles_select Zoom bottomLeft topRight (self, h)).1
          (vtkMap.AddTiles_select Zoom bottomLeft topRight (self, h)).2 := rfl
  have hl1 : ∀ key, (vtkMap.AddTiles Hidden Zoom bottomLeft topRight (self, h)).1.lookup key
      = (vtkMap.AddTiles_select Zoom bottomLeft topRight (self, h)).1.lookup key := by
    intro key
    rw [e1]
    simp only [vtkMap.lookup, hr1.1]
  have hall : ∀ key ∈ K,
      (vtkMap.AddTiles Hidden Zoom bottomLeft topRight (self, h)).1.lookup key ≠ none := by
    intro key hk
    rw [hl1]
    exact a2 key hk
  obtain ⟨_, _, b3, b4, _⟩ := hpass (vtkMap.AddTiles Hidden Zoom bottomLeft topRight (self, h))
  obtain ⟨n2, v2, c2, l2⟩ := b4 hall
  have hr2 := vtkMap.AddTiles_render_frame Hidden
    (vtkMap.AddTiles_select Zoom bottomLeft topRight
      (vtkMap.AddTiles Hidden Zoom bottomLeft topRight (self, h))).1
    (vtkMap.AddTiles_select Zoom bottomLeft topRight
      (vtkMap.AddTiles Hidden Zoom bottomLeft topRight (self, h))).2
  have e2 : vtkMap.AddTiles Hidden Zoom bottomLeft topRight
        (vtkMap.AddTiles Hidden Zoom bottomLeft topRight (self, h))
      = vtkMap.AddTiles_render Hidden
          (vtkMap.AddTiles_select Zoom bottomLeft topRight
            (vtkMap.AddTiles Hidden Zoom bottomLeft topRight (self, h))).1
          (vtkMap.AddTiles_select Zoom bottomLeft topRight
            (vtkMap.AddTiles Hidden Zoom bottomLeft topRight (self, h))).2 := rfl
  have hpend1 : (vtkMap.AddTiles_select Zoom bottomLeft topRight (self, h)).1.NewPendingTiles
      = K.filterMap (vtkMap.AddTiles Hidden Zoom bottomLeft topRight (self, h)).1.lookup := by
    rw [a3, hp, List.nil_append]
    apply List.filterMap_congr
    intro key _
    exact (hl1 key).symm
  refine ⟨K, hK, hpend1, hall, ?_, ?_, ?_, ?_, ?_⟩
  · rw [b3, hpend1]
    have : (vtkMap.AddTiles Hidden Zoom bottomLeft topRight (self, h)).1.NewPendingTiles
        = [] := by rw [e1]; exact hr1.2.2.2.1
    rw [this, List.nil_append]
    apply List.filterMap_congr
    intro key _
    exact l2 key
  · rw [e2, hr2.2.2.2.2.1, n2]
  · rw [e2, hr2.2.2.2.2.2, v2]
  · rw [e2, hr2.2.1, c2]
  · intro key
    rw [← l2 key, e2]
    simp only [vtkMap.lookup, hr2.1]

/-- Claim C11: two update passes with the same viewport inputs. For
`vtkOsmLayer::AddTiles` (on a layer attached to a map, with a cache directory and no null
pointer in `CachedTiles`): both passes return; the keys the selector produces in the
second pass are those of the first, each once, and after the first pass a tile is cached
under each of them; the vector handed to `RenderTiles` in the second pass holds the tiles
cached under these keys and is a rearrangement of the vector of the first pass; the
second pass emits no tile spec, creates no object, downloads and reports nothing, and
leaves `CachedTiles` and the pointer held for every key as they were. For
`vtkMap::AddTiles` (no tile pending at the start): the loops of the second pass make the
same tiles pending as those of the first, one for each selected key, and the second pass
creates no object, downloads and reports nothing, and leaves `CachedActors` and the
pointer held for every key as they were. -/
theorem C11_second_pass_renders_same_tiles (layer : vtkOsmLayer) (view : Viewport) (h : Host)
    (storage dir : String) (Hidden : Int) (map : vtkMap)
    (hm : layer.Map = some storage) (hd : layer.CacheDirectory = some dir)
    (hc : derefAll layer.CachedTiles ≠ none) (hp : map.NewPendingTiles = []) :
    (∃ r1 r2, layer.AddTiles view h = some r1 ∧ r1.layer.AddTiles view r1.host = some r2 ∧
      r2.selected.keys = r1.selected.keys ∧ r1.selected.keys.Nodup ∧
      (∀ key ∈ r1.selected.keys, r1.layer.lookup key ≠ none) ∧
      r2.rendered = (r1.selected.keys.filterMap r1.layer.lookup).map some ∧
      r2.rendered.Perm r1.rendered ∧
      r2.selected.tileSpecs = [] ∧
      r2.host.next = r1.host.next ∧ r2.host.events = r1.host.events ∧
      r2.layer.CachedTiles = r1.layer.CachedTiles ∧
      ∀ key, r2.layer.lookup key = r1.layer.lookup key) ∧
    (∃ K : List (Int × Int × Int), K.Nodup ∧
      (vtkMap.AddTiles_select view.Zoom view.bottomLeft view.topRight (map, h)).1.NewPendingTiles
        = K.filterMap
            (vtkMap.AddTiles Hidden view.Zoom view.bottomLeft view.topRight (map, h)).1.lookup ∧
      (∀ key ∈ K,
        (vtkMap.AddTiles Hidden view.Zoom view.bottomLeft view.topRight (map, h)).1.lookup key
          ≠ none) ∧
      (vtkMap.AddTiles_select view.Zoom view.bottomLeft view.topRight
          (vtkMap.AddTiles Hidden view.Zoom view.bottomLeft view.topRight
            (map, h))).1.NewPendingTiles
        = (vtkMap.AddTiles_select view.Zoom view.bottomLeft view.topRight
            (map, h)).1.NewPendingTiles ∧
      (vtkMap.AddTiles Hidden view.Zoom view.bottomLeft view.topRight
          (vtkMap.AddTiles Hidden view.Zoom view.bottomLeft view.topRight (map, h))).2.next
        = (vtkMap.AddTiles Hidden view.Zoom view.bottomLeft view.topRight (map, h)).2.next ∧
      (vtkMap.AddTiles Hidden view.Zoom view.bottomLeft view.topRight
          (vtkMap.AddTiles Hidden view.Zoom view.bottomLeft view.topRight (map, h))).2.events
        = (vtkMap.AddTiles Hidden view.Zoom view.bottomLeft view.topRight (map, h)).2.events ∧
      (vtkMap.AddTiles Hidden view.Zoom view.bottomLeft view.topRight
          (vtkMap.AddTiles Hidden view.Zoom view.bottomLeft view.topRight
            (map, h))).1.CachedActors
        = (vtkMap.AddTiles Hidden view.Zoom view.bottomLeft view.topRight
            (map, h)).1.CachedActors ∧
      ∀ key, (vtkMap.AddTiles Hidden view.Zoom view.bottomLeft view.topRight
          (vtkMap.AddTiles Hidden view.Zoom view.bottomLeft view.topRight
            (map, h))).1.lookup key
        = (vtkMap.AddTiles Hidden view.Zoom view.bottomLeft view.topRight
            (map, h)).1.lookup key) := by
  refine ⟨?_, vtkMap.AddTiles_second_pass Hidden view.Zoom view.bottomLeft view.topRight map h
    hp⟩
  cases hr : layer.Renderer with
  | false =>
    have e : layer.AddTiles view h = some
        { layer := layer, host := h, selected := Selection.start layer, rendered := [] } := by
      unfold vtkOsmLayer.AddTiles
      simp [hr]
    refine ⟨_, _, e, e, rfl, ?_, ?_, rfl, List.Perm.refl _, rfl, rfl, rfl, rfl, fun _ => rfl⟩
    · simp [Selection.start, Selection.keys]
    · simp [Selection.start, Selection.keys]
  | true =>
    obtain ⟨cached, hc⟩ := Option.ne_none_iff_exists'.mp hc
    obtain ⟨K, hK, hstep⟩ := vtkOsmLayer.AddTiles_select_step view
    obtain ⟨r1, new, e1, rs1, rr1, c1, l1, n1, d1, m1, p1, _⟩ :=
      vtkOsmLayer.AddTiles_finish_result K hK layer (vtkOsmLayer.AddTiles_select view layer)
        h dir cached (hstep layer) hr hd hc
    have hk1 : r1.selected.keys = K := by rw [rs1]; exact (hstep layer).from_start.1
    -- after the first pass the cache holds a tile for every key of `K`
    have hall : ∀ key ∈ K, r1.layer.lookup key ≠ none := by
      intro key hkey
      cases hl : layer.lookup key with
      | some t =>
        rw [l1 key (by simp [List.mem_filter, hl]), hl]
        simp
      | none =>
        have hmem : key ∈ K.filter (fun key => (layer.lookup key).isNone) := by
          simp [List.mem_filter, hkey, hl]
        have : r1.layer.lookup key ∈ (K.filter (fun key => (layer.lookup key).isNone)).map
            r1.layer.lookup := List.mem_map_of_mem _ hmem
        rw [n1, List.mem_map] at this
        obtain ⟨a, _, ha⟩ := this
        rw [← ha]
        simp
    have hc1 : derefAll r1.layer.CachedTiles = some (cached ++ new) := by
      rw [c1]
      exact derefAll_append_map_some _ _ _ hc
    obtain ⟨r2, new2, e2, rs2, rr2, c2, l2, n2, _, _, _, z2⟩ :=
      vtkOsmLayer.AddTiles_finish_result K hK r1.layer
        (vtkOsmLayer.AddTiles_select view r1.layer) r1.host dir (cached ++ new)
        (hstep r1.layer) (p1.trans hr) (d1.trans hd) hc1
    have hk2 : r2.selected.keys = K := by rw [rs2]; exact (hstep r1.layer).from_start.1
    have hfilter : K.filter (fun key => (r1.layer.lookup key).isNone) = [] := by
      rw [List.filter_eq_nil_iff]
      intro key hkey
      have := hall key hkey
      cases hl : r1.layer.lookup key with
      | none => exact absurd hl this
      | some t => simp
    have hspecs : (vtkOsmLayer.AddTiles_select view r1.layer).tileSpecs = [] := by
      have h8 := (hstep r1.layer).from_start.2.2.2.2.2.2.2
      rw [hfilter] at h8
      exact List.map_eq_nil_iff.mp h8
    obtain ⟨hnew2, hnext, hev⟩ := z2 hspecs
    refine ⟨r1, r2, ?_, ?_, ?_, ?_, ?_, ?_, ?_, ?_, hnext, hev, ?_, ?_⟩
    · unfold vtkOsmLayer.AddTiles
      simp [hr, hm, e1]
    · unfold vtkOsmLayer.AddTiles
      simp [p1, hr, m1, hm, e2]
    · rw [hk1, hk2]
    · rw [hk1]; exact hK
    · rw [hk1]; exact hall
    · rw [rr2, hnew2, hk1]
      simp
    · rw [rr2, rr1, hnew2]
      simp only [List.map_nil, List.append_nil, ← List.map_append]
      apply List.Perm.map
      -- split `K` into the keys that were cached before the first pass and the others
      have hsplit := (List.filter_append_perm (fun key => (layer.lookup key).isSome) K).symm
      have h1 := hsplit.filterMap r1.layer.lookup
      rw [List.filterMap_append] at h1
      refine h1.trans ?_
      have ha : (K.filter (fun key => (layer.lookup key).isSome)).filterMap r1.layer.lookup
          = K.filterMap layer.lookup := by
        apply filterMap_filter_isSome
        intro key hsome
        apply l1
        simp only [List.mem_filter, not_and]
        intro _
        cases hl : layer.lookup key with
        | none => rw [hl] at hsome; exact absurd hsome (by decide)
        | some t => simp
      have hb : (K.filter (fun key => !(layer.lookup key).isSome)).filterMap r1.layer.lookup
          = new := by
        apply filterMap_of_map_eq_map_some
        rw [← n1]
        congr 2
        funext key
        cases layer.lookup key <;> rfl
      rw [ha, hb]
    · rw [rs2]; exact hspecs
    · rw [c2, hnew2]
      simp
    · intro key
      apply l2
      rw [hfilter]
      simp

/-! ## The statements on passes at sample inputs -/

/-- Claim C11 at a layer and a `vtkMap` without cached tiles and the full-world viewport
at zoom 1. -/
theorem C11_witness_fresh_layer :
    ∃ r1 r2,
      vtkOsmLayer.sample.AddTiles (Viewport.fullWorld 1) (Host.ofProps []) = some r1 ∧
      r1.layer.AddTiles (Viewport.fullWorld 1) r1.host = some r2 ∧
      r2.selected.keys = r1.selected.keys ∧ r2.rendered.Perm r1.rendered ∧
      r2.selected.tileSpecs = [] ∧ r2.layer.CachedTiles = r1.layer.CachedTiles := by
  obtain ⟨r1, r2, e1, e2, k, _, _, _, p, s, _, _, c, _⟩ :=
    (C11_second_pass_renders_same_tiles vtkOsmLayer.sample (Viewport.fullWorld 1)
      (Host.ofProps []) "/tmp" "/tmp/tile.openstreetmap.org" 0
      (vtkMap.New (fun _ => vtkMapTile.New)) rfl rfl
      (by simp [vtkOsmLayer.sample, vtkOsmLayer.New, derefAll]) rfl).1
  exact ⟨r1, r2, e1, e2, k, p, s, c⟩

/-- Claim C12 at a layer that holds the tile at address 5 under the key `(0, 0, 0)`. -/
theorem C12_witness_one_cached_tile :
    ∃ r, (vtkOsmLayer.sample.AddTileToCache 0 0 0 (some 5)).AddTiles (Viewport.fullWorld 0)
        (Host.ofProps []) = some r ∧
      ((vtkOsmLayer.sample.AddTileToCache 0 0 0 (some 5)).GetCachedTile 0 0 0).1 = some 5 ∧
      (r.layer.GetCachedTile 0 0 0).1 = some 5 := by
  obtain ⟨r, e, keep, _⟩ :=
    C12_pass_keeps_cached_tiles (vtkOsmLayer.sample.AddTileToCache 0 0 0 (some 5))
      (Viewport.fullWorld 0) (Host.ofProps []) "/tmp" "/tmp/tile.openstreetmap.org" rfl rfl
      (by simp [vtkOsmLayer.sample, vtkOsmLayer.New, vtkOsmLayer.AddTileToCache, derefAll])
  exact ⟨r, e, rfl, keep 0 0 0 5 rfl⟩

/-- Claim C16 at the tiles 0 and 1, whose corners are `(0, 0, 1, 1)` and `(1, 1, 2, 2)`:
the borders are `(0, 0, 2, 2)`. -/
theorem C16_witness_two_tiles :
    ∃ r, vtkOsmLayer.sample.RenderTiles (Host.ofProps []) ([0, 1].map some) = some r ∧
      ((∀ t ∈ [0, 1], r.1.TileBorders0 ≤ (vtkOsmLayer.sample.objects t).Corners0) ∧
        ∃ t ∈ [0, 1], r.1.TileBorders0 = (vtkOsmLayer.sample.objects t).Corners0) ∧
      ((∀ t ∈ [0, 1], r.1.TileBorders1 ≤ (vtkOsmLayer.sample.objects t).Corners1) ∧
        ∃ t ∈ [0, 1], r.1.TileBorders1 = (vtkOsmLayer.sample.objects t).Corners1) ∧
      ((∀ t ∈ [0, 1], (vtkOsmLayer.sample.objects t).Corners2 ≤ r.1.TileBorders2) ∧
        ∃ t ∈ [0, 1], r.1.TileBorders2 = (vtkOsmLayer.sample.objects t).Corners2) ∧
      ((∀ t ∈ [0, 1], (vtkOsmLayer.sample.objects t).Corners3 ≤ r.1.TileBorders3) ∧
        ∃ t ∈ [0, 1], r.1.TileBorders3 = (vtkOsmLayer.sample.objects t).Corners3) :=
  (C16_RenderTiles_sets_borders_to_extent vtkOsmLayer.sample (Host.ofProps []) [0, 1]).2
    (by decide) rfl (by simp [vtkOsmLayer.sample, vtkOsmLayer.New, derefAll])

/-- Claim C17 at a renderer holding the tile actors 10 and 11 and the other props 77 and
78: afterwards the other props are 77, 78, as before. -/
theorem C17_witness_two_other_props :
    ((vtkMap.sample.AddTiles_render 0 (Host.ofProps [10, 77, 11, 78])).2.ViewProps.filter
        (fun p => decide (some p ∉ vtkMap.sample.CachedActors)) = [77, 78]) ∧
    (vtkMap.sample.AddTiles_render 0 (Host.ofProps [10, 77, 11, 78])).2.ViewProps.Nodup :=
  ⟨(C17_other_props_survive_render 0 vtkMap.sample (Host.ofProps [10, 77, 11, 78])
      (by decide) (by decide) (by decide)).1.trans (by decide),
   (C17_other_props_survive_render 0 vtkMap.sample (Host.ofProps [10, 77, 11, 78])
      (by decide) (by decide) (by decide)).2.1⟩

/-- Claim C18 at a layer that holds the tile at address 5, whose actor 15 is among the
renderer's props. -/
theorem C18_witness_one_cached_tile :
    ∃ r, (vtkOsmLayer.sample.AddTileToCache 0 0 0 (some 5)).SetMapTileServer
        (Host.ofProps [15, 77]) "tile.example.org" "(c) example" "jpg" = some r ∧
      r.1.CachedTiles = [] ∧ r.1.CachedTilesMap = [] ∧ 15 ∉ r.2.ViewProps ∧
      (r.1.GetCachedTile 0 0 0).1 = none := by
  obtain ⟨r, e, c1, c2, ha, hg, _⟩ :=
    C18_SetMapTileServer_clears_cache (vtkOsmLayer.sample.AddTileToCache 0 0 0 (some 5))
      (Host.ofProps [15, 77]) "tile.example.org" "(c) example" "jpg" "/tmp" [5] rfl
      (Or.inr rfl) rfl rfl (by decide)
  exact ⟨r, e, c1, c2, ha 5 (List.mem_singleton.mpr rfl) 15 rfl, hg 0 0 0⟩

/-! ## No stale tile from `GetCachedTile` -/

theorem FlatCache.mapCalls_of_no_add (cs : List MapCacheCall) :
    ∀ (c : FlatCache) (zoom x y : Int),
      (∀ t, MapCacheCall.AddTileToCache zoom x y t ∉ cs) →
      FlatCache.mapCalls c cs (zoom, x, y) = c (zoom, x, y) := by
  induction cs with
  | nil => intro c zoom x y _; rfl
  | cons op cs ih =>
    intro c zoom x y h
    cases op with
    | AddTileToCache z1 x1 y1 t1 =>
      have hne : (zoom, x, y) ≠ (z1, x1, y1) := by
        intro he
        simp only [Prod.mk.injEq] at he
        obtain ⟨rfl, rfl, rfl⟩ := he
        exact h t1 (List.mem_cons_self _ _)
      simp only [FlatCache.mapCalls]
      rw [ih _ zoom x y (fun t ht => h t (List.mem_cons_of_mem _ ht))]
      simp [FlatCache.insert, hne]
    | GetCachedTile z1 x1 y1 =>
      simp only [FlatCache.mapCalls]
      exact ih c zoom x y (fun t ht => h t (List.mem_cons_of_mem _ ht))

/-- A key that no `AddTileToCache` of the call sequence names reads as the null pointer,
in the cache of a layer and in the cache of a `vtkMap`. -/
theorem GetCachedTile_of_no_add :
    (∀ (objects : Nat → vtkMapTile) (cs : List CacheCall) (zoom x y : Int),
      (∀ t, CacheCall.AddTileToCache zoom x y t ∉ cs) →
      (((vtkOsmLayer.New objects).calls cs).GetCachedTile zoom x y).1 = none) ∧
    (∀ (objects : Nat → vtkMapTile) (cs : List MapCacheCall) (zoom x y : Int),
      (∀ t, MapCacheCall.AddTileToCache zoom x y t ∉ cs) →
      (((vtkMap.New objects).calls cs).GetCachedTile zoom x y).1 = none) := by
  constructor
  · intro objects cs zoom x y h
    simp only [vtkOsmLayer.GetCachedTile, TileMap.getCached_fst]
    rw [vtkOsmLayer.lookup_calls cs (vtkOsmLayer.New objects) FlatCache.empty
      (by intro z a b; rfl) zoom x y, FlatCache.calls_of_no_add cs _ zoom x y h]
    rfl
  · intro objects cs zoom x y h
    simp only [vtkMap.GetCachedTile, TileMap.getCached_fst]
    rw [vtkMap.lookup_mapCalls cs (vtkMap.New objects) FlatCache.empty
      (by intro z a b; rfl) zoom x y, FlatCache.mapCalls_of_no_add cs _ zoom x y h]
    rfl

/-- Claim C22 as stated fails: there is no cache state reached by `AddTileToCache` (and
`GetCachedTile`) calls and no key whose zoom and x levels exist in the nested map while
no tile was ever inserted under the key, for which `GetCachedTile` returns a tile; neither
in `vtkOsmLayer` nor in `vtkMap`. -/
theorem C22_counterexample_no_stale_tile :
    (¬ ∃ (objects : Nat → vtkMapTile) (cs : List CacheCall) (zoom x y : Int),
      (∃ xm ym, StdMap.find ((vtkOsmLayer.New objects).calls cs).CachedTilesMap zoom = some xm ∧
        StdMap.find xm x = some ym) ∧
      (∀ t, CacheCall.AddTileToCache zoom x y t ∉ cs) ∧
      (((vtkOsmLayer.New objects).calls cs).GetCachedTile zoom x y).1 ≠ none) ∧
    (¬ ∃ (objects : Nat → vtkMapTile) (cs : List MapCacheCall) (zoom x y : Int),
      (∃ xm ym, StdMap.find ((vtkMap.New objects).calls cs).CachedTiles zoom = some xm ∧
        StdMap.find xm x = some ym) ∧
      (∀ t, MapCacheCall.AddTileToCache zoom x y t ∉ cs) ∧
      (((vtkMap.New objects).calls cs).GetCachedTile zoom x y).1 ≠ none) := by
  constructor
  · rintro ⟨objects, cs, zoom, x, y, _, hno, hne⟩
    exact hne (GetCachedTile_of_no_add.1 objects cs zoom x y hno)
  · rintro ⟨objects, cs, zoom, x, y, _, hno, hne⟩
    exact hne (GetCachedTile_of_no_add.2 objects cs zoom x y hno)

/-- Claim C22, amended: in every cache state reached from the empty cache by
`AddTileToCache` and `GetCachedTile` calls, for every key under which no tile was ever
inserted, `GetCachedTile` returns the null pointer, also when the zoom and x levels
of the key exist in the nested map; in `vtkOsmLayer` and in `vtkMap`. -/
theorem C22_GetCachedTile_never_returns_stale_tile (objects : Nat → vtkMapTile)
    (cs : List CacheCall) (ms : List MapCacheCall) (zoom x y : Int)
    (hc : ∀ t, CacheCall.AddTileToCache zoom x y t ∉ cs)
    (hm : ∀ t, MapCacheCall.AddTileToCache zoom x y t ∉ ms) :
    (((vtkOsmLayer.New objects).calls cs).GetCachedTile zoom x y).1 = none ∧
    (((vtkMap.New objects).calls ms).GetCachedTile zoom x y).1 = none :=
  ⟨GetCachedTile_of_no_add.1 objects cs zoom x y hc,
   GetCachedTile_of_no_add.2 objects ms zoom x y hm⟩

/-- Claim C22, amended, at the cache that holds the tile at address 5 under `(1, 2, 3)`:
the zoom level 1 and the x level 2 exist, and `GetCachedTile(1, 2, 4)` returns null. -/
theorem C22_witness_y_entry_missing :
    (∃ xm ym,
      StdMap.find ((vtkOsmLayer.New (fun _ => vtkMapTile.New)).calls
        [CacheCall.AddTileToCache 1 2 3 (some 5)]).CachedTilesMap 1 = some xm ∧
      StdMap.find xm 2 = some ym) ∧
    (((vtkOsmLayer.New (fun _ => vtkMapTile.New)).calls
      [CacheCall.AddTileToCache 1 2 3 (some 5)]).GetCachedTile 1 2 4).1 = none ∧
    (((vtkMap.New (fun _ => vtkMapTile.New)).calls
      [MapCacheCall.AddTileToCache 1 2 3 5]).GetCachedTile 1 2 4).1 = none :=
  ⟨⟨_, _, rfl, rfl⟩,
   C22_GetCachedTile_never_returns_stale_tile (fun _ => vtkMapTile.New)
    [CacheCall.AddTileToCache 1 2 3 (some 5)] [MapCacheCall.AddTileToCache 1 2 3 5] 1 2 4
    (by simp) (by simp)⟩

/-! ## Image keys without separators -/

/-- Claim C29, the code at a failing input: at zoom 4 the tile `vtkMap::AddTiles` creates
for row 1 and column 11 and the tile it creates for row 11 and column 1 both get the
image key `4111`, while their image sources, written with separators, differ. Both
triples are valid: rows and columns are in `[0, 2^4)`. -/
theorem C29_image_keys_collide :
    ((0 : Int) ≤ 1 ∧ (1 : Int) < 2 ^ 4 ∧ (0 : Int) ≤ 11 ∧ (11 : Int) < 2 ^ 4) ∧
    ((vtkMap.AddTiles_cell 4 1 11
        (vtkMap.New (fun _ => vtkMapTile.New), Host.ofProps [])).1.objects 0).ImageKey
      = "4111" ∧
    ((vtkMap.AddTiles_cell 4 11 1
        (vtkMap.New (fun _ => vtkMapTile.New), Host.ofProps [])).1.objects 0).ImageKey
      = "4111" ∧
    ((vtkMap.AddTiles_cell 4 1 11
        (vtkMap.New (fun _ => vtkMapTile.New), Host.ofProps [])).1.objects 0).ImageSource
      = "http://tile.openstreetmap.org/4/1/11.png" ∧
    ((vtkMap.AddTiles_cell 4 11 1
        (vtkMap.New (fun _ => vtkMapTile.New), Host.ofProps [])).1.objects 0).ImageSource
      = "http://tile.openstreetmap.org/4/11/1.png" ∧
    (vtkMap.AddTiles_cell 4 1 11
        (vtkMap.New (fun _ => vtkMapTile.New), Host.ofProps [])).1.NewPendingTiles = [0] := by
  refine ⟨by decide, by decide, by decide, by decide, by decide, by decide⟩

/-! ## Zoom level and camera distance -/

theorem computeZoomLevel_loop_eq_some (w : ℝ) (n : Nat) :
    ∀ i k : Nat, computeZoomLevel_loop w i n = some k ↔
      i ≤ k ∧ k < i + n ∧ w ≥ 360 / (2 : ℝ) ^ k ∧
        ∀ j, i ≤ j → j < k → w < 360 / (2 : ℝ) ^ j := by
  induction n with
  | zero =>
    intro i k
    simp only [computeZoomLevel_loop, add_zero]
    constructor
    · intro h; cases h
    · rintro ⟨h1, h2, _⟩; omega
  | succ n ih =>
    intro i k
    unfold computeZoomLevel_loop
    by_cases hw : w ≥ 360 / (2 : ℝ) ^ i
    · simp only [hw, if_true, Option.some.injEq]
      constructor
      · rintro rfl
        exact ⟨le_refl _, by omega, hw, fun j h1 h2 => by omega⟩
      · rintro ⟨h1, _, _, h4⟩
        by_contra hne
        have hlt : i < k := lt_of_le_of_ne h1 hne
        exact absurd hw (not_le.mpr (h4 i (le_refl _) hlt))
    · simp only [hw, if_false]
      rw [ih (i + 1) k]
      constructor
      · rintro ⟨h1, h2, h3, h4⟩
        refine ⟨by omega, by omega, h3, ?_⟩
        intro j hj1 hj2
        rcases Nat.eq_or_lt_of_le hj1 with hj | hj
        · rw [← hj]; exact not_le.mp hw
        · exact h4 j hj hj2
      · rintro ⟨h1, h2, h3, h4⟩
        have hne : i ≠ k := by
          rintro rfl
          exact hw h3
        refine ⟨by omega, by omega, h3, ?_⟩
        intro j hj1 hj2
        exact h4 j (by omega) hj2

theorem computeZoomLevel_loop_eq_none (w : ℝ) (n : Nat) :
    ∀ i : Nat, computeZoomLevel_loop w i n = none ↔
      ∀ j, i ≤ j → j < i + n → w < 360 / (2 : ℝ) ^ j := by
  induction n with
  | zero =>
    intro i
    simp only [computeZoomLevel_loop, add_zero, true_iff]
    intro j h1 h2; omega
  | succ n ih =>
    intro i
    unfold computeZoomLevel_loop
    by_cases hw : w ≥ 360 / (2 : ℝ) ^ i
    · simp only [hw, if_true]
      constructor
      · intro h; cases h
      · intro h
        exact absurd hw (not_le.mpr (h i (le_refl _) (by omega)))
    · simp only [hw, if_false]
      rw [ih (i + 1)]
      constructor
      · intro h j hj1 hj2
        rcases Nat.eq_or_lt_of_le hj1 with hj | hj
        · rw [← hj]; exact not_le.mp hw
        · exact h j hj (by omega)
      · intro h j hj1 hj2
        exact h j (by omega) (by omega)

theorem threesixty_div_anti {i j : Nat} (h : i ≤ j) :
    (360 : ℝ) / (2 : ℝ) ^ j ≤ 360 / (2 : ℝ) ^ i := by
  apply div_le_div_of_nonneg_left (by norm_num) (by positivity)
  exact pow_le_pow_right₀ (by norm_num) h

theorem threesixty_div_strict_anti {i j : Nat} (h : i < j) :
    (360 : ℝ) / (2 : ℝ) ^ j < 360 / (2 : ℝ) ^ i := by
  apply div_lt_div_of_pos_left (by norm_num) (by positivity)
  exact pow_lt_pow_right₀ (by norm_num) h

/-- Claim C24: `computeZoomLevel` returns `i` exactly when `i` is the least value in
`[0, 19]` with `width >= 360 / 2^i`, where `width = position.z * sin(viewAngle)`; the scan
ends without a `return` exactly when `width < 360 / 2^19`, in particular whenever
`width <= 0`. -/
theorem C24_computeZoomLevel_least_or_undefined (cam : vtkCamera) :
    (∀ i, computeZoomLevel cam = some i ↔
      (i < 20 ∧ computeZoomLevel_width cam ≥ 360 / (2 : ℝ) ^ i ∧
        ∀ j, j < i → computeZoomLevel_width cam < 360 / (2 : ℝ) ^ j)) ∧
    (computeZoomLevel cam = none ↔ computeZoomLevel_width cam < 360 / (2 : ℝ) ^ 19) ∧
    (computeZoomLevel_width cam ≤ 0 → computeZoomLevel cam = none) := by
  have hnone : computeZoomLevel cam = none ↔
      computeZoomLevel_width cam < 360 / (2 : ℝ) ^ 19 := by
    unfold computeZoomLevel
    simp only
    rw [computeZoomLevel_loop_eq_none]
    constructor
    · intro h
      exact h 19 (by omega) (by omega)
    · intro h j _ hj
      exact lt_of_lt_of_le h (threesixty_div_anti (by omega))
  refine ⟨?_, hnone, ?_⟩
  · intro i
    unfold computeZoomLevel
    simp only
    rw [computeZoomLevel_loop_eq_some]
    constructor
    · rintro ⟨_, h2, h3, h4⟩
      exact ⟨by omega, h3, fun j hj => h4 j (Nat.zero_le _) hj⟩
    · rintro ⟨h1, h2, h3⟩
      exact ⟨Nat.zero_le _, by omega, h2, fun j _ hj => h3 j hj⟩
  · intro h
    rw [hnone]
    exact lt_of_le_of_lt h (by positivity)

theorem sin_RadiansFromDegrees_90 : Real.sin (RadiansFromDegrees 90) = 1 := by
  have : RadiansFromDegrees 90 = Real.pi / 2 := by
    unfold RadiansFromDegrees
    ring
  rw [this, Real.sin_pi_div_two]

theorem sin_RadiansFromDegrees_pos (a : ℝ) (h1 : 0 < a) (h2 : a < 180) :
    0 < Real.sin (RadiansFromDegrees a) := by
  unfold RadiansFromDegrees
  apply Real.sin_pos_of_pos_of_lt_pi
  · have := Real.pi_pos
    positivity
  · have := Real.pi_pos
    calc a * (Real.pi / 180) < 180 * (Real.pi / 180) := by
          apply mul_lt_mul_of_pos_right h2; positivity
      _ = Real.pi := by ring

/-- Claim C24 at a camera at height 360 with a view angle of 90 degrees (zoom level 0) and
at a camera in the map plane (no zoom level). -/
theorem C24_witness_height_360_and_0 :
    computeZoomLevel { ViewAngle := 90, Position := (0, 0, 360), FocalPoint := (0, 0, 0) }
      = some 0 ∧
    computeZoomLevel { ViewAngle := 90, Position := (0, 0, 0), FocalPoint := (0, 0, 0) }
      = none :=
  ⟨((C24_computeZoomLevel_least_or_undefined
      { ViewAngle := 90, Position := (0, 0, 360), FocalPoint := (0, 0, 0) }).1 0).mpr
      ⟨by norm_num, by simp [computeZoomLevel_width, sin_RadiansFromDegrees_90],
        fun j hj => absurd hj (Nat.not_lt_zero j)⟩,
   (C24_computeZoomLevel_least_or_undefined
      { ViewAngle := 90, Position := (0, 0, 0), FocalPoint := (0, 0, 0) }).2.2
      (by simp [computeZoomLevel_width])⟩

/-- Claim C25, the code at failing inputs: for a camera at height 360 with a view angle
of 90 degrees `computeZoomLevel` returns 0, and at height 180 it returns 1. -/
theorem C25_computeZoomLevel_returns_below_2 :
    computeZoomLevel { ViewAngle := 90, Position := (0, 0, 360), FocalPoint := (0, 0, 0) }
      = some 0 ∧
    computeZoomLevel { ViewAngle := 90, Position := (0, 0, 180), FocalPoint := (0, 0, 0) }
      = some 1 := by
  constructor
  · unfold computeZoomLevel
    simp only
    rw [computeZoomLevel_loop_eq_some]
    refine ⟨le_refl _, by norm_num, ?_, fun j h1 h2 => absurd h2 (Nat.not_lt_zero j)⟩
    simp [computeZoomLevel_width, sin_RadiansFromDegrees_90]
  · unfold computeZoomLevel
    simp only
    rw [computeZoomLevel_loop_eq_some]
    refine ⟨by norm_num, by norm_num, ?_, ?_⟩
    · simp only [computeZoomLevel_width, sin_RadiansFromDegrees_90]
      norm_num
    · intro j _ hj
      have : j = 0 := by omega
      subst this
      simp only [computeZoomLevel_width, sin_RadiansFromDegrees_90]
      norm_num

/-- Claim C26: over exact reals, for every zoom level `z` in `[0, 19]` and every view
angle strictly between 0 and 180 degrees, a camera at height
`computeCameraDistance(cam, z)` has `computeZoomLevel(cam) = z`. -/
theorem C26_distance_and_zoom_level_agree (cam : vtkCamera) (z : Nat) (hz : z ≤ 19)
    (h1 : 0 < cam.ViewAngle) (h2 : cam.ViewAngle < 180) :
    computeZoomLevel
      { cam with Position := (cam.Position.1, cam.Position.2.1, computeCameraDistance cam z) }
      = some z := by
  have hs := sin_RadiansFromDegrees_pos cam.ViewAngle h1 h2
  have hw : computeZoomLevel_width
      { cam with Position := (cam.Position.1, cam.Position.2.1, computeCameraDistance cam z) }
      = 360 / (2 : ℝ) ^ z := by
    simp only [computeZoomLevel_width, computeCameraDistance, zpow_natCast]
    field_simp
    ring
  unfold computeZoomLevel
  simp only
  rw [computeZoomLevel_loop_eq_some, hw]
  exact ⟨Nat.zero_le _, by omega, le_refl _, fun j _ hj => threesixty_div_strict_anti hj⟩

/-- Claim C26 at zoom level 3 and a view angle of 30 degrees. -/
theorem C26_witness_zoom3_angle30 :
    computeZoomLevel
      { ViewAngle := 30
        Position := (0, 0, computeCameraDistance
          { ViewAngle := 30, Position := (0, 0, 1), FocalPoint := (0, 0, 0) } 3)
        FocalPoint := (0, 0, 0) } = some 3 :=
  C26_distance_and_zoom_level_agree
    { ViewAngle := 30, Position := (0, 0, 1), FocalPoint := (0, 0, 0) } 3 (by norm_num)
    (by norm_num) (by norm_num)

/-! ## The focal point returned to the map plane -/

theorem vtkOsmLayer.SelectTilesPerspective_DoTile_out (st : Selection) (tilex tiley : Int)
    (zoomLevel : Nat) (renderer : vtkRenderer)
    (h : tilex < 0 ∨ tilex ≥ 2 ^ zoomLevel) :
    vtkOsmLayer.SelectTilesPerspective_DoTile st tilex tiley zoomLevel renderer = (0, st) := by
  unfold vtkOsmLayer.SelectTilesPerspective_DoTile
  have : tilex < 0 ∨ tilex ≥ 2 ^ zoomLevel ∨ tiley < 0 ∨ tiley ≥ 2 ^ zoomLevel := by
    rcases h with h | h
    · exact Or.inl h
    · exact Or.inr (Or.inl h)
  simp only [this, if_true]

theorem vtkOsmLayer.SelectTilesPerspective_scan_out (renderer : vtkRenderer)
    (zoomLevel : Nat) (tbasex tiley : Int) (i : Int) (rest : List Int) (st : Selection)
    (h : tbasex + i < 0 ∨ tbasex + i ≥ 2 ^ zoomLevel) :
    vtkOsmLayer.SelectTilesPerspective_scan renderer zoomLevel tbasex tiley (i :: rest) st
      = st := by
  unfold vtkOsmLayer.SelectTilesPerspective_scan
  simp [vtkOsmLayer.SelectTilesPerspective_DoTile_out st (tbasex + i) tiley zoomLevel renderer h]

theorem vtkOsmLayer.SelectTilesPerspective_rows_out (renderer : vtkRenderer)
    (zoomLevel : Nat) (tbasex tbasey : Int)
    (h : tbasex < 0 ∨ tbasex > 2 ^ zoomLevel) (js : List Int) :
    ∀ st : Selection,
      vtkOsmLayer.SelectTilesPerspective_rows renderer zoomLevel tbasex tbasey js st = st := by
  induction js with
  | nil => intro st; rfl
  | cons j rest ih =>
    intro st
    unfold vtkOsmLayer.SelectTilesPerspective_rows
    simp only
    split_ifs
    · exact ih st
    · rw [offsetsUp_eq, offsetsDown_eq,
        vtkOsmLayer.SelectTilesPerspective_scan_out renderer zoomLevel tbasex (tbasey + j) 0 _ st
          (by omega),
        vtkOsmLayer.SelectTilesPerspective_scan_out renderer zoomLevel tbasex (tbasey + j) (-1)
          _ st (by omega)]
      exact ih st

theorem long2tilex_neg_iff (X : ℝ) (z : ℕ) : long2tilex X z < 0 ↔ X < -180 := by
  have hp : (0 : ℝ) < 2 ^ z := by positivity
  unfold long2tilex
  rw [Int.floor_lt]
  push_cast
  constructor
  · intro h
    by_contra hc
    have : 0 ≤ (X + 180) / 360 * 2 ^ z := by
      apply mul_nonneg _ hp.le
      apply div_nonneg _ (by norm_num)
      linarith [not_lt.mp hc]
    linarith
  · intro h
    apply mul_neg_of_neg_of_pos _ hp
    apply div_neg_of_neg_of_pos _ (by norm_num)
    linarith

theorem long2tilex_gt_iff (X : ℝ) (z : ℕ) :
    long2tilex X z > 2 ^ z ↔ 180 + 360 / (2 : ℝ) ^ z ≤ X := by
  have hp : (0 : ℝ) < 2 ^ z := by positivity
  unfold long2tilex
  rw [gt_iff_lt, Int.lt_iff_add_one_le, Int.le_floor]
  push_cast
  rw [← sub_nonneg]
  have e : (X + 180) / 360 * 2 ^ z - (2 ^ z + 1)
      = (X - (180 + 360 / (2 : ℝ) ^ z)) * (2 ^ z / 360) := by
    field_simp
    ring
  rw [e]
  constructor
  · intro h
    have := nonneg_of_mul_nonneg_left h (by positivity : (0 : ℝ) < 2 ^ z / 360)
    linarith
  · intro h
    apply mul_nonneg _ (by positivity)
    linarith

/-- Claim C27 as stated fails: with the focal point at longitude 180 at zoom 0 the base
column is 2, outside the columns 0 and 1 of zoom level 1, and with every tile on screen
the pass emits four tile specs, among them the one for key `(1, 1, 0)`. -/
theorem C27_counterexample_focal_longitude_180 :
    long2tilex ((180 : ℝ), (0 : ℝ), (0 : ℝ)).1 (0 + 1) ≥ 2 ^ (0 + 1) ∧
    (vtkOsmLayer.SelectTilesPerspective { WorldToView := fun _ _ _ => (0, 0, 0) } 0
        (180, 0, 0) (Selection.start (vtkOsmLayer.New (fun _ => vtkMapTile.New)))).tileSpecs.length
      = 4 ∧
    SelectEvent.lookup 1 1 0 ∈
      (vtkOsmLayer.SelectTilesPerspective { WorldToView := fun _ _ _ => (0, 0, 0) } 0
        (180, 0, 0) (Selection.start (vtkOsmLayer.New (fun _ => vtkMapTile.New)))).trace := by
  have e : ∀ st, vtkOsmLayer.SelectTilesPerspective { WorldToView := fun _ _ _ => (0, 0, 0) } 0
      (180, 0, 0) st
      = vtkOsmLayer.SelectTilesPerspective_loops { WorldToView := fun _ _ _ => (0, 0, 0) } 1
          2 1 st := by
    intro st
    unfold vtkOsmLayer.SelectTilesPerspective
    simp only [long2tilex_180, row_zero]
    rfl
  refine ⟨?_, ?_, ?_⟩
  · simp only [long2tilex_180]
    norm_num
  · rw [e]; decide
  · rw [e]; decide

/-- Claim C27, amended: when the base column is below 0 or above `2^(zoom+1)` — the
longitude of the focal point is below -180, or at least `180 + 360 / 2^(zoom+1)` — the
pass of `SelectTilesPerspective` leaves the state as it is: from fresh vectors, `tiles`
and `tileSpecs` stay empty and not even an on-screen test is made. -/
theorem C27_base_column_outside_selects_nothing (renderer : vtkRenderer) (Zoom : Nat)
    (focalPt : ℝ × ℝ × ℝ) (layer : vtkOsmLayer)
    (h : long2tilex focalPt.1 (Zoom + 1) < 0 ∨ long2tilex focalPt.1 (Zoom + 1) > 2 ^ (Zoom + 1)) :
    (focalPt.1 < -180 ∨ 180 + 360 / (2 : ℝ) ^ (Zoom + 1) ≤ focalPt.1) ∧
    (vtkOsmLayer.SelectTilesPerspective renderer Zoom focalPt (Selection.start layer)).tiles
      = [] ∧
    (vtkOsmLayer.SelectTilesPerspective renderer Zoom focalPt (Selection.start layer)).tileSpecs
      = [] ∧
    (vtkOsmLayer.SelectTilesPerspective renderer Zoom focalPt (Selection.start layer)).trace
      = [] := by
  have e : vtkOsmLayer.SelectTilesPerspective renderer Zoom focalPt (Selection.start layer)
      = Selection.start layer := by
    unfold vtkOsmLayer.SelectTilesPerspective vtkOsmLayer.SelectTilesPerspective_loops
    simp only
    rw [vtkOsmLayer.SelectTilesPerspective_rows_out renderer _ _ _ h,
      vtkOsmLayer.SelectTilesPerspective_rows_out renderer _ _ _ h]
  rw [e]
  refine ⟨?_, rfl, rfl, rfl⟩
  rcases h with h | h
  · exact Or.inl ((long2tilex_neg_iff _ _).mp h)
  · exact Or.inr ((long2tilex_gt_iff _ _).mp h)

/-- Claim C27, amended, at a focal point at longitude -200 at zoom 0. -/
theorem C27_witness_longitude_minus200 :
    (vtkOsmLayer.SelectTilesPerspective { WorldToView := fun _ _ _ => (0, 0, 0) } 0
        (-200, 0, 0) (Selection.start (vtkOsmLayer.New (fun _ => vtkMapTile.New)))).tileSpecs
      = [] :=
  (C27_base_column_outside_selects_nothing { WorldToView := fun _ _ _ => (0, 0, 0) } 0
    (-200, 0, 0) (vtkOsmLayer.New (fun _ => vtkMapTile.New))
    (Or.inl ((long2tilex_neg_iff _ _).mpr (by norm_num)))).2.2.1

/-! ## The cache map and the vector of cached tiles -/

/-- What `RenderTiles` leaves untouched when it returns. -/
theorem vtkOsmLayer.RenderTiles_of_some (self : vtkOsmLayer) (h : Host) (tiles : List TilePtr)
    (r : vtkOsmLayer × Host) (hr : self.RenderTiles h tiles = some r) :
    r.1.CachedTiles = self.CachedTiles ∧ r.1.CachedTilesMap = self.CachedTilesMap ∧
    r.1.objects = self.objects ∧ r.1.CacheDirectory = self.CacheDirectory ∧
    r.1.Map = self.Map ∧ r.1.Renderer = self.Renderer ∧
    r.2.next = h.next ∧ r.2.events = h.events := by
  cases tiles with
  | nil =>
    simp only [vtkOsmLayer.RenderTiles, List.length_nil, gt_iff_lt, lt_self_iff_false,
      if_false, Option.some.injEq] at hr
    subst hr
    exact ⟨rfl, rfl, rfl, rfl, rfl, rfl, rfl, rfl⟩
  | cons p rest =>
    have hren : self.Renderer = true := by
      by_contra hne
      have hf : self.Renderer = false := by simpa using hne
      simp [vtkOsmLayer.RenderTiles, hf] at hr
    have hc : ∃ cached, derefAll self.CachedTiles = some cached := by
      cases hd : derefAll self.CachedTiles with
      | none => simp [vtkOsmLayer.RenderTiles, hren, hd] at hr
      | some cached => exact ⟨cached, rfl⟩
    obtain ⟨cached, hc⟩ := hc
    have ht : ∃ ts, derefAll (p :: rest) = some ts := by
      cases hd : derefAll (p :: rest) with
      | none => simp [vtkOsmLayer.RenderTiles, hren, hc, hd] at hr
      | some ts => exact ⟨ts, rfl⟩
    obtain ⟨ts, ht⟩ := ht
    rw [derefAll_eq_some ht] at hr
    obtain ⟨r2, e2, f⟩ := vtkOsmLayer.RenderTiles_frame self h ts cached hren hc
    rw [e2, Option.some.injEq] at hr
    rw [← hr]
    exact f

theorem vtkOsmLayer.Consistent_AddTileToCache (self : vtkOsmLayer) (zoom x y : Int)
    (tile : TilePtr) (hc : self.Consistent) : (self.AddTileToCache zoom x y tile).Consistent := by
  intro key t hk
  obtain ⟨k0, k1, k2⟩ := key
  simp only [vtkOsmLayer.lookup, vtkOsmLayer.AddTileToCache, TileMap.lookup_store] at hk
  simp only [vtkOsmLayer.AddTileToCache, List.mem_append, List.mem_singleton]
  split_ifs at hk with he
  · exact Or.inr hk.symm
  · exact Or.inl (hc (k0, k1, k2) t hk)

theorem vtkOsmLayer.Consistent_GetCachedTile (self : vtkOsmLayer) (zoom x y : Int)
    (hc : self.Consistent) : (self.GetCachedTile zoom x y).2.Consistent := by
  intro key t hk
  rw [(vtkOsmLayer.lookup_GetCachedTile self zoom x y).2.1 key] at hk
  exact hc key t hk

theorem vtkOsmLayer.Consistent_InitializeTiles (specs : List vtkMapTileSpecInternal) :
    ∀ (st st2 : Materialised), vtkOsmLayer.InitializeTiles st specs = some st2 →
      st.layer.Consistent → st2.layer.Consistent := by
  induction specs with
  | nil =>
    intro st st2 h hc
    simp only [vtkOsmLayer.InitializeTiles, Option.some.injEq] at h
    subst h
    exact hc
  | cons spec rest ih =>
    intro st st2 h hc
    cases hd : st.layer.CacheDirectory with
    | none =>
      simp [vtkOsmLayer.InitializeTiles, vtkOsmLayer.InitializeTiles_spec,
        vtkOsmLayer.MakeFileSystemPath, hd] at h
    | some dir =>
      obtain ⟨st1, e1, _, c1, l1, _⟩ := vtkOsmLayer.InitializeTiles_spec_result st spec dir hd
      simp only [vtkOsmLayer.InitializeTiles, e1] at h
      apply ih st1 st2 h
      intro key t hk
      rw [l1 key] at hk
      rw [c1, List.mem_append, List.mem_singleton]
      split_ifs at hk with he
      · exact Or.inr hk.symm
      · exact Or.inl (hc key t hk)

theorem vtkOsmLayer.Consistent_run (st st2 : vtkOsmLayer × Host) (c : LayerCall)
    (h : vtkOsmLayer.run st c = some st2) (hc : st.1.Consistent) : st2.1.Consistent := by
  cases c with
  | AddTileToCache zoom x y tile =>
    simp only [vtkOsmLayer.run, Option.some.injEq] at h
    subst h
    exact vtkOsmLayer.Consistent_AddTileToCache _ _ _ _ _ hc
  | GetCachedTile zoom x y =>
    simp only [vtkOsmLayer.run, Option.some.injEq] at h
    subst h
    exact vtkOsmLayer.Consistent_GetCachedTile _ _ _ _ hc
  | InitializeTiles tiles tileSpecs =>
    simp only [vtkOsmLayer.run, Option.map_eq_some'] at h
    obtain ⟨m, hm, rfl⟩ := h
    exact vtkOsmLayer.Consistent_InitializeTiles tileSpecs _ m hm hc
  | RenderTiles tiles =>
    simp only [vtkOsmLayer.run] at h
    obtain ⟨f1, f2, _⟩ := vtkOsmLayer.RenderTiles_of_some st.1 st.2 tiles st2 h
    intro key t hk
    simp only [vtkOsmLayer.lookup, f2] at hk
    rw [f1]
    exact hc key t hk
  | RemoveTiles =>
    simp only [vtkOsmLayer.run, Option.map_eq_some'] at h
    obtain ⟨l, hl, rfl⟩ := h
    intro key t hk
    have he : l.CachedTilesMap = [] := by
      unfold vtkOsmLayer.RemoveTiles at hl
      simp only at hl
      split at hl
      · cases hl
      · simp only [Option.some.injEq] at hl
        subst hl
        rfl
    rw [vtkOsmLayer.lookup_of_empty l he key] at hk
    cases hk

theorem vtkOsmLayer.Consistent_runAll (cs : List LayerCall) :
    ∀ st st2 : vtkOsmLayer × Host, vtkOsmLayer.runAll st cs = some st2 →
      st.1.Consistent → st2.1.Consistent := by
  induction cs with
  | nil =>
    intro st st2 h hc
    simp only [vtkOsmLayer.runAll, Option.some.injEq] at h
    subst h
    exact hc
  | cons c rest ih =>
    intro st st2 h hc
    cases hr : vtkOsmLayer.run st c with
    | none => simp [vtkOsmLayer.runAll, hr] at h
    | some st1 =>
      simp only [vtkOsmLayer.runAll, hr] at h
      exact ih st1 st2 h (vtkOsmLayer.Consistent_run st st1 c hr hc)

/-- Claim C28: in every state a layer reaches from an empty cache map through calls of
`AddTileToCache`, `GetCachedTile`, `InitializeTiles`, `RenderTiles` and `RemoveTiles`,
every tile the cache map holds is an element of `CachedTiles`; a following `RemoveTiles`
returns when no element of `CachedTiles` is null, and whenever it returns both containers
are empty. -/
theorem C28_cache_map_within_cached_tiles (layer : vtkOsmLayer) (h : Host)
    (calls : List LayerCall) (st : vtkOsmLayer × Host)
    (h1 : layer.CachedTilesMap = [])
    (hrun : vtkOsmLayer.runAll (layer, h) calls = some st) :
    (∀ zoom x y t, TileMap.lookup st.1.CachedTilesMap zoom x y = some t →
      some t ∈ st.1.CachedTiles) ∧
    (derefAll st.1.CachedTiles ≠ none → ∃ l, st.1.RemoveTiles = some l) ∧
    (∀ l, st.1.RemoveTiles = some l → l.CachedTilesMap = [] ∧ l.CachedTiles = []) := by
  have h0 : layer.Consistent := by
    intro key t hk
    rw [vtkOsmLayer.lookup_of_empty layer h1 key] at hk
    cases hk
  have hc := vtkOsmLayer.Consistent_runAll calls (layer, h) st hrun h0
  refine ⟨fun zoom x y t ht => hc (zoom, x, y) t ht, ?_, ?_⟩
  · intro hd
    obtain ⟨cached, hd⟩ := Option.ne_none_iff_exists'.mp hd
    exact ⟨{ st.1 with CachedTilesMap := [], CachedTiles := [] },
      by simp [vtkOsmLayer.RemoveTiles, hd]⟩
  · intro l hl
    unfold vtkOsmLayer.RemoveTiles at hl
    simp only at hl
    split at hl
    · cases hl
    · simp only [Option.some.injEq] at hl
      subst hl
      exact ⟨rfl, rfl⟩

/-- Claim C28 at a layer after an insertion, a lookup of another key, and an insertion
under the first key again: the map holds the tile 6, and 6 is in `CachedTiles`. -/
theorem C28_witness_three_calls :
    ∃ st, vtkOsmLayer.runAll (vtkOsmLayer.sample, Host.ofProps [])
        [LayerCall.AddTileToCache 1 2 3 (some 5), LayerCall.GetCachedTile 1 2 4,
         LayerCall.AddTileToCache 1 2 3 (some 6)] = some st ∧
      TileMap.lookup st.1.CachedTilesMap 1 2 3 = some 6 ∧ some 6 ∈ st.1.CachedTiles ∧
      ∃ l, st.1.RemoveTiles = some l ∧ l.CachedTilesMap = [] ∧ l.CachedTiles = [] := by
  obtain ⟨a, b, c⟩ := C28_cache_map_within_cached_tiles vtkOsmLayer.sample (Host.ofProps [])
    [LayerCall.AddTileToCache 1 2 3 (some 5), LayerCall.GetCachedTile 1 2 4,
     LayerCall.AddTileToCache 1 2 3 (some 6)] _ rfl rfl
  obtain ⟨l, hl⟩ := b (by decide)
  exact ⟨_, rfl, rfl, a 1 2 3 6 rfl, l, hl, c l hl⟩

/-! ## Downloads of a pass, and passes after a failed fetch -/

theorem vtkMapTile.DownloadImage_downloads (h : Host) (url out : String) :
    ∃ new, (vtkMapTile.DownloadImage h url out).events = h.events ++ new ∧
      ∀ u f, HostEvent.download u f ∈ new → u = url ∧ f = out := by
  unfold vtkMapTile.DownloadImage
  simp only
  split
  · split
    · split
      · exact ⟨[HostEvent.download url out], by simp, by simp⟩
      · exact ⟨[HostEvent.download url out, HostEvent.warning "curl"], by simp, by simp⟩
    · exact ⟨[HostEvent.download url out, HostEvent.error "Not Open"], by simp, by simp⟩
  · exact ⟨[HostEvent.download url out], by simp, by simp⟩

theorem vtkMapTile.InitializeDownload_downloads (t : vtkMapTile) (h : Host) :
    ∃ new, (t.InitializeDownload h).events = h.events ++ new ∧
      ∀ u f, HostEvent.download u f ∈ new → u = t.ImageSource ∧ f = t.ImageFile := by
  unfold vtkMapTile.InitializeDownload
  split
  · exact vtkMapTile.DownloadImage_downloads h _ _
  · exact ⟨[], by simp, by simp⟩

theorem vtkMapTile.Build_downloads (t : vtkMapTile) (h : Host) :
    ∃ new, (t.Build h).2.events = h.events ++ new ∧
      ∀ u f, HostEvent.download u f ∈ new → u = t.ImageSource ∧ f = t.ImageFile := by
  obtain ⟨new, hnew, hd⟩ := vtkMapTile.InitializeDownload_downloads
    { t with Plane := some h.next, TexturePlane := some (h.next + 1) }
    { h with next := h.next + 1 + 1 }
  simp only at hnew hd
  unfold vtkMapTile.Build
  simp only
  split_ifs
  · refine ⟨new ++ [HostEvent.readImage ImageReader.vtkPNGReader t.ImageFile], ?_, ?_⟩
    · simp only [vtkMapTile.Build_finish, hnew, List.append_assoc]
    · intro u f hm
      rcases List.mem_append.mp hm with hm | hm
      · exact hd u f hm
      · simp at hm
  · refine ⟨new ++ [HostEvent.readImage ImageReader.vtkJPEGReader t.ImageFile], ?_, ?_⟩
    · simp only [vtkMapTile.Build_finish, hnew, List.append_assoc]
    · intro u f hm
      rcases List.mem_append.mp hm with hm | hm
      · exact hd u f hm
      · simp at hm
  · refine ⟨new ++ [HostEvent.error ("Unsupported map-tile extension " ++
      GetFilenameLastExtension t.ImageFile)], ?_, ?_⟩
    · simp only [hnew, List.append_assoc]
    · intro u f hm
      rcases List.mem_append.mp hm with hm | hm
      · exact hd u f hm
      · simp at hm

theorem vtkMapTile.Init_downloads (t : vtkMapTile) (h : Host) :
    ∃ new, (t.Init h).2.events = h.events ++ new ∧
      ∀ u f, HostEvent.download u f ∈ new → u = t.ImageSource ∧ f = t.ImageFile := by
  unfold vtkMapTile.Init
  split
  · exact vtkMapTile.Build_downloads t h
  · exact ⟨[], by simp, by simp⟩

/-- The downloads made while one spec is materialised are downloads of the URL of the spec
into the file of the spec; the strings that name the server and the cache directory stay
as they are. -/
theorem vtkOsmLayer.InitializeTiles_spec_downloads (st st2 : Materialised)
    (spec : vtkMapTileSpecInternal)
    (hs : vtkOsmLayer.InitializeTiles_spec st spec = some st2) :
    (∃ new, st2.host.events = st.host.events ++ new ∧
      ∀ u f, HostEvent.download u f ∈ new →
        u = st.layer.MakeUrl spec ∧ st.layer.MakeFileSystemPath spec = some f) ∧
    st2.layer.MapTileServer = st.layer.MapTileServer ∧
    st2.layer.MapTileExtension = st.layer.MapTileExtension ∧
    st2.layer.CacheDirectory = st.layer.CacheDirectory := by
  cases hp : st.layer.MakeFileSystemPath spec with
  | none => simp [vtkOsmLayer.InitializeTiles_spec, hp] at hs
  | some path =>
    simp only [vtkOsmLayer.InitializeTiles_spec, hp, Option.some.injEq] at hs
    subst hs
    refine ⟨?_, rfl, rfl, rfl⟩
    obtain ⟨new, hnew, hd⟩ := vtkMapTile.Init_downloads
      (((vtkMapTile.New.SetCorners spec.Corners0 spec.Corners1 spec.Corners2
        spec.Corners3).SetFileSystemPath path).SetImageSource (st.layer.MakeUrl spec))
      { st.host with next := st.host.next + 1 }
    refine ⟨new, hnew, ?_⟩
    intro u f hm
    obtain ⟨h1, h2⟩ := hd u f hm
    exact ⟨h1, by rw [h2]; rfl⟩

theorem vtkOsmLayer.InitializeTiles_downloads (specs : List vtkMapTileSpecInternal) :
    ∀ (st st2 : Materialised), vtkOsmLayer.InitializeTiles st specs = some st2 →
      ∃ new, st2.host.events = st.host.events ++ new ∧
        ∀ u f, HostEvent.download u f ∈ new →
          ∃ s ∈ specs, u = st.layer.MakeUrl s ∧ st.layer.MakeFileSystemPath s = some f := by
  induction specs with
  | nil =>
    intro st st2 h
    simp only [vtkOsmLayer.InitializeTiles, Option.some.injEq] at h
    subst h
    exact ⟨[], by simp, by simp⟩
  | cons spec rest ih =>
    intro st st2 h
    cases h1 : vtkOsmLayer.InitializeTiles_spec st spec with
    | none => simp [vtkOsmLayer.InitializeTiles, h1] at h
    | some st1 =>
      simp only [vtkOsmLayer.InitializeTiles, h1] at h
      obtain ⟨⟨new1, e1, d1⟩, f1, f2, f3⟩ :=
        vtkOsmLayer.InitializeTiles_spec_downloads st st1 spec h1
      obtain ⟨new2, e2, d2⟩ := ih st1 st2 h
      have hu : ∀ s, st1.layer.MakeUrl s = st.layer.MakeUrl s := by
        intro s
        simp only [vtkOsmLayer.MakeUrl, f1, f2]
      have hp : ∀ s, st1.layer.MakeFileSystemPath s = st.layer.MakeFileSystemPath s := by
        intro s
        simp only [vtkOsmLayer.MakeFileSystemPath, f2, f3]
      refine ⟨new1 ++ new2, by rw [e2, e1, List.append_assoc], ?_⟩
      intro u f hm
      rcases List.mem_append.mp hm with hm | hm
      · obtain ⟨a, b⟩ := d1 u f hm
        exact ⟨spec, List.mem_cons_self _ _, a, b⟩
      · obtain ⟨s, hs, a, b⟩ := d2 u f hm
        exact ⟨s, List.mem_cons_of_mem _ hs, by rw [a, hu], by rw [← hp, b]⟩

theorem vtkOsmLayer.AddTiles_finish_downloads (sel : Selection) (h : Host)
    (r : AddTilesResult) (hfin : vtkOsmLayer.AddTiles_finish sel h = some r) :
    ∀ u f, HostEvent.download u f ∈ r.host.since h →
      ∃ s ∈ sel.tileSpecs, u = sel.layer.MakeUrl s ∧
        sel.layer.MakeFileSystemPath s = some f := by
  have hif : (if sel.tileSpecs.length > 0 then
      vtkOsmLayer.InitializeTiles { layer := sel.layer, host := h, tiles := sel.tiles }
        sel.tileSpecs
      else some { layer := sel.layer, host := h, tiles := sel.tiles })
      = vtkOsmLayer.InitializeTiles { layer := sel.layer, host := h, tiles := sel.tiles }
          sel.tileSpecs := by
    split_ifs with hlen
    · rfl
    · have : sel.tileSpecs = [] := List.length_eq_zero.mp (Nat.eq_zero_of_not_pos hlen)
      rw [this]
      rfl
  unfold vtkOsmLayer.AddTiles_finish at hfin
  simp only [hif] at hfin
  cases hi : vtkOsmLayer.InitializeTiles { layer := sel.layer, host := h, tiles := sel.tiles }
      sel.tileSpecs with
  | none => simp [hi] at hfin
  | some st2 =>
    simp only [hi] at hfin
    cases hr : st2.layer.RenderTiles st2.host st2.tiles with
    | none => simp [hr] at hfin
    | some rr =>
      simp only [hr, Option.some.injEq] at hfin
      subst hfin
      obtain ⟨new, e, d⟩ := vtkOsmLayer.InitializeTiles_downloads sel.tileSpecs _ st2 hi
      have hev := (vtkOsmLayer.RenderTiles_of_some st2.layer st2.host st2.tiles rr hr).2.2.2.2.2.2.2
      intro u f hm
      simp only [Host.since, hev, e, List.drop_left] at hm
      exact d u f hm

theorem Host.since_self (h : Host) : h.since h = [] := by
  simp [Host.since]

/-- One pass of `vtkOsmLayer::AddTiles` on a layer attached to a map, with a cache
directory and no null pointer in `CachedTiles`: it returns and leaves such a layer; every
pointer the cache held is still held; a key the pass handles for which the cache holds a
tile has that tile pushed to `tiles`; every spec has a key the pass handled, for which
the cache held no tile before and holds one after; and every download of the pass is the
download of one of its specs. -/
theorem vtkOsmLayer.AddTiles_pass_result (layer : vtkOsmLayer) (view : Viewport) (h : Host)
    (storage dir : String) (hm : layer.Map = some storage)
    (hd : layer.CacheDirectory = some dir) (hc : derefAll layer.CachedTiles ≠ none) :
    ∃ r, layer.AddTiles view h = some r ∧
      r.layer.Map = some storage ∧ r.layer.CacheDirectory = some dir ∧
      derefAll r.layer.CachedTiles ≠ none ∧
      (∀ key, layer.lookup key ≠ none → r.layer.lookup key = layer.lookup key) ∧
      (∀ key t, key ∈ r.selected.keys → layer.lookup key = some t →
        some t ∈ r.selected.tiles) ∧
      (∀ s ∈ r.selected.tileSpecs, s.ZoomXY ∈ r.selected.keys ∧
        layer.lookup s.ZoomXY = none ∧ r.layer.lookup s.ZoomXY ≠ none) ∧
      (∀ u f, HostEvent.download u f ∈ r.host.since h →
        ∃ s ∈ r.selected.tileSpecs, u = layer.MakeUrl s ∧
          layer.MakeFileSystemPath s = some f) := by
  cases hr : layer.Renderer with
  | false =>
    refine ⟨{ layer := layer, host := h, selected := Selection.start layer, rendered := [] },
      ?_, hm, hd, hc, fun _ _ => rfl, ?_, ?_, ?_⟩
    · unfold vtkOsmLayer.AddTiles
      simp [hr]
    · intro key t hk
      simp [Selection.start, Selection.keys] at hk
    · intro s hs
      simp [Selection.start] at hs
    · intro u f hm
      simp [Host.since_self] at hm
  | true =>
    obtain ⟨cached, hc⟩ := Option.ne_none_iff_exists'.mp hc
    obtain ⟨K, hK, hstep⟩ := vtkOsmLayer.AddTiles_select_step view
    obtain ⟨r, new, e, rs, _, c, l, m, d, p, _, _⟩ := vtkOsmLayer.AddTiles_finish_result K hK
      layer (vtkOsmLayer.AddTiles_select view layer) h dir cached (hstep layer) hr hd hc
    obtain ⟨s1, s2, s3, s4, s5, s6, s7, s8⟩ := (hstep layer).from_start
    have hframe := (hstep layer).2.2.1
    simp only [Selection.start] at hframe
    have hserver : (vtkOsmLayer.AddTiles_select view layer).layer.MapTileServer
        = layer.MapTileServer := by
      have := congrArg vtkOsmLayer.MapTileServer hframe
      exact this
    have hext : (vtkOsmLayer.AddTiles_select view layer).layer.MapTileExtension
        = layer.MapTileExtension := by
      have := congrArg vtkOsmLayer.MapTileExtension hframe
      exact this
    refine ⟨r, ?_, ?_, ?_, ?_, ?_, ?_, ?_, ?_⟩
    · unfold vtkOsmLayer.AddTiles
      simp [hr, hm, e]
    · rw [p, hm]
    · rw [d, hd]
    · rw [c, derefAll_append_map_some _ _ _ hc]
      simp
    · intro key hk
      apply l
      intro hmem
      exact hk (Option.isNone_iff_eq_none.mp (List.mem_filter.mp hmem).2)
    · intro key t hk hl
      rw [rs, s1] at hk
      rw [rs, s7]
      exact List.mem_map_of_mem _ (List.mem_filterMap.mpr ⟨key, hk, hl⟩)
    · intro s hs
      rw [rs] at hs
      have hmem : s.ZoomXY ∈ (vtkOsmLayer.AddTiles_select view layer).tileSpecs.map
          vtkMapTileSpecInternal.ZoomXY := List.mem_map_of_mem _ hs
      rw [s8] at hmem
      refine ⟨?_, Option.isNone_iff_eq_none.mp (List.mem_filter.mp hmem).2, ?_⟩
      · rw [rs, s1]
        exact (List.mem_filter.mp hmem).1
      · have h2 : r.layer.lookup s.ZoomXY ∈ new.map some := by
          rw [← m]
          exact List.mem_map_of_mem _ hmem
        obtain ⟨t, _, ht⟩ := List.mem_map.mp h2
        rw [← ht]
        simp
    · intro u f hmem
      obtain ⟨s, hs, a, b⟩ := vtkOsmLayer.AddTiles_finish_downloads _ h r e u f hmem
      refine ⟨s, by rw [rs]; exact hs, ?_, ?_⟩
      · rw [a]
        simp only [vtkOsmLayer.MakeUrl, hserver, hext]
      · rw [← b]
        simp only [vtkOsmLayer.MakeFileSystemPath, s4, hext]

/-- A sequence of passes on such a layer returns, leaves such a layer, and every pointer
the cache held is still held. -/
theorem vtkOsmLayer.AddTiles_passes_result (storage dir : String) (views : List Viewport) :
    ∀ (layer : vtkOsmLayer) (h : Host), layer.Map = some storage →
      layer.CacheDirectory = some dir → derefAll layer.CachedTiles ≠ none →
      ∃ st, vtkOsmLayer.AddTiles_passes (layer, h) views = some st ∧
        st.1.Map = some storage ∧ st.1.CacheDirectory = some dir ∧
        derefAll st.1.CachedTiles ≠ none ∧
        ∀ key, layer.lookup key ≠ none → st.1.lookup key = layer.lookup key := by
  induction views with
  | nil =>
    intro layer h hm hd hc
    exact ⟨(layer, h), rfl, hm, hd, hc, fun _ _ => rfl⟩
  | cons view rest ih =>
    intro layer h hm hd hc
    obtain ⟨r, e, m, d, c, keep, _⟩ :=
      vtkOsmLayer.AddTiles_pass_result layer view h storage dir hm hd hc
    obtain ⟨st, e2, m2, d2, c2, keep2⟩ := ih r.layer r.host m d c
    refine ⟨st, ?_, m2, d2, c2, ?_⟩
    · simp only [vtkOsmLayer.AddTiles_passes, e]
      exact e2
    · intro key hk
      have h1 := keep key hk
      rw [keep2 key (by rw [h1]; exact hk), h1]

/-- The spec of the tile `(0, 0, 0)` on a host on which every transfer fails: the download
is attempted, the failure is reported, and the tile created at address 0 is stored in the
cache under `(0, 0, 0)` and pushed to `tiles` all the same. -/
theorem vtkOsmLayer.InitializeTiles_spec_on_failing_host :
    ∃ st2, vtkOsmLayer.InitializeTiles_spec
        { layer := vtkOsmLayer.sample, host := Host.failing, tiles := [] }
        { Corners0 := -180, Corners1 := -180, Corners2 := 180, Corners3 := 180,
          ZoomRowCol0 := 0, ZoomRowCol1 := 0, ZoomRowCol2 := 0,
          ZoomXY0 := 0, ZoomXY1 := 0, ZoomXY2 := 0 } = some st2 ∧
      st2.host.events =
        [HostEvent.download "http://tile.openstreetmap.org/0/0/0.png"
          "/tmp/tile.openstreetmap.org/0-0-0.png", HostEvent.warning "curl",
         HostEvent.readImage ImageReader.vtkPNGReader
          "/tmp/tile.openstreetmap.org/0-0-0.png"] ∧
      st2.layer.lookup (0, 0, 0) = some 0 ∧ st2.tiles = [some 0] := by
  refine ⟨_, rfl, ?_, ?_, ?_⟩
  · decide
  · decide
  · decide

/-- Claim C21: a pass of `vtkOsmLayer::AddTiles` on any host, so whether the fetches
succeed or fail, returns with a tile in the cache for the key of every spec it queued.
After any number of further passes that tile is still what `GetCachedTile` returns for
the key, and a later pass that handles the key pushes that tile to `tiles`, queues no spec
with that key, and each of its downloads is the download of one of its own specs, so of
a key other than this one. -/
theorem C21_failed_fetch_is_cached_and_not_retried (layer : vtkOsmLayer) (h : Host)
    (view : Viewport) (later : List Viewport) (view2 : Viewport)
    (storage dir : String) (hm : layer.Map = some storage)
    (hd : layer.CacheDirectory = some dir) (hc : derefAll layer.CachedTiles ≠ none) :
    ∃ r1 st r2, layer.AddTiles view h = some r1 ∧
      vtkOsmLayer.AddTiles_passes (r1.layer, r1.host) later = some st ∧
      st.1.AddTiles view2 st.2 = some r2 ∧
      (∀ s ∈ r1.selected.tileSpecs, ∃ t,
        (r1.layer.GetCachedTile s.ZoomXY0 s.ZoomXY1 s.ZoomXY2).1 = some t ∧
        (st.1.GetCachedTile s.ZoomXY0 s.ZoomXY1 s.ZoomXY2).1 = some t ∧
        (s.ZoomXY ∈ r2.selected.keys → some t ∈ r2.selected.tiles) ∧
        ∀ s2 ∈ r2.selected.tileSpecs, s2.ZoomXY ≠ s.ZoomXY) ∧
      ∀ url file, HostEvent.download url file ∈ r2.host.since st.2 →
        ∃ s2 ∈ r2.selected.tileSpecs, url = st.1.MakeUrl s2 ∧
          st.1.MakeFileSystemPath s2 = some file ∧
          ∀ s ∈ r1.selected.tileSpecs, s2.ZoomXY ≠ s.ZoomXY := by
  obtain ⟨r1, e1, m1, d1, c1, _, _, spec1, _⟩ :=
    vtkOsmLayer.AddTiles_pass_result layer view h storage dir hm hd hc
  obtain ⟨st, e2, m2, d2, c2, keep2⟩ :=
    vtkOsmLayer.AddTiles_passes_result storage dir later r1.layer r1.host m1 d1 c1
  obtain ⟨r2, e3, _, _, _, _, found3, spec3, down3⟩ :=
    vtkOsmLayer.AddTiles_pass_result st.1 view2 st.2 storage dir m2 d2 c2
  have held : ∀ s ∈ r1.selected.tileSpecs, ∃ t, r1.layer.lookup s.ZoomXY = some t ∧
      st.1.lookup s.ZoomXY = some t := by
    intro s hs
    obtain ⟨t, ht⟩ := Option.ne_none_iff_exists'.mp (spec1 s hs).2.2
    exact ⟨t, ht, by rw [keep2 _ (by rw [ht]; simp), ht]⟩
  have fresh : ∀ s ∈ r1.selected.tileSpecs, ∀ s2 ∈ r2.selected.tileSpecs,
      s2.ZoomXY ≠ s.ZoomXY := by
    intro s hs s2 hs2 heq
    obtain ⟨t, _, ht⟩ := held s hs
    have hnone := (spec3 s2 hs2).2.1
    rw [heq, ht] at hnone
    simp at hnone
  refine ⟨r1, st, r2, e1, e2, e3, ?_, ?_⟩
  · intro s hs
    obtain ⟨t, ht1, ht2⟩ := held s hs
    refine ⟨t, ?_, ?_, ?_, fresh s hs⟩
    · rw [(vtkOsmLayer.lookup_GetCachedTile _ _ _ _).1]
      exact ht1
    · rw [(vtkOsmLayer.lookup_GetCachedTile _ _ _ _).1]
      exact ht2
    · intro hk
      exact found3 s.ZoomXY t hk ht2
  · intro url file hmem
    obtain ⟨s2, hs2, a, b⟩ := down3 url file hmem
    exact ⟨s2, hs2, a, b, fun s hs => fresh s hs s2 hs2⟩

/-- Claim C21 at the sample layer on a host on which every transfer fails, for a pass at
zoom 1, a pass at zoom 0, and a second pass at zoom 1. -/
theorem C21_witness_failing_host :
    ∃ r1 st r2,
      vtkOsmLayer.sample.AddTiles (Viewport.fullWorld 1) Host.failing = some r1 ∧
      vtkOsmLayer.AddTiles_passes (r1.layer, r1.host) [Viewport.fullWorld 0] = some st ∧
      st.1.AddTiles (Viewport.fullWorld 1) st.2 = some r2 ∧
      (∀ s ∈ r1.selected.tileSpecs,
        (r1.layer.GetCachedTile s.ZoomXY0 s.ZoomXY1 s.ZoomXY2).1 ≠ none ∧
        ∀ s2 ∈ r2.selected.tileSpecs, s2.ZoomXY ≠ s.ZoomXY) := by
  obtain ⟨r1, st, r2, e1, e2, e3, held, _⟩ :=
    C21_failed_fetch_is_cached_and_not_retried vtkOsmLayer.sample Host.failing
      (Viewport.fullWorld 1) [Viewport.fullWorld 0] (Viewport.fullWorld 1)
      "/tmp" "/tmp/tile.openstreetmap.org" rfl rfl
      (by simp [vtkOsmLayer.sample, vtkOsmLayer.New, derefAll])
  refine ⟨r1, st, r2, e1, e2, e3, ?_⟩
  intro s hs
  obtain ⟨t, h1, _, _, h4⟩ := held s hs
  exact ⟨by rw [h1]; simp, h4⟩

/-! ## The order in which tile actors are added -/

/-- The method `vtkOsmLayer::RenderTiles` does not sort: handed the visible tile at address
1 and then the hidden tile at address 0, a vector no pass of `AddTiles` hands it, it adds
the actor 11 of the visible tile before the actor 10 of the hidden tile. -/
theorem vtkOsmLayer.RenderTiles_does_not_sort :
    (vtkOsmLayer.mixed.objects 1).Bin = BinValue.ofBool true ∧
    (vtkOsmLayer.mixed.objects 0).Bin = BinValue.Hidden ∧
    (vtkOsmLayer.mixed.objects 1).Actor = some 11 ∧
    (vtkOsmLayer.mixed.objects 0).Actor = some 10 ∧
    (vtkOsmLayer.mixed.RenderTiles (Host.ofProps []) [some 1, some 0]).map
      (fun r => r.2.ViewProps) = some [11, 10] := by
  decide

theorem roundDouble_eq (x : ℚ) (e : Int) (he : -1022 ≤ e) (h1 : (2 : ℚ) ^ e ≤ |x|)
    (h2 : |x| < (2 : ℚ) ^ (e + 1)) :
    roundDouble x = (roundHalfEven (x / 2 ^ (e - 52)) : ℚ) * 2 ^ (e - 52) := by
  have hpos : 0 < |x| := lt_of_lt_of_le (by positivity) h1
  have hx : x ≠ 0 := abs_pos.mp hpos
  have hlog : Int.log 2 |x| = e := by
    apply le_antisymm
    · have := (Int.lt_zpow_iff_log_lt (by norm_num : 1 < 2) hpos).mp (by exact_mod_cast h2)
      omega
    · exact (Int.zpow_le_iff_le_log (by norm_num : 1 < 2) hpos).mp (by exact_mod_cast h1)
  simp only [roundDouble, hx, if_false, hlog, max_eq_left he]

theorem roundHalfEven_intCast (n : Int) : roundHalfEven (n : ℚ) = n := by
  simp [roundHalfEven]

theorem roundDouble_tiny : roundDouble (-(1 / 2 ^ 70)) = -(1 / 2 ^ 70) := by
  rw [roundDouble_eq _ (-70) (by norm_num) (by norm_num [abs_of_pos])
    (by norm_num [abs_of_pos])]
  have hq : (-(1 / 2 ^ 70) : ℚ) / 2 ^ ((-70 : Int) - 52) = ((-(2 ^ 52) : Int) : ℚ) := by
    norm_num
  rw [hq, roundHalfEven_intCast]
  norm_num

theorem roundDouble_tiny_add_180 : roundDouble (-(1 / 2 ^ 70) + 180) = 180 := by
  rw [roundDouble_eq _ 7 (by norm_num) (by norm_num [abs_of_pos]) (by norm_num [abs_of_pos])]
  have hf : ⌊((-(1 / 2 ^ 70) + 180 : ℚ) / 2 ^ ((7 : Int) - 52))⌋ = 180 * 2 ^ 45 - 1 := by
    rw [Int.floor_eq_iff]
    norm_num
  simp only [roundHalfEven, hf]
  norm_num

theorem roundDouble_half : roundDouble (180 / 360) = 1 / 2 := by
  rw [roundDouble_eq _ (-1) (by norm_num) (by norm_num [abs_of_pos])
    (by norm_num [abs_of_pos])]
  have hq : (180 / 360 : ℚ) / 2 ^ ((-1 : Int) - 52) = ((2 ^ 52 : Int) : ℚ) := by norm_num
  rw [hq, roundHalfEven_intCast]
  norm_num

theorem roundDouble_one : roundDouble (1 / 2 * 2 ^ 1) = 1 := by
  rw [roundDouble_eq _ 0 (by norm_num) (by norm_num [abs_of_pos]) (by norm_num [abs_of_pos])]
  have hq : (1 / 2 * 2 ^ 1 : ℚ) / 2 ^ ((0 : Int) - 52) = ((2 ^ 52 : Int) : ℚ) := by norm_num
  rw [hq, roundHalfEven_intCast]
  norm_num

theorem roundDouble_180 : roundDouble 180 = 180 := by
  rw [roundDouble_eq _ 7 (by norm_num) (by norm_num [abs_of_pos]) (by norm_num [abs_of_pos])]
  have hq : (180 : ℚ) / 2 ^ ((7 : Int) - 52) = ((180 * 2 ^ 45 : Int) : ℚ) := by norm_num
  rw [hq, roundHalfEven_intCast]
  norm_num

/-- Claim C3 as stated fails in `double` arithmetic: the longitude `-2^-70`, a `double`
in `[-180, 180)`, is absorbed by the sum `lon + 180.0`, so at zoom 1 `long2tilex`
returns the column 1, whose west corner 0 lies east of the point. -/
theorem C3_counterexample_longitude_absorbed :
    roundDouble (-(1 / 2 ^ 70)) = -(1 / 2 ^ 70) ∧
    (-180 : ℚ) ≤ -(1 / 2 ^ 70) ∧ (-(1 / 2 ^ 70) : ℚ) < 180 ∧
    long2tilex_double (-(1 / 2 ^ 70)) 1 = 1 ∧
    vtkOsmLayer.SelectTiles_Corners0_double 1 (long2tilex_double (-(1 / 2 ^ 70)) 1) = 0 ∧
    (vtkOsmLayer.SelectTiles_tileSpec 1 (long2tilex_double (-(1 / 2 ^ 70)) 1) 0).Corners0 = 0 ∧
    ¬ (vtkOsmLayer.SelectTiles_Corners0_double 1 (long2tilex_double (-(1 / 2 ^ 70)) 1)
        ≤ -(1 / 2 ^ 70)) := by
  have hcol : long2tilex_double (-(1 / 2 ^ 70)) 1 = 1 := by
    unfold long2tilex_double
    rw [roundDouble_tiny_add_180, roundDouble_half, roundDouble_one]
    norm_num
  have hcorner : vtkOsmLayer.SelectTiles_Corners0_double 1 1 = 0 := by
    have h1 : (360 : ℚ) / (((max 1 (2 ^ 1) : Int)) : ℚ) = 180 := by norm_num
    have h2 : (((1 : Int) : ℚ)) * 180 = 180 := by norm_num
    simp only [vtkOsmLayer.SelectTiles_Corners0_double, h1, roundDouble_180, h2]
    norm_num [roundDouble]
  refine ⟨roundDouble_tiny, by norm_num, by norm_num, hcol, ?_, ?_, ?_⟩
  · rw [hcol, hcorner]
  · rw [hcol]
    norm_num [vtkOsmLayer.SelectTiles_tileSpec]
  · rw [hcol, hcorner]
    norm_num
